import Mathlib

/-!
# LCDd `lcterm` driver: a shallow embedding of `server/drivers/lcterm.c`

The driver keeps two character grids (`framebuf`, `last_framebuf`) and two
custom-character modes (`ccmode`, `last_ccmode`).  Every exported function of
the driver is embedded as a pure function on a `Driver` value that also records
the `write` calls issued on the device and the `report` calls issued on the
logging sink, in the order they happen.

The message store of `shared/report.c` is embedded as well (`ReportState`,
`report`, `store_report_message`), and the display side of the wire format is
given in the words of the specification (`Display`, `wire_decode`).

Conventions.
* Bytes (`unsigned char`) are naturals; a value stored through a `char`
  parameter is reduced `% 256`.
* Coordinates and other `int` arguments are integers; `width` and `height`
  are naturals because `lcterm_init` stores only values checked to be positive.
* C division is `Int.tdiv` (truncation towards zero).
* A function whose source can store outside a buffer returns an `Option`; the
  result is `none` exactly where such a store happens (`lcterm_string`,
  `lcterm_flush`, `store_report_message`).
-/

namespace LCTerm

/-! ## Data model -/

/-- Modelled from the spec: the `CGmode` enumeration is declared in `lcd.h`, which is
not among the sources.  Section 3 of the specification lists its values as
Standard, VBar, HBar, BigNum and IconSet. -/
inductive CGmode where
  | standard
  | vbar
  | hbar
  | bignum
  | icons
  deriving DecidableEq, Repr

/-- Modelled from the spec: the report levels of `report.h` (not among the sources) that the
driver uses with the logging sink `report(level, format, ...)`. -/
inductive ReportLevel where
  | RPT_ERR
  | RPT_WARNING
  | RPT_INFO
  | RPT_DEBUG
  deriving DecidableEq, Repr

/-- Constants of `lcd.h`, which is not among the sources: they are parameters of the
embedding. -/
structure LcdConsts where
  LCD_MAX_WIDTH : Int
  LCD_MAX_HEIGHT : Int
  LCD_DEFAULT_CELLWIDTH : Int
  LCD_DEFAULT_CELLHEIGHT : Int
  ICON_BLOCK_FILLED : Int
  ICON_HEART_OPEN : Int
  ICON_HEART_FILLED : Int
  deriving DecidableEq, Repr

/-- The values these constants have in the LCDproc distribution; used for concrete runs. -/
def lcd_h : LcdConsts :=
  { LCD_MAX_WIDTH := 256, LCD_MAX_HEIGHT := 256,
    LCD_DEFAULT_CELLWIDTH := 5, LCD_DEFAULT_CELLHEIGHT := 8,
    ICON_BLOCK_FILLED := 0x100, ICON_HEART_OPEN := 0x108, ICON_HEART_FILLED := 0x109 }

/-- The record `struct lcterm_private_data`. -/
structure PrivateData where
  ccmode : CGmode
  last_ccmode : CGmode
  framebuf : List Nat
  last_framebuf : List Nat
  width : Nat
  height : Nat
  fd : Int
  deriving DecidableEq, Repr

/-- A driver instance together with its observable effects: `written` lists the byte
buffers of the `write(p->fd, ...)` calls, oldest first, and `reported` the calls of
`report`, oldest first. -/
structure Driver where
  name : String
  private_data : PrivateData
  written : List (List Nat)
  reported : List (ReportLevel × String)
  deriving DecidableEq, Repr

/-- The call `write(p->fd, buf, n)`: the buffer is appended to the record of writes. -/
def Driver.write (d : Driver) (buf : List Nat) : Driver :=
  { d with written := d.written ++ [buf] }

/-- The call `report(level, msg)`. -/
def Driver.report (d : Driver) (level : ReportLevel) (msg : String) : Driver :=
  { d with reported := d.reported ++ [(level, msg)] }

/-- Both grids hold exactly `width * height` bytes, as allocated by `lcterm_init`. -/
def WF (d : Driver) : Prop :=
  d.private_data.framebuf.length = d.private_data.width * d.private_data.height ∧
  d.private_data.last_framebuf.length = d.private_data.width * d.private_data.height

instance (d : Driver) : Decidable (WF d) := by
  unfold WF; infer_instance

/-! ## `lcterm_clear`, `lcterm_flush`, `lcterm_chr` -/

/-- The call `memset(buf, c, n)` on a byte buffer. -/
def memset (buf : List Nat) (c n : Nat) : List Nat :=
  List.replicate (min n buf.length) c ++ buf.drop n

/-- The call `memcpy(dst, src, n)` on byte buffers. -/
def memcpy (dst src : List Nat) (n : Nat) : List Nat :=
  src.take n ++ dst.drop n

/-- The test `memcmp(a, b, n) == 0`. -/
def memcmp_eq (a b : List Nat) (n : Nat) : Bool :=
  a.take n == b.take n

/-- Source: `lcterm_clear`. -/
def lcterm_clear (d : Driver) : Driver :=
  let p := d.private_data
  { d with private_data :=
      { p with framebuf := memset p.framebuf 0x20 (p.width * p.height),
               ccmode := CGmode.standard } }

/-- Inner loop of `lcterm_flush`: `i` cells are read from position `sp` of the frame
buffer; a cell below `0x08` is preceded by `0x1B`. -/
def flush_cells (fb : List Nat) : Nat → Nat → List Nat
  | 0, _ => []
  | i + 1, sp =>
    let c := fb.getD sp 0
    (if c < 0x08 then [0x1B, c] else [c]) ++ flush_cells fb i (sp + 1)

/-- Outer loop of `lcterm_flush`: `line` rows of `width` cells are read from position
`sp`, each followed by `0x0a 0x0d`. -/
def flush_lines (fb : List Nat) (width : Nat) : Nat → Nat → List Nat
  | 0, _ => []
  | line + 1, sp =>
    flush_cells fb width sp ++ [0x0a, 0x0d] ++ flush_lines fb width line (sp + width)

/-- The buffer `buf .. dp` composed by `lcterm_flush`. -/
def flush_buf (p : PrivateData) : List Nat :=
  0x1E :: flush_lines p.framebuf p.width p.height 0

/-- The number of bytes `lcterm_flush` reserves with `alloca` for its output buffer. -/
def flush_alloca (p : PrivateData) : Nat :=
  p.width * p.height * 2 + 5

/-- Source: `lcterm_flush`.  The result is `none` when the stores through `dp` run past
the end of the buffer reserved with `alloca`, i.e. when the composed stream is longer
than `width * height * 2 + 5` bytes (undefined behaviour in C). -/
def lcterm_flush (d : Driver) : Option Driver :=
  let p := d.private_data
  if memcmp_eq p.framebuf p.last_framebuf (p.width * p.height) then some d
  else if flush_alloca p < (flush_buf p).length then none
  else
    let d1 := d.write (flush_buf p)
    some { d1 with private_data :=
        { p with last_framebuf := memcpy p.last_framebuf p.framebuf (p.width * p.height) } }

/-- The context in which `lcterm_flush` returns, whenever it returns: unchanged when the
grids compare equal, otherwise with the composed buffer written and the current grid
copied to the committed grid. -/
def flush_done (d : Driver) : Driver :=
  let p := d.private_data
  if memcmp_eq p.framebuf p.last_framebuf (p.width * p.height) then d
  else
    let d1 := d.write (flush_buf p)
    { d1 with private_data :=
        { p with last_framebuf := memcpy p.last_framebuf p.framebuf (p.width * p.height) } }

/-- Source: `lcterm_chr`.  The character is stored into an `unsigned char`. -/
def lcterm_chr (d : Driver) (x y : Int) (c : Nat) : Driver :=
  let p := d.private_data
  let y := y - 1
  let x := x - 1
  if x ≥ 0 ∧ x < p.width ∧ y ≥ 0 ∧ y < p.height then
    { d with private_data :=
        { p with framebuf := p.framebuf.set (y * p.width + x).toNat (c % 256) } }
  else d


/-! ## Glyph bitmaps (5 columns by 8 rows, row-major), as in the source -/

/-- Table of `lcterm_init_vbar`. -/
def vbar_1 : List Nat :=
  [
    0, 0, 0, 0, 0,  0, 0, 0, 0, 0,
    0, 0, 0, 0, 0,  0, 0, 0, 0, 0,
    0, 0, 0, 0, 0,  0, 0, 0, 0, 0,
    0, 0, 0, 0, 0,  1, 1, 1, 1, 1 ]

/-- Table of `lcterm_init_vbar`. -/
def vbar_2 : List Nat :=
  [
    0, 0, 0, 0, 0,  0, 0, 0, 0, 0,
    0, 0, 0, 0, 0,  0, 0, 0, 0, 0,
    0, 0, 0, 0, 0,  0, 0, 0, 0, 0,
    1, 1, 1, 1, 1,  1, 1, 1, 1, 1 ]

/-- Table of `lcterm_init_vbar`. -/
def vbar_3 : List Nat :=
  [
    0, 0, 0, 0, 0,  0, 0, 0, 0, 0,
    0, 0, 0, 0, 0,  0, 0, 0, 0, 0,
    0, 0, 0, 0, 0,  1, 1, 1, 1, 1,
    1, 1, 1, 1, 1,  1, 1, 1, 1, 1 ]

/-- Table of `lcterm_init_vbar`. -/
def vbar_4 : List Nat :=
  [
    0, 0, 0, 0, 0,  0, 0, 0, 0, 0,
    0, 0, 0, 0, 0,  0, 0, 0, 0, 0,
    1, 1, 1, 1, 1,  1, 1, 1, 1, 1,
    1, 1, 1, 1, 1,  1, 1, 1, 1, 1 ]

/-- Table of `lcterm_init_vbar`. -/
def vbar_5 : List Nat :=
  [
    0, 0, 0, 0, 0,  0, 0, 0, 0, 0,
    0, 0, 0, 0, 0,  1, 1, 1, 1, 1,
    1, 1, 1, 1, 1,  1, 1, 1, 1, 1,
    1, 1, 1, 1, 1,  1, 1, 1, 1, 1 ]

/-- Table of `lcterm_init_vbar`. -/
def vbar_6 : List Nat :=
  [
    0, 0, 0, 0, 0,  0, 0, 0, 0, 0,
    1, 1, 1, 1, 1,  1, 1, 1, 1, 1,
    1, 1, 1, 1, 1,  1, 1, 1, 1, 1,
    1, 1, 1, 1, 1,  1, 1, 1, 1, 1 ]

/-- Table of `lcterm_init_vbar`. -/
def vbar_7 : List Nat :=
  [
    0, 0, 0, 0, 0,  1, 1, 1, 1, 1,
    1, 1, 1, 1, 1,  1, 1, 1, 1, 1,
    1, 1, 1, 1, 1,  1, 1, 1, 1, 1,
    1, 1, 1, 1, 1,  1, 1, 1, 1, 1 ]

/-- Table of `lcterm_init_hbar`. -/
def hbar_1 : List Nat :=
  [
    1, 0, 0, 0, 0,  1, 0, 0, 0, 0,
    1, 0, 0, 0, 0,  1, 0, 0, 0, 0,
    1, 0, 0, 0, 0,  1, 0, 0, 0, 0,
    1, 0, 0, 0, 0,  1, 0, 0, 0, 0 ]

/-- Table of `lcterm_init_hbar`. -/
def hbar_2 : List Nat :=
  [
    1, 1, 0, 0, 0,  1, 1, 0, 0, 0,
    1, 1, 0, 0, 0,  1, 1, 0, 0, 0,
    1, 1, 0, 0, 0,  1, 1, 0, 0, 0,
    1, 1, 0, 0, 0,  1, 1, 0, 0, 0 ]

/-- Table of `lcterm_init_hbar`. -/
def hbar_3 : List Nat :=
  [
    1, 1, 1, 0, 0,  1, 1, 1, 0, 0,
    1, 1, 1, 0, 0,  1, 1, 1, 0, 0,
    1, 1, 1, 0, 0,  1, 1, 1, 0, 0,
    1, 1, 1, 0, 0,  1, 1, 1, 0, 0 ]

/-- Table of `lcterm_init_hbar`. -/
def hbar_4 : List Nat :=
  [
    1, 1, 1, 1, 0,  1, 1, 1, 1, 0,
    1, 1, 1, 1, 0,  1, 1, 1, 1, 0,
    1, 1, 1, 1, 0,  1, 1, 1, 1, 0,
    1, 1, 1, 1, 0,  1, 1, 1, 1, 0 ]

/-- Table of `lcterm_init_hbar`. -/
def hbar_5 : List Nat :=
  [
    1, 1, 1, 1, 1,  1, 1, 1, 1, 1,
    1, 1, 1, 1, 1,  1, 1, 1, 1, 1,
    1, 1, 1, 1, 1,  1, 1, 1, 1, 1,
    1, 1, 1, 1, 1,  1, 1, 1, 1, 1 ]

/-- Table of `lcterm_icon`. -/
def heart_open : List Nat :=
  [
    1, 1, 1, 1, 1,  1, 0, 1, 0, 1,
    0, 0, 0, 0, 0,  0, 0, 0, 0, 0,
    0, 0, 0, 0, 0,  1, 0, 0, 0, 1,
    1, 1, 0, 1, 1,  1, 1, 1, 1, 1 ]

/-- Table of `lcterm_icon`. -/
def heart_filled : List Nat :=
  [
    1, 1, 1, 1, 1,  1, 0, 1, 0, 1,
    0, 1, 0, 1, 0,  0, 1, 1, 1, 0,
    0, 1, 1, 1, 0,  1, 0, 1, 0, 1,
    1, 1, 0, 1, 1,  1, 1, 1, 1, 1 ]

/-- Table of `lcterm_init_num`. -/
def bignum_ccs : List (List Nat) :=
  [
   [
    1, 1, 0, 0, 0,  1, 1, 0, 0, 0,
    1, 1, 0, 0, 0,  0, 0, 0, 0, 0,
    0, 0, 0, 0, 0,  0, 0, 0, 0, 0,
    0, 0, 0, 0, 0,  0, 0, 0, 0, 0 ],
   [
    0, 0, 0, 1, 1,  0, 0, 0, 1, 1,
    0, 0, 0, 1, 1,  0, 0, 0, 0, 0,
    1, 1, 0, 0, 0,  1, 1, 0, 0, 0,
    1, 1, 0, 0, 0,  0, 0, 0, 0, 0 ],
   [
    1, 1, 0, 1, 1,  1, 1, 0, 1, 1,
    1, 1, 0, 1, 1,  0, 0, 0, 0, 0,
    0, 0, 0, 0, 0,  0, 0, 0, 0, 0,
    0, 0, 0, 0, 0,  0, 0, 0, 0, 0 ],
   [
    0, 0, 0, 0, 0,  0, 0, 0, 0, 0,
    0, 0, 0, 0, 0,  0, 0, 0, 0, 0,
    1, 1, 0, 0, 0,  1, 1, 0, 0, 0,
    1, 1, 0, 0, 0,  0, 0, 0, 0, 0 ],
   [
    1, 1, 0, 0, 0,  1, 1, 0, 0, 0,
    1, 1, 0, 0, 0,  0, 0, 0, 0, 0,
    0, 0, 0, 1, 1,  0, 0, 0, 1, 1,
    0, 0, 0, 1, 1,  0, 0, 0, 0, 0 ],
   [
    0, 0, 0, 0, 0,  0, 0, 0, 0, 0,
    0, 0, 0, 0, 0,  0, 0, 0, 0, 0,
    1, 1, 0, 1, 1,  1, 1, 0, 1, 1,
    1, 1, 0, 1, 1,  0, 0, 0, 0, 0 ],
   [
    1, 1, 0, 0, 0,  1, 1, 0, 0, 0,
    1, 1, 0, 0, 0,  0, 0, 0, 0, 0,
    1, 1, 0, 0, 0,  1, 1, 0, 0, 0,
    1, 1, 0, 0, 0,  0, 0, 0, 0, 0 ],
   [
    0, 0, 0, 1, 1,  0, 0, 0, 1, 1,
    0, 0, 0, 1, 1,  0, 0, 0, 0, 0,
    0, 0, 0, 0, 0,  0, 0, 0, 0, 0,
    0, 0, 0, 0, 0,  0, 0, 0, 0, 0 ] ]

/-! ## `lcterm_string`, `lcterm_set_char` -/

/-- Loop of `lcterm_string`: the characters up to the terminating `'\0'` are stored at
`y * width + x`, `x` advancing while `x < width`.  The result is `none` when a store
falls outside the allocated frame buffer (undefined behaviour in C). -/
def string_loop (width : Nat) (y : Int) : List Nat → Int → List Nat → Option (List Nat)
  | [], _, fb => some fb
  | c :: rest, x, fb =>
    if c % 256 ≠ 0 ∧ x < width then
      let i := y * width + x
      if 0 ≤ i ∧ i < fb.length then
        string_loop width y rest (x + 1) (fb.set i.toNat (c % 256))
      else none
    else some fb

/-- Source: `lcterm_string`. -/
def lcterm_string (d : Driver) (x y : Int) (string : List Nat) : Option Driver :=
  let p := d.private_data
  let x := x - 1
  let y := y - 1
  (string_loop p.width y string x p.framebuf).map
    (fun fb => { d with private_data := { p with framebuf := fb } })

/-- Rows of `lcterm_set_char`: the five pixels of a row are shifted into `data`, most
significant first, and bit 7 is set in the byte stored. -/
def set_char_row (dat : List Nat) (row : Nat) : Nat :=
  let data := (List.range 5).foldl
    (fun data col => (data <<< 1) ||| (if dat.getD (5 * row + col) 0 ≠ 0 then 1 else 0)) 0
  (data ||| 0x80) % 256

/-- Source: `lcterm_set_char`; `dat = none` is the null pointer. -/
def lcterm_set_char (d : Driver) (n : Int) (dat : Option (List Nat)) : Driver :=
  match dat with
  | none => d
  | some dat =>
    if n < 0 ∨ n > 7 then d
    else
      d.write ([0x1F, (8 * n % 256).toNat] ++ (List.range 8).map (set_char_row dat) ++ [0x1E])

/-! ## Custom-character modes -/

/-- The warning of the three `lcterm_init_*` functions. -/
def mode_warning (d : Driver) (who : String) : Driver :=
  d.report ReportLevel.RPT_WARNING
    (d.name ++ ": " ++ who ++ ": cannot combine two modes using user-defined characters")

/-- The assignment `p->ccmode = p->last_ccmode = m`. -/
def set_modes (d : Driver) (m : CGmode) : Driver :=
  { d with private_data := { d.private_data with ccmode := m, last_ccmode := m } }

/-- Source: `lcterm_init_vbar`. -/
def lcterm_init_vbar (d : Driver) : Driver :=
  if d.private_data.last_ccmode = CGmode.vbar then d
  else if d.private_data.ccmode ≠ CGmode.standard then mode_warning d "init_vbar"
  else
    let d := set_modes d CGmode.vbar
    let d := lcterm_set_char d 1 (some vbar_1)
    let d := lcterm_set_char d 2 (some vbar_2)
    let d := lcterm_set_char d 3 (some vbar_3)
    let d := lcterm_set_char d 4 (some vbar_4)
    let d := lcterm_set_char d 5 (some vbar_5)
    let d := lcterm_set_char d 6 (some vbar_6)
    lcterm_set_char d 7 (some vbar_7)

/-- Source: `lcterm_init_hbar`. -/
def lcterm_init_hbar (d : Driver) : Driver :=
  if d.private_data.last_ccmode = CGmode.hbar then d
  else if d.private_data.ccmode ≠ CGmode.standard then mode_warning d "init_hbar"
  else
    let d := set_modes d CGmode.hbar
    let d := lcterm_set_char d 1 (some hbar_1)
    let d := lcterm_set_char d 2 (some hbar_2)
    let d := lcterm_set_char d 3 (some hbar_3)
    let d := lcterm_set_char d 4 (some hbar_4)
    lcterm_set_char d 5 (some hbar_5)

/-- Source: `lcterm_init_num`; the loop `for (i = 0; i < 8; i++)` programs the eight
slots in order. -/
def lcterm_init_num (d : Driver) : Driver :=
  if d.private_data.last_ccmode = CGmode.bignum then d
  else if d.private_data.ccmode ≠ CGmode.standard then mode_warning d "init_num"
  else
    (List.range 8).foldl
      (fun d (i : Nat) => lcterm_set_char d (i : Int) (some (bignum_ccs.getD i [])))
      (set_modes d CGmode.bignum)

/-! ## Icons and big numbers -/

/-- Source: `lcterm_icon`; the first component is the value returned. -/
def lcterm_icon (K : LcdConsts) (d : Driver) (x y icon : Int) : Int × Driver :=
  if icon = K.ICON_BLOCK_FILLED then (0, lcterm_chr d x y 255)
  else if icon = K.ICON_HEART_FILLED then
    (0, lcterm_chr (lcterm_set_char d 0 (some heart_filled)) x y 0)
  else if icon = K.ICON_HEART_OPEN then
    (0, lcterm_chr (lcterm_set_char d 0 (some heart_open)) x y 0)
  else (-1, d)

/-- Table of `lcterm_num`; the rows of the colon have one initialiser, the remaining
entries are zero. -/
def bignum_map : List (List (List Nat)) :=
  [ [[1, 2, 3], [6, 32, 6], [6, 32, 6], [7, 2, 32]],
    [[7, 6, 32], [32, 6, 32], [32, 6, 32], [7, 2, 32]],
    [[1, 2, 3], [32, 5, 0], [1, 32, 32], [2, 2, 0]],
    [[1, 2, 3], [32, 5, 0], [3, 32, 6], [7, 2, 32]],
    [[32, 3, 6], [1, 32, 6], [2, 2, 6], [32, 32, 0]],
    [[1, 2, 0], [2, 2, 3], [3, 32, 6], [7, 2, 32]],
    [[1, 2, 32], [6, 5, 32], [6, 32, 6], [7, 2, 32]],
    [[2, 2, 6], [32, 1, 32], [32, 6, 32], [32, 0, 32]],
    [[1, 2, 3], [4, 5, 0], [6, 32, 6], [7, 2, 32]],
    [[1, 2, 3], [4, 3, 6], [32, 1, 32], [7, 32, 32]],
    [[32, 0, 0], [7, 0, 0], [7, 0, 0], [32, 0, 0]] ]

/-- The entry `bignum_map[num][y2][x2]`. -/
def bignum_entry (num y2 x2 : Nat) : Nat :=
  ((bignum_map.getD num []).getD y2 []).getD x2 0

/-- Inner loop of `lcterm_num`: `for (y2 = 0; y2 <= 3; y2++)`. -/
def num_column (d : Driver) (x y : Int) (num x2 : Nat) : Driver :=
  (List.range 4).foldl
    (fun d (y2 : Nat) => lcterm_chr d (x + x2) (y + y2) (bignum_entry num y2 x2)) d

/-- Outer loop of `lcterm_num`: `for (x2 = 0; x2 <= 2; x2++)`, where the colon sets
`x2 = 2` after its first column.  The first argument bounds the number of iterations. -/
def num_loop (x y : Int) (num : Nat) : Nat → Nat → Driver → Driver
  | 0, _, d => d
  | fuel + 1, x2, d =>
    if x2 ≤ 2 then
      let d := num_column d x y num x2
      let x2 := if num = 10 then 2 else x2
      num_loop x y num fuel (x2 + 1) d
    else d

/-- Source: `lcterm_num`. -/
def lcterm_num (d : Driver) (x num : Int) : Driver :=
  if num < 0 ∨ num > 10 then d
  else if d.private_data.height ≥ 4 then
    let y : Int := Int.tdiv ((d.private_data.height : Int) - 2) 2
    num_loop x y num.toNat 3 0 (lcterm_init_num d)
  else
    lcterm_chr d x (1 + Int.tdiv ((d.private_data.height : Int) - 1) 2)
      (if num = 10 then 58 else (num + 48).toNat)

/-! ## Bars -/

/-- Modelled from the spec: `lib_vbar_static` and `lib_hbar_static` belong to
`lcd_lib.c`, which is not among the sources.  Section 4.4: `totalUnits = len * cellPixels`
and `filledUnits = round(promille / 1000 * totalUnits)`, clamped to `[0, totalUnits]`. -/
def filledUnits (len promille cellPixels : Int) : Int :=
  let totalUnits := len * cellPixels
  max 0 (min totalUnits ((2 * promille * totalUnits + 1000) / 2000))

/-- Modelled from the spec: cell number `pos` of a bar, counted from its origin end
(section 4.4).  A cell fully inside the filled region gets the fully-filled glyph, drawn
with the driver's filled-block icon; the boundary cell gets the partial glyph numbered by
its filled units; a cell beyond the boundary gets a space. -/
def bar_cell (K : LcdConsts) (d : Driver) (x y filled cellPixels cc_offset : Int)
    (pos : Nat) : Driver :=
  if ((pos : Int) + 1) * cellPixels ≤ filled then
    (lcterm_icon K d x y K.ICON_BLOCK_FILLED).2
  else if (pos : Int) * cellPixels < filled then
    lcterm_chr d x y ((filled - pos * cellPixels + cc_offset) % 256).toNat
  else lcterm_chr d x y 0x20

/-- Modelled from the spec: the vertical bar renderer `lib_vbar_static` of `lcd_lib.c`
(not among the sources), section 4.4: `len` cells upwards from `(x, y)`. -/
def lib_vbar_static (K : LcdConsts) (d : Driver)
    (x y len promille _options cellheight cc_offset : Int) : Driver :=
  (List.range len.toNat).foldl
    (fun d (pos : Nat) => bar_cell K d x (y - pos) (filledUnits len promille cellheight)
      cellheight cc_offset pos) d

/-- Modelled from the spec: the horizontal bar renderer `lib_hbar_static` of `lcd_lib.c`
(not among the sources), section 4.4: `len` cells rightwards from `(x, y)`. -/
def lib_hbar_static (K : LcdConsts) (d : Driver)
    (x y len promille _options cellwidth cc_offset : Int) : Driver :=
  (List.range len.toNat).foldl
    (fun d (pos : Nat) => bar_cell K d (x + pos) y (filledUnits len promille cellwidth)
      cellwidth cc_offset pos) d

/-- Source: `lcterm_vbar`. -/
def lcterm_vbar (K : LcdConsts) (d : Driver) (x y len promille options : Int) : Driver :=
  lib_vbar_static K (lcterm_init_vbar d) x y len promille options K.LCD_DEFAULT_CELLHEIGHT 0

/-- Source: `lcterm_hbar`. -/
def lcterm_hbar (K : LcdConsts) (d : Driver) (x y len promille options : Int) : Driver :=
  lib_hbar_static K (lcterm_init_hbar d) x y len promille options K.LCD_DEFAULT_CELLWIDTH 0

/-! ## `lcterm_init` -/

/-- The C predicate `isspace` in the "C" locale. -/
def isspace (c : Char) : Bool :=
  c.toNat = 32 || (9 ≤ c.toNat && c.toNat ≤ 13)

/-- Decimal digits at the head of the input: their value, and the rest of the input. -/
def scan_digits : List Char → Nat → Nat × List Char
  | [], acc => (acc, [])
  | c :: rest, acc =>
    if c.isDigit then scan_digits rest (10 * acc + (c.toNat - 48)) else (acc, c :: rest)

/-- The value `strtol` returns for the number `v` where `long` has 64 bits: `v` itself,
or `LONG_MIN` / `LONG_MAX` when `v` is out of range. -/
def strtol_value (v : Int) : Int :=
  if v < -9223372036854775808 then -9223372036854775808
  else if v > 9223372036854775807 then 9223372036854775807
  else v

/-- The value an `int` of 32 bits holds after the `long` value `v` has been converted to
it (reduction modulo `2^32` into `-2^31 .. 2^31 - 1`). -/
def int_of_long (v : Int) : Int :=
  (v + 2147483648) % 4294967296 - 2147483648

/-- The conversion `%d` of `sscanf`: white space is skipped, then an optional sign and
at least one digit are read.  `none` is a matching failure.  The number read is
converted as the C library does it on a platform with a 64-bit `long` and a 32-bit
`int`: by `strtol`, the result then being stored into the `int`; so a number outside the
range of `int` is stored reduced modulo `2^32`. -/
def scan_d (s : List Char) : Option (Int × List Char) :=
  let body (neg : Bool) (r : List Char) : Option (Int × List Char) :=
    match r with
    | [] => none
    | c :: _ =>
      if c.isDigit then
        let (n, rest) := scan_digits r 0
        some (int_of_long (strtol_value (if neg then -(n : Int) else (n : Int))), rest)
      else none
  match s.dropWhile isspace with
  | '-' :: r => body true r
  | '+' :: r => body false r
  | r => body false r

/-- The call `sscanf(s, "%dx%d", &w, &h)`: the number of conversions made and the values
assigned (reported as `0` where no assignment happens). -/
def sscanf_dxd (s : List Char) : Nat × Int × Int :=
  match scan_d s with
  | none => (0, 0, 0)
  | some (w, r) =>
    match r with
    | 'x' :: r2 =>
      match scan_d r2 with
      | none => (1, w, 0)
      | some (h, _) => (2, w, h)
    | _ => (1, w, 0)

/-- The size block of `lcterm_init`: the dimensions stored and whether the warning is
reported. -/
def parse_size (K : LcdConsts) (s : String) : Int × Int × Bool :=
  let (n, w, h) := sscanf_dxd s.toList
  if n ≠ 2 ∨ w ≤ 0 ∨ w > K.LCD_MAX_WIDTH ∨ h ≤ 0 ∨ h > K.LCD_MAX_HEIGHT then
    let (_, w, h) := sscanf_dxd "16x2".toList
    (w, h, true)
  else (w, h, false)

/-- Source: `lcterm_init`.  `device` and `size` are the strings the configuration returns
for the keys `Device` and `Size`, `alloc_ok` says whether the allocations (and the
storing of the private pointer) succeed, `fd` is the result of `open`.  The result is
`none` where the function returns `-1`. -/
def lcterm_init (K : LcdConsts) (name device size : String) (alloc_ok : Bool) (fd : Int) :
    Option Driver :=
  if ¬ alloc_ok then none
  else
    let (w, h, bad) := parse_size K size
    let n := w.toNat * h.toNat
    let p : PrivateData :=
      { ccmode := CGmode.standard, last_ccmode := CGmode.standard,
        framebuf := memset (List.replicate n 0) 0x20 n,
        last_framebuf := memset (List.replicate n 0) 0x20 n,
        width := w.toNat, height := h.toNat, fd := fd }
    let d : Driver := { name := name, private_data := p, written := [], reported := [] }
    let d := d.report ReportLevel.RPT_INFO (name ++ ": using Device " ++ device)
    let d := if bad then
        d.report ReportLevel.RPT_WARNING
          (name ++ ": cannot read Size: " ++ size ++ "; using default 16x2")
      else d
    let d := d.report ReportLevel.RPT_INFO
      (name ++ ": using Size: " ++ toString w ++ "x" ++ toString h)
    if fd = -1 then none
    else
      let d := d.report ReportLevel.RPT_INFO (name ++ ": opened display on " ++ device)
      let d := d.write [0x1a, 0x16, 0x1b, 0x4b]
      some (d.report ReportLevel.RPT_DEBUG (name ++ ": init() done"))

/-! ## Sequences of driver calls -/

/-- The calls of the drawing interface. -/
inductive Op where
  | chr (x y : Int) (c : Nat)
  | string (x y : Int) (s : List Nat)
  | clear
  | vbar (x y len promille options : Int)
  | hbar (x y len promille options : Int)
  | num (x num : Int)
  | icon (x y icon : Int)
  | flush
  deriving DecidableEq, Repr

/-- Calls that are certain to return: a `string` call whose start lies on the grid, a
`flush` whose stream fits the buffer reserved for it, and every other call. -/
def Op.inRange (d : Driver) : Op → Prop
  | Op.string x y _ =>
    1 ≤ x ∧ x ≤ d.private_data.width ∧ 1 ≤ y ∧ y ≤ d.private_data.height
  | Op.flush => (flush_buf d.private_data).length ≤ flush_alloca d.private_data
  | _ => True

instance (d : Driver) (op : Op) : Decidable (op.inRange d) := by
  cases op <;> unfold Op.inRange <;> infer_instance

/-- One call. -/
def step (K : LcdConsts) (d : Driver) : Op → Option Driver
  | Op.chr x y c => some (lcterm_chr d x y c)
  | Op.string x y s => lcterm_string d x y s
  | Op.clear => some (lcterm_clear d)
  | Op.vbar x y len promille options => some (lcterm_vbar K d x y len promille options)
  | Op.hbar x y len promille options => some (lcterm_hbar K d x y len promille options)
  | Op.num x num => some (lcterm_num d x num)
  | Op.icon x y icon => some (lcterm_icon K d x y icon).2
  | Op.flush => lcterm_flush d

/-- The states reachable from `lcterm_init` by calls of the drawing interface: any call
that returns leads to a reachable state. -/
inductive Reachable (K : LcdConsts) : Driver → Prop where
  | init (name device size : String) (fd : Int) (d : Driver) :
      lcterm_init K name device size true fd = some d → Reachable K d
  | step (d d' : Driver) (op : Op) :
      Reachable K d → step K d op = some d' → Reachable K d'

/-! ## The wire format in the words of the specification -/

/-- Specification, section 4.1 (`writeGlyphSafe`): a glyph code below the number of
programmable slots is preceded by the escape marker `0x1B`. -/
def writeGlyphSafe (c : Nat) : List Nat :=
  if c < 8 then [0x1B, c] else [c]

/-- The cell of the current grid in row `r` and column `col`, both counted from 0. -/
def cell (p : PrivateData) (r col : Nat) : Nat :=
  p.framebuf.getD (r * p.width + col) 0

/-- Specification, section 4.3: a row is its cells from left to right, each passed
through `writeGlyphSafe`, followed by the row terminator `0x0A 0x0D`. -/
def frame_row (p : PrivateData) (r : Nat) : List Nat :=
  (List.range p.width).flatMap (fun col => writeGlyphSafe (cell p r col)) ++ [0x0A, 0x0D]

/-- Specification, section 4.3: the cursor-home code `0x1E`, then the rows from top to
bottom. -/
def frame_bytes (p : PrivateData) : List Nat :=
  0x1E :: (List.range p.height).flatMap (frame_row p)

/-- The contents of the output buffer of `lcterm_flush` at the moment its loops reach
cell `k` (row-major index): the cursor-home code, `k / width` complete rows and the first
`k % width` cells of the next row. -/
def flush_prefix (p : PrivateData) (k : Nat) : List Nat :=
  0x1E :: (flush_lines p.framebuf p.width (k / p.width) 0
    ++ flush_cells p.framebuf (k % p.width) (k / p.width * p.width))

/-- Every byte below 8 of a stream has the escape byte `0x1B` immediately before it. -/
def Escaped (s : List Nat) : Prop :=
  ∀ i b, s[i]? = some b → b < 8 → ∃ j, i = j + 1 ∧ s[j]? = some 0x1B

/-! ## Effects of a call -/

/-- The eleven bytes `lcterm_set_char` writes for slot `n` and bitmap `dat`. -/
def glyph_frame (n : Nat) (dat : List Nat) : List Nat :=
  [0x1F, 8 * n] ++ (List.range 8).map (set_char_row dat) ++ [0x1E]

/-- The writes of `lcterm_init_vbar` when it programs the display. -/
def vbar_frames : List (List Nat) :=
  [glyph_frame 1 vbar_1, glyph_frame 2 vbar_2, glyph_frame 3 vbar_3, glyph_frame 4 vbar_4,
   glyph_frame 5 vbar_5, glyph_frame 6 vbar_6, glyph_frame 7 vbar_7]

/-- The writes of `lcterm_init_hbar` when it programs the display. -/
def hbar_frames : List (List Nat) :=
  [glyph_frame 1 hbar_1, glyph_frame 2 hbar_2, glyph_frame 3 hbar_3, glyph_frame 4 hbar_4,
   glyph_frame 5 hbar_5]

/-- The writes of `lcterm_init_num` when it programs the display. -/
def bignum_frames : List (List Nat) :=
  (List.range 8).map (fun i => glyph_frame i (bignum_ccs.getD i []))

/-- The report a rejected mode request adds. -/
def warning_entry (d : Driver) (who : String) : ReportLevel × String :=
  (ReportLevel.RPT_WARNING,
    d.name ++ ": " ++ who ++ ": cannot combine two modes using user-defined characters")

/-- The context `d'` differs from `d` at most in the contents of the current grid, whose
size is the same. -/
def GridOnly (d d' : Driver) : Prop :=
  ∃ fb : List Nat, fb.length = d.private_data.framebuf.length ∧
    d' = { d with private_data := { d.private_data with framebuf := fb } }

/-- From `d` to `d'` the committed grid, the dimensions, the size of the current grid and
the name are kept, and every write added starts with the glyph-programming code `0x1F`. -/
def Quiet (d d' : Driver) : Prop :=
  d'.name = d.name ∧
  (∃ ws : List (List Nat), (∀ w ∈ ws, w.head? = some 0x1F) ∧ d'.written = d.written ++ ws) ∧
  d'.private_data.last_framebuf = d.private_data.last_framebuf ∧
  d'.private_data.width = d.private_data.width ∧
  d'.private_data.height = d.private_data.height ∧
  d'.private_data.framebuf.length = d.private_data.framebuf.length

/-- The relation between the two mode fields that holds in every reachable state. -/
def ModeInv (d : Driver) : Prop :=
  d.private_data.ccmode = CGmode.standard ∨
    d.private_data.ccmode = d.private_data.last_ccmode

/-- A write of `lcterm_flush` is recognised by its first byte, the cursor-home code
`0x1E`; the other writes of the driver start with `0x1F` (glyph programming) or `0x1A`
(the start-up sequence of `lcterm_init`). -/
def is_flush_write (buf : List Nat) : Bool :=
  buf.head? == some 0x1E

/-- The most recent flush transmission among the writes issued, if there is one. -/
def last_flush (ws : List (List Nat)) : Option (List Nat) :=
  (ws.filter is_flush_write).getLast?

/-- The buffer the loops of `lcterm_flush` compose for the grid `g` on a display of
`width` by `height` cells. -/
def encode_grid (width height : Nat) (g : List Nat) : List Nat :=
  0x1E :: flush_lines g width height 0

/-- The snapshot invariant: when no flush has transmitted yet the committed grid is all
spaces; otherwise the committed grid is the one grid of the display's size that the most
recent flush transmission encodes. -/
def Snapshot (d : Driver) : Prop :=
  (last_flush d.written = none →
    d.private_data.last_framebuf
      = List.replicate (d.private_data.width * d.private_data.height) 0x20) ∧
  (∀ t, last_flush d.written = some t →
    ∀ g : List Nat, g.length = d.private_data.width * d.private_data.height →
      (encode_grid d.private_data.width d.private_data.height g = t ↔
        g = d.private_data.last_framebuf))

/-! ## Concrete contexts used to instantiate the theorems -/

/-- A 2x2 context whose current grid holds the codes 3, 65 / 255, 0 over an all-space
committed grid. -/
def c1_driver : Driver :=
  { name := "lcterm",
    private_data :=
      { ccmode := CGmode.standard, last_ccmode := CGmode.standard,
        framebuf := [3, 65, 255, 0], last_framebuf := [32, 32, 32, 32],
        width := 2, height := 2, fd := 3 },
    written := [], reported := [] }


/-- A 2x2 context whose current and committed grids agree. -/
def c3_driver : Driver :=
  { name := "lcterm",
    private_data :=
      { ccmode := CGmode.vbar, last_ccmode := CGmode.vbar,
        framebuf := [3, 65, 255, 0], last_framebuf := [3, 65, 255, 0],
        width := 2, height := 2, fd := 3 },
    written := [[0x1E, 0x1B, 3, 65, 0x0A, 0x0D, 255, 0x1B, 0, 0x0A, 0x0D]], reported := [] }

/-- A blank 16x2 context. -/
def blank_16x2 : Driver :=
  { name := "lcterm",
    private_data :=
      { ccmode := CGmode.standard, last_ccmode := CGmode.standard,
        framebuf := List.replicate 32 0x20, last_framebuf := List.replicate 32 0x20,
        width := 16, height := 2, fd := 3 },
    written := [], reported := [] }

/-- The context `lcterm_init` returns for the size `16x2`. -/
def fresh_16x2 : Driver :=
  { name := "lcterm",
    private_data :=
      { ccmode := CGmode.standard, last_ccmode := CGmode.standard,
        framebuf := List.replicate 32 0x20, last_framebuf := List.replicate 32 0x20,
        width := 16, height := 2, fd := 3 },
    written := [[0x1a, 0x16, 0x1b, 0x4b]],
    reported :=
      [(ReportLevel.RPT_INFO, "lcterm: using Device /dev/lcd"),
       (ReportLevel.RPT_INFO, "lcterm: using Size: 16x2"),
       (ReportLevel.RPT_INFO, "lcterm: opened display on /dev/lcd"),
       (ReportLevel.RPT_DEBUG, "lcterm: init() done")] }

/-- The fresh 16x2 context after a vertical bar has been drawn at column 1. -/
def after_vbar : Driver := lcterm_vbar lcd_h fresh_16x2 1 2 1 500 0

/-- The context after the calls vbar, clear: the vertical-bar glyphs are resident and
no mode is requested. -/
def cached_vbar : Driver := lcterm_clear after_vbar

/-- The context after the calls vbar, clear, vbar. -/
def second_vbar : Driver := lcterm_vbar lcd_h cached_vbar 1 2 1 500 0

/-- The context after the calls vbar, string(0, 2, "A"): the start of the string lies
off the grid, and the character lands in cell (16,1). -/
def off_grid_string : Driver :=
  { after_vbar with private_data :=
      { after_vbar.private_data with
        framebuf := after_vbar.private_data.framebuf.set 15 65 } }

/-- The fresh 16x2 context after the calls chr(1,1,3), flush. -/
def flushed_once : Driver := flush_done (lcterm_chr fresh_16x2 1 1 3)

/-! ## Specification-side definitions for glyph frames, bars and big numbers -/

/-- Specification of a row byte of a glyph-programming frame: bit 7 set, and the five
pixels of row `row` in bits 4 (leftmost) down to 0. -/
def row_byte (dat : List Nat) (row : Nat) : Nat :=
  0x80 ||| ((List.range 5).map
    (fun c => (if dat.getD (5 * row + c) 0 ≠ 0 then 1 else 0) * 2 ^ (4 - c))).sum

/-- A blank 16x4 context. -/
def blank_16x4 : Driver :=
  { name := "lcterm",
    private_data :=
      { ccmode := CGmode.standard, last_ccmode := CGmode.standard,
        framebuf := List.replicate 64 0x20, last_framebuf := List.replicate 64 0x20,
        width := 16, height := 4, fd := 3 },
    written := [], reported := [] }

/-- The context after the calls init(16x2), vbar(3,2,2,750), clear, vbar(3,2,2,750): a
vertical bar has just been drawn and there has been no clear since. -/
def redrawn_vbar : Driver :=
  lcterm_vbar lcd_h (lcterm_clear (lcterm_vbar lcd_h fresh_16x2 3 2 2 750 0)) 3 2 2 750 0

/-- The context after the calls num(1,1), icon(1,1,ICON_HEART_OPEN), clear on a blank 16x4
display: the big-number glyphs have been programmed, the icon has overwritten slot 0 with
the open heart, and no mode is requested. -/
def heart_over_bignum : Driver :=
  lcterm_clear (lcterm_icon lcd_h (lcterm_num blank_16x4 1 1) 1 1 lcd_h.ICON_HEART_OPEN).2

/-- Two contexts have the same dimensions and the same current grid (their mode fields,
committed grids, writes and reports may differ). -/
def SameGrid (d1 d2 : Driver) : Prop :=
  d1.private_data.framebuf = d2.private_data.framebuf ∧
  d1.private_data.width = d2.private_data.width ∧
  d1.private_data.height = d2.private_data.height

instance (d1 d2 : Driver) : Decidable (SameGrid d1 d2) := by
  unfold SameGrid; infer_instance

/-- Modelled from the spec: the glyph code the bar renderer (`lcd_lib.c`, not among the
sources) puts into cell number `pos` of a bar with `filled` filled units: the filled block
255, the partial glyph numbered by the units filled in the cell, or a space. -/
def bar_glyph (filled cellPixels cc_offset : Int) (pos : Nat) : Nat :=
  if ((pos : Int) + 1) * cellPixels ≤ filled then 255
  else if (pos : Int) * cellPixels < filled then
    ((filled - pos * cellPixels + cc_offset) % 256).toNat
  else 0x20



/-! ## Definitions for the flush buffer, transport outcomes and the wire format -/

/-- A 20x4 context in which every cell of the current grid holds the glyph code 7. -/
def glyphs_20x4 : Driver :=
  { name := "lcterm",
    private_data :=
      { ccmode := CGmode.bignum, last_ccmode := CGmode.bignum,
        framebuf := List.replicate 80 7, last_framebuf := List.replicate 80 0x20,
        width := 20, height := 4, fd := 3 },
    written := [], reported := [] }

/-- A 1x3 context whose three cells hold the glyph code 0. -/
def glyphs_1x3 : Driver :=
  { name := "lcterm",
    private_data :=
      { ccmode := CGmode.standard, last_ccmode := CGmode.standard,
        framebuf := [0, 0, 0], last_framebuf := [32, 32, 32],
        width := 1, height := 3, fd := 3 },
    written := [], reported := [] }

/-- The system call `write(fd, buf, n)` with its outcome made explicit: the value it
returns, and the buffers that reach the device (`buf` on success, nothing on failure). -/
def sys_write (ok : Bool) (buf : List Nat) : Int × List (List Nat) :=
  if ok then ((buf.length : Int), [buf]) else (-1, [])

/-- Source: `lcterm_flush`, with the outcome `ok` of its `write` call and the list of
buffers the device has received made explicit.  The value returned by `write` is
discarded, as in the source.  As for `lcterm_flush`, the result is `none` when the
composed stream does not fit the buffer reserved with `alloca`. -/
def lcterm_flush_io (ok : Bool) (d : Driver) (received : List (List Nat)) :
    Option (Driver × List (List Nat)) :=
  let p := d.private_data
  if memcmp_eq p.framebuf p.last_framebuf (p.width * p.height) then some (d, received)
  else if flush_alloca p < (flush_buf p).length then none
  else
    let r := sys_write ok (flush_buf p)
    let d1 := d.write (flush_buf p)
    some ({ d1 with private_data :=
        { p with last_framebuf := memcpy p.last_framebuf p.framebuf (p.width * p.height) } },
      received ++ r.2)

/-- Source: `lcterm_set_char`, with the outcome `ok` of its `write` call and the list of
buffers the device has received made explicit. -/
def lcterm_set_char_io (ok : Bool) (d : Driver) (n : Int) (dat : Option (List Nat))
    (received : List (List Nat)) : Driver × List (List Nat) :=
  match dat with
  | none => (d, received)
  | some dat =>
    if n < 0 ∨ n > 7 then (d, received)
    else
      let buf := [0x1F, (8 * n % 256).toNat] ++ (List.range 8).map (set_char_row dat) ++ [0x1E]
      let r := sys_write ok buf
      (d.write buf, received ++ r.2)


/-! ## `shared/report.c` -/

/-- Modelled from the spec: the report destinations of `report.h`, which is not among the
sources. -/
inductive ReportDest where
  | RPT_DEST_STDERR
  | RPT_DEST_SYSLOG
  | RPT_DEST_STORE
  deriving DecidableEq, Repr

/-- The constant `MAX_STORED_MSGS` of `report.c`. -/
def MAX_STORED_MSGS : Nat := 200

/-- The file-scope variables of `report.c`, together with what has been printed on
`stderr` and passed to `syslog`.  The two arrays have `MAX_STORED_MSGS` entries; an entry
of `stored_msgs` is `none` while it is a null pointer. -/
structure ReportState where
  report_level : Int
  report_dest : ReportDest
  stored_msgs : List (Option String)
  stored_levels : List Int
  num_stored_msgs : Nat
  stderr_out : List String
  syslog_out : List (Int × String)
  deriving DecidableEq, Repr

/-- The state at program start; `rpt_info` is the value of `RPT_INFO` in `report.h`. -/
def report_start (rpt_info : Int) : ReportState :=
  { report_level := rpt_info, report_dest := ReportDest.RPT_DEST_STORE,
    stored_msgs := List.replicate MAX_STORED_MSGS none,
    stored_levels := List.replicate MAX_STORED_MSGS 0,
    num_stored_msgs := 0, stderr_out := [], syslog_out := [] }

/-- Source: `store_report_message`.  The result is `none` when the two stores at index
`num_stored_msgs` fall outside the arrays (undefined behaviour in C).  The `malloc` for
the copy of the message is taken to succeed. -/
def store_report_message (s : ReportState) (level : Int) (message : String) :
    Option ReportState :=
  if s.num_stored_msgs < s.stored_msgs.length ∧ s.num_stored_msgs < s.stored_levels.length then
    some { s with
      stored_msgs := s.stored_msgs.set s.num_stored_msgs (some message),
      stored_levels := s.stored_levels.set s.num_stored_msgs level,
      num_stored_msgs := s.num_stored_msgs + 1 }
  else none

/-- Source: `report`; `text` is the formatted message, which `vsnprintf` cuts to the 1023
characters that fit `buf`.  `syslog_out` records the level from which the priority
`LOG_USER|(level+2)` is formed. -/
def report (s : ReportState) (level : Int) (text : String) : Option ReportState :=
  if level ≤ s.report_level ∨ s.report_dest = ReportDest.RPT_DEST_STORE then
    match s.report_dest with
    | ReportDest.RPT_DEST_STDERR => some { s with stderr_out := s.stderr_out ++ [text ++ "\n"] }
    | ReportDest.RPT_DEST_SYSLOG => some { s with syslog_out := s.syslog_out ++ [(level, text)] }
    | ReportDest.RPT_DEST_STORE =>
      store_report_message s level (String.mk (text.toList.take 1023))
  else some s

/-- A sequence of `report` calls, given by their levels and formatted messages. -/
def report_all : ReportState → List (Int × String) → Option ReportState
  | s, [] => some s
  | s, (level, text) :: rest =>
    match report s level text with
    | none => none
    | some s1 => report_all s1 rest


/-! ## The display side of the wire, in the words of the specification -/

/-- A character display as the wire rules see it: the cells in row-major order, the
number of columns and the cursor. -/
structure Display where
  width : Nat
  cells : List Nat
  row : Nat
  col : Nat
  deriving DecidableEq, Repr

/-- The byte `0x1E` homes the cursor. -/
def Display.home (s : Display) : Display :=
  { s with row := 0, col := 0 }

/-- One cell: the byte is shown at the cursor, which moves one column to the right; past
the last column nothing is shown. -/
def Display.put (s : Display) (b : Nat) : Display :=
  { s with
    cells := if s.col < s.width then s.cells.set (s.row * s.width + s.col) b else s.cells,
    col := s.col + 1 }

/-- The terminator `0x0A 0x0D` ends a row: the cursor goes to the start of the next
row. -/
def Display.end_row (s : Display) : Display :=
  { s with row := s.row + 1, col := 0 }

/-- The wire rules of the display: `0x1E` homes the cursor, `0x1B` makes the next byte a
literal cell, `0x0A 0x0D` ends a row, every other byte is one cell. -/
def wire_decode : List Nat → Display → Display
  | [], s => s
  | [b], s =>
    if b = 0x1E then s.home
    else if b = 0x1B then s
    else s.put b
  | b :: c :: rest, s =>
    if b = 0x1E then wire_decode (c :: rest) s.home
    else if b = 0x1B then wire_decode rest (s.put c)
    else if b = 0x0A ∧ c = 0x0D then wire_decode rest s.end_row
    else wire_decode (c :: rest) (s.put b)

/-- A display of `p`'s size that shows the committed grid, with the cursor at home. -/
def display_of (p : PrivateData) : Display :=
  { width := p.width, cells := p.last_framebuf, row := 0, col := 0 }

/-- A 2x1 context whose current grid holds the escape byte `0x1B` and `A`. -/
def escape_cell_2x1 : Driver :=
  { name := "lcterm",
    private_data :=
      { ccmode := CGmode.standard, last_ccmode := CGmode.standard,
        framebuf := [0x1B, 65], last_framebuf := [32, 32],
        width := 2, height := 1, fd := 3 },
    written := [], reported := [] }

/-- A 2x1 context whose current grid holds the cursor-home byte `0x1E` and `A`. -/
def home_cell_2x1 : Driver :=
  { name := "lcterm",
    private_data :=
      { ccmode := CGmode.standard, last_ccmode := CGmode.standard,
        framebuf := [0x1E, 65], last_framebuf := [32, 32],
        width := 2, height := 1, fd := 3 },
    written := [], reported := [] }

/-- A 2x1 context whose current grid holds `0x0A` directly followed by `0x0D`. -/
def newline_pair_2x1 : Driver :=
  { name := "lcterm",
    private_data :=
      { ccmode := CGmode.standard, last_ccmode := CGmode.standard,
        framebuf := [0x0A, 0x0D], last_framebuf := [32, 32],
        width := 2, height := 1, fd := 3 },
    written := [], reported := [] }

/-- A 2x2 context whose current grid holds `0x0D`, `0x0A` / `0x0A`, `A`: no `0x0A` is
directly followed by `0x0D` in its row. -/
def control_cells_2x2 : Driver :=
  { name := "lcterm",
    private_data :=
      { ccmode := CGmode.standard, last_ccmode := CGmode.standard,
        framebuf := [0x0D, 0x0A, 0x0A, 65], last_framebuf := [32, 32, 32, 32],
        width := 2, height := 2, fd := 3 },
    written := [], reported := [] }

/-- The display is in step with the grid `fb` of width `w` up to the cursor `(r, j)`. -/
def Synced (w : Nat) (fb : List Nat) (s : Display) (r j : Nat) : Prop :=
  s.width = w ∧ s.row = r ∧ s.col = j ∧ s.cells.length = fb.length ∧
    ∀ i, i < r * w + j → s.cells.getD i 0 = fb.getD i 0



/-! ## Size strings, in the words of the specification -/

/-- The value of a decimal numeral. -/
def decimal (ds : List Char) : Nat :=
  ds.foldl (fun acc c => 10 * acc + (c.toNat - 48)) 0

/-- A decimal integer as it is written: one or more digits. -/
def IsNumeral (ds : List Char) : Prop :=
  ds ≠ [] ∧ ∀ c ∈ ds, c.isDigit = true

instance (ds : List Char) : Decidable (IsNumeral ds) := by
  unfold IsNumeral; infer_instance

/-- The messages `lcterm_init` reports when it succeeds, given the outcome of the size
block. -/
def init_messages (name device size : String) (w h : Int) (bad : Bool) :
    List (ReportLevel × String) :=
  [(ReportLevel.RPT_INFO, name ++ ": using Device " ++ device)]
    ++ (if bad then
          [(ReportLevel.RPT_WARNING,
            name ++ ": cannot read Size: " ++ size ++ "; using default 16x2")]
        else [])
    ++ [(ReportLevel.RPT_INFO, name ++ ": using Size: " ++ toString w ++ "x" ++ toString h),
        (ReportLevel.RPT_INFO, name ++ ": opened display on " ++ device),
        (ReportLevel.RPT_DEBUG, name ++ ": init() done")]

/-! # Theorems -/

/-! ## Buffers -/

theorem memcmp_eq_iff_of_length (a b : List Nat) (n : Nat) (ha : a.length = n)
    (hb : b.length = n) : memcmp_eq a b n = true ↔ a = b := by
  unfold memcmp_eq
  rw [List.take_of_length_le (le_of_eq ha), List.take_of_length_le (le_of_eq hb)]
  simp

theorem memcpy_of_length (dst src : List Nat) (n : Nat) (hs : src.length = n)
    (hd : dst.length = n) : memcpy dst src n = src := by
  unfold memcpy
  rw [List.take_of_length_le (le_of_eq hs), List.drop_of_length_le (le_of_eq hd)]
  simp

theorem memset_of_length (buf : List Nat) (c n : Nat) (h : buf.length = n) :
    memset buf c n = List.replicate n c := by
  unfold memset
  rw [List.drop_of_length_le (le_of_eq h), h]
  simp

/-! ## The flush loops -/

theorem flush_cells_eq (fb : List Nat) (i sp : Nat) :
    flush_cells fb i sp
      = (List.range i).flatMap (fun j => writeGlyphSafe (fb.getD (sp + j) 0)) := by
  induction i generalizing sp with
  | zero => simp [flush_cells]
  | succ i ih =>
    rw [flush_cells, ih, List.range_succ_eq_map, List.flatMap_cons, List.flatMap_map]
    simp only [writeGlyphSafe, Nat.add_zero, Nat.succ_eq_add_one]
    congr 1
    congr 1
    funext j
    rw [show sp + 1 + j = sp + (j + 1) by omega]

theorem flush_lines_eq (fb : List Nat) (w line sp : Nat) :
    flush_lines fb w line sp
      = (List.range line).flatMap (fun r =>
          (List.range w).flatMap (fun col => writeGlyphSafe (fb.getD (sp + r * w + col) 0))
            ++ [0x0A, 0x0D]) := by
  induction line generalizing sp with
  | zero => simp [flush_lines]
  | succ l ih =>
    rw [flush_lines, ih, flush_cells_eq, List.range_succ_eq_map, List.flatMap_cons,
      List.flatMap_map]
    simp only [Nat.zero_mul, Nat.add_zero, Nat.succ_eq_add_one]
    congr 1
    congr 1
    funext r
    rw [show sp + w + r * w = sp + (r + 1) * w by rw [Nat.add_mul]; omega]

theorem flush_buf_eq (p : PrivateData) : flush_buf p = frame_bytes p := by
  unfold flush_buf frame_bytes
  rw [flush_lines_eq]
  congr 1
  congr 1
  funext r
  simp [frame_row, cell]

/-! ## C1 -/

theorem flush_cells_length_le (fb : List Nat) :
    ∀ i sp, (flush_cells fb i sp).length ≤ 2 * i := by
  intro i
  induction i with
  | zero => intro sp; exact Nat.le_refl _
  | succ i ih =>
    intro sp
    have e : flush_cells fb (i + 1) sp
        = (if fb.getD sp 0 < 8 then [0x1B, fb.getD sp 0] else [fb.getD sp 0])
          ++ flush_cells fb i (sp + 1) := rfl
    have := ih (sp + 1)
    rw [e, List.length_append]
    split_ifs <;> simp only [List.length_cons, List.length_nil] <;> omega

theorem flush_lines_length_le (fb : List Nat) (w : Nat) :
    ∀ h sp, (flush_lines fb w h sp).length ≤ 2 * (w * h) + 2 * h := by
  intro h
  induction h with
  | zero => intro sp; simp [flush_lines]
  | succ h ih =>
    intro sp
    have e : flush_lines fb w (h + 1) sp
        = flush_cells fb w sp ++ [0x0a, 0x0d] ++ flush_lines fb w h (sp + w) := rfl
    have h1 := ih (sp + w)
    have h2 := flush_cells_length_le fb w sp
    rw [e, List.length_append, List.length_append, Nat.mul_add w h 1, Nat.mul_one]
    simp only [List.length_cons, List.length_nil]
    omega

/-- The stream composed by `lcterm_flush` fits the buffer it reserves on every display of
at most two rows. -/
theorem flush_fits_two_rows (p : PrivateData) (h2 : p.height ≤ 2) :
    (flush_buf p).length ≤ flush_alloca p := by
  have h1 := flush_lines_length_le p.framebuf p.width p.height 0
  unfold flush_buf flush_alloca
  rw [List.length_cons]
  omega

theorem flush_some (d d' : Driver) (h : lcterm_flush d = some d') : d' = flush_done d := by
  unfold lcterm_flush at h
  unfold flush_done
  dsimp only at h ⊢
  split at h
  · rename_i hc
    rw [if_pos hc]
    exact (Option.some.inj h).symm
  · rename_i hc
    rw [if_neg hc]
    split at h
    · exact absurd h (by simp)
    · exact (Option.some.inj h).symm

theorem flush_fits (d : Driver)
    (hfit : (flush_buf d.private_data).length ≤ flush_alloca d.private_data) :
    lcterm_flush d = some (flush_done d) := by
  have hn : ¬ flush_alloca d.private_data < (flush_buf d.private_data).length :=
    Nat.not_lt.2 hfit
  unfold lcterm_flush flush_done
  dsimp only
  by_cases hc : memcmp_eq d.private_data.framebuf d.private_data.last_framebuf
      (d.private_data.width * d.private_data.height) = true
  · rw [if_pos hc, if_pos hc]
  · rw [if_neg hc, if_neg hc, if_neg hn]

theorem flush_same (d : Driver)
    (h : memcmp_eq d.private_data.framebuf d.private_data.last_framebuf
      (d.private_data.width * d.private_data.height) = true) :
    lcterm_flush d = some d := by
  unfold lcterm_flush
  dsimp only
  rw [if_pos h]

theorem flush_overrun (d : Driver)
    (hne : memcmp_eq d.private_data.framebuf d.private_data.last_framebuf
      (d.private_data.width * d.private_data.height) = false)
    (hbig : flush_alloca d.private_data < (flush_buf d.private_data).length) :
    lcterm_flush d = none := by
  unfold lcterm_flush
  dsimp only
  rw [hne, if_neg (by simp), if_pos hbig]

theorem flush_done_written (d : Driver) (hwf : WF d)
    (hne : d.private_data.framebuf ≠ d.private_data.last_framebuf) :
    (flush_done d).written = d.written ++ [frame_bytes d.private_data] := by
  have hcmp : memcmp_eq d.private_data.framebuf d.private_data.last_framebuf
      (d.private_data.width * d.private_data.height) = false := by
    rw [Bool.eq_false_iff]
    intro h
    exact hne ((memcmp_eq_iff_of_length _ _ _ hwf.1 hwf.2).1 h)
  simp [flush_done, hcmp, Driver.write, flush_buf_eq]

theorem flatMap_range_split {α : Type} (f : Nat → List α) (n k : Nat) (hk : k < n) :
    ∃ post, (List.range n).flatMap f = (List.range k).flatMap f ++ f k ++ post := by
  obtain ⟨m, rfl⟩ : ∃ m, n = k + (m + 1) := ⟨n - k - 1, by omega⟩
  rw [List.range_add, List.flatMap_append, List.range_succ_eq_map, List.flatMap_map,
    List.flatMap_cons]
  exact ⟨_, by rw [Nat.add_zero, List.append_assoc]⟩

theorem flush_buf_split (p : PrivateData) (k v : Nat) (hk : k < p.width * p.height)
    (hv : p.framebuf[k]? = some v) :
    ∃ post, flush_buf p = flush_prefix p k ++ writeGlyphSafe v ++ post := by
  have hw : 0 < p.width := by
    rcases Nat.eq_zero_or_pos p.width with h | h
    · rw [h] at hk; simp at hk
    · exact h
  have hr : k / p.width < p.height := Nat.div_lt_of_lt_mul hk
  have hc : k % p.width < p.width := Nat.mod_lt _ hw
  have hcell : cell p (k / p.width) (k % p.width) = v := by
    unfold cell
    rw [Nat.mul_comm, Nat.div_add_mod, List.getD_eq_getElem?_getD, hv]
    rfl
  obtain ⟨post1, h1⟩ := flatMap_range_split (frame_row p) p.height (k / p.width) hr
  obtain ⟨post2, h2⟩ := flatMap_range_split
    (fun col => writeGlyphSafe (cell p (k / p.width) col)) p.width (k % p.width) hc
  refine ⟨post2 ++ [0x0A, 0x0D] ++ post1, ?_⟩
  rw [flush_buf_eq, frame_bytes, h1]
  have hrow : frame_row p (k / p.width)
      = flush_cells p.framebuf (k % p.width) (k / p.width * p.width)
        ++ writeGlyphSafe v ++ post2 ++ [0x0A, 0x0D] := by
    rw [frame_row, h2, hcell, flush_cells_eq]
    rfl
  have hrows : (List.range (k / p.width)).flatMap (frame_row p)
      = flush_lines p.framebuf p.width (k / p.width) 0 := by
    rw [flush_lines_eq]
    congr 1
    funext r
    simp [frame_row, cell]
  rw [hrow, hrows, flush_prefix]
  simp

theorem escaped_nil : Escaped [] := by
  intro i b h
  simp at h

theorem escaped_append {s t : List Nat} (hs : Escaped s) (ht : Escaped t) :
    Escaped (s ++ t) := by
  intro i b hi hb
  rcases Nat.lt_or_ge i s.length with hlt | hge
  · rw [List.getElem?_append_left hlt] at hi
    obtain ⟨j, rfl, hj⟩ := hs i b hi hb
    exact ⟨j, rfl, by rw [List.getElem?_append_left (by omega)]; exact hj⟩
  · rw [List.getElem?_append_right hge] at hi
    obtain ⟨j, hij, hj⟩ := ht _ b hi hb
    refine ⟨s.length + j, by omega, ?_⟩
    rw [List.getElem?_append_right (by omega)]
    simpa using hj

theorem escaped_flatMap {α : Type} (l : List α) (f : α → List Nat)
    (h : ∀ a, Escaped (f a)) : Escaped (l.flatMap f) := by
  induction l with
  | nil => exact escaped_nil
  | cons a l ih => rw [List.flatMap_cons]; exact escaped_append (h a) ih

theorem escaped_of_ge (s : List Nat) (h : ∀ b ∈ s, 8 ≤ b) : Escaped s := by
  intro i b hi hb
  have := h b (List.mem_iff_getElem?.2 ⟨i, hi⟩)
  omega

theorem escaped_writeGlyphSafe (c : Nat) : Escaped (writeGlyphSafe c) := by
  unfold writeGlyphSafe
  split
  · intro i b hi hb
    match i with
    | 0 => simp at hi; omega
    | 1 => exact ⟨0, rfl, rfl⟩
    | i + 2 => simp at hi
  · exact escaped_of_ge _ (by simp; omega)

theorem escaped_frame_bytes (p : PrivateData) : Escaped (frame_bytes p) := by
  have h : LCTerm.frame_bytes p = [0x1E] ++ (List.range p.height).flatMap (frame_row p) := rfl
  rw [h]
  refine escaped_append (escaped_of_ge _ (by simp)) (escaped_flatMap _ _ (fun r => ?_))
  exact escaped_append (escaped_flatMap _ _ (fun col => escaped_writeGlyphSafe _))
    (escaped_of_ge _ (by simp))

theorem flush_written_cases (d : Driver) :
    flush_done d = d ∨ (flush_done d).written = d.written ++ [flush_buf d.private_data] := by
  unfold flush_done
  cases h : memcmp_eq d.private_data.framebuf d.private_data.last_framebuf
      (d.private_data.width * d.private_data.height)
  · right; simp [Driver.write, h]
  · left; simp [h]

theorem flush_written_inv (d : Driver) (s : List Nat)
    (h : (flush_done d).written = d.written ++ [s]) : s = flush_buf d.private_data := by
  rcases flush_written_cases d with h0 | h1
  · rw [h0] at h
    have := congrArg List.length h
    simp at this
  · rw [h1] at h
    simpa using h.symm

/-- C2: escaping invariant.  Whenever `lcterm_flush` returns and has transmitted a stream
`s`, a cell `k` of the current grid holding `v < 8` is encoded in `s`, right after the
bytes composed for the cells before it, as `0x1B` immediately followed by `v`; and every
byte below 8 of the stream has `0x1B` immediately before it. -/
theorem flush_escapes (d d' : Driver) (s : List Nat) (hd : lcterm_flush d = some d')
    (h : d'.written = d.written ++ [s]) :
    (∀ k v, k < d.private_data.width * d.private_data.height →
        d.private_data.framebuf[k]? = some v → v < 8 →
        ∃ post, s = flush_prefix d.private_data k ++ 0x1B :: v :: post) ∧
    Escaped s := by
  rw [flush_some d d' hd] at h
  have hs := flush_written_inv d s h
  subst hs
  refine ⟨fun k v hk hv hv8 => ?_, ?_⟩
  · obtain ⟨post, hpost⟩ := flush_buf_split d.private_data k v hk hv
    refine ⟨post, ?_⟩
    rw [hpost, writeGlyphSafe, if_pos hv8]
    simp
  · rw [flush_buf_eq]
    exact escaped_frame_bytes _

theorem flush_escapes_witness :
    lcterm_flush c1_driver = some (flush_done c1_driver) ∧
    (flush_done c1_driver).written
      = c1_driver.written ++ [[0x1E, 0x1B, 3, 65, 0x0A, 0x0D, 255, 0x1B, 0, 0x0A, 0x0D]] ∧
    (∀ k v, k < c1_driver.private_data.width * c1_driver.private_data.height →
        c1_driver.private_data.framebuf[k]? = some v → v < 8 →
        ∃ post, [0x1E, 0x1B, 3, 65, 0x0A, 0x0D, 255, 0x1B, 0, 0x0A, 0x0D]
          = flush_prefix c1_driver.private_data k ++ 0x1B :: v :: post) ∧
    Escaped [0x1E, 0x1B, 3, 65, 0x0A, 0x0D, 255, 0x1B, 0, 0x0A, 0x0D] :=
  ⟨by decide, by decide,
    flush_escapes c1_driver (flush_done c1_driver)
      [0x1E, 0x1B, 3, 65, 0x0A, 0x0D, 255, 0x1B, 0, 0x0A, 0x0D] (by decide) (by decide)⟩

/-! ## C3 -/

theorem flush_of_eq (d : Driver)
    (h : d.private_data.framebuf = d.private_data.last_framebuf) : flush_done d = d := by
  simp [flush_done, memcmp_eq, h]

theorem flush_grids_eq (d : Driver) (hwf : WF d) :
    (flush_done d).private_data.last_framebuf = (flush_done d).private_data.framebuf := by
  unfold flush_done
  cases h : memcmp_eq d.private_data.framebuf d.private_data.last_framebuf
      (d.private_data.width * d.private_data.height)
  · simp [h, memcpy_of_length _ _ _ hwf.1 hwf.2]
  · simpa [h] using ((memcmp_eq_iff_of_length _ _ _ hwf.1 hwf.2).1 h).symm

theorem flush_of_eq_some (d : Driver)
    (h : d.private_data.framebuf = d.private_data.last_framebuf) : lcterm_flush d = some d :=
  flush_same d (by simp [memcmp_eq, h])

/-- C3: idempotent flush.  When the current grid equals the committed grid, `lcterm_flush`
returns the context unchanged (so it transmits nothing).  In every context, when a first
flush returns, a second flush right after it returns the same context again: it changes
nothing and transmits nothing, the bytes of the frame being written at most once, by the
first call.  Hence two flush calls in a row are the same as one (also where the first
does not return). -/
theorem flush_idempotent (d : Driver) :
    (d.private_data.framebuf = d.private_data.last_framebuf → lcterm_flush d = some d) ∧
    (WF d → ∀ d1, lcterm_flush d = some d1 →
      lcterm_flush d1 = some d1 ∧
      (∀ d2, lcterm_flush d1 = some d2 → d2.written = d1.written) ∧
      (d1.written = d.written ∨
        d1.written = d.written ++ [flush_buf d.private_data])) ∧
    (WF d → (lcterm_flush d).bind lcterm_flush = lcterm_flush d) := by
  have key : WF d → ∀ d1, lcterm_flush d = some d1 → lcterm_flush d1 = some d1 := by
    intro hwf d1 h1
    rw [flush_some d d1 h1]
    exact flush_of_eq_some _ (flush_grids_eq d hwf).symm
  refine ⟨flush_of_eq_some d, fun hwf d1 h1 => ⟨key hwf d1 h1, ?_, ?_⟩, fun hwf => ?_⟩
  · intro d2 h2
    rw [key hwf d1 h1] at h2
    rw [← Option.some.inj h2]
  · rw [flush_some d d1 h1]
    rcases flush_written_cases d with h | h
    · left; rw [h]
    · right; exact h
  · cases h : lcterm_flush d with
    | none => rfl
    | some d1 => exact key hwf d1 h

theorem flush_idempotent_witness :
    lcterm_flush c3_driver = some c3_driver ∧
    WF c1_driver ∧
    lcterm_flush c1_driver = some (flush_done c1_driver) ∧
    lcterm_flush (flush_done c1_driver) = some (flush_done c1_driver) ∧
    (flush_done c1_driver).written
      = c1_driver.written ++ [[0x1E, 0x1B, 3, 65, 0x0A, 0x0D, 255, 0x1B, 0, 0x0A, 0x0D]] :=
  ⟨(flush_idempotent c3_driver).1 (by decide), by decide, by decide,
    ((flush_idempotent c1_driver).2.1 (by decide) (flush_done c1_driver) (by decide)).1,
    by decide⟩

/-! ## C9 -/

/-- C9: `lcterm_clear` makes every cell of the current grid a space (`0x20`) and sets
`ccmode` to `standard`; `last_ccmode`, the committed grid, the dimensions, the device
handle, the writes issued and the reports issued are unchanged. -/
theorem clear_effect (d : Driver) (hwf : WF d) :
    (lcterm_clear d).private_data.framebuf
      = List.replicate (d.private_data.width * d.private_data.height) 0x20 ∧
    (lcterm_clear d).private_data.ccmode = CGmode.standard ∧
    (lcterm_clear d).private_data.last_ccmode = d.private_data.last_ccmode ∧
    (lcterm_clear d).private_data.last_framebuf = d.private_data.last_framebuf ∧
    (lcterm_clear d).private_data.width = d.private_data.width ∧
    (lcterm_clear d).private_data.height = d.private_data.height ∧
    (lcterm_clear d).private_data.fd = d.private_data.fd ∧
    (lcterm_clear d).written = d.written ∧
    (lcterm_clear d).reported = d.reported := by
  simp [lcterm_clear, memset_of_length _ _ _ hwf.1]

theorem clear_effect_witness :
    (lcterm_clear c3_driver).private_data.framebuf = List.replicate (2 * 2) 0x20 ∧
    (lcterm_clear c3_driver).private_data.ccmode = CGmode.standard ∧
    (lcterm_clear c3_driver).private_data.last_ccmode = CGmode.vbar ∧
    (lcterm_clear c3_driver).private_data.last_framebuf = [3, 65, 255, 0] ∧
    (lcterm_clear c3_driver).private_data.width = 2 ∧
    (lcterm_clear c3_driver).private_data.height = 2 ∧
    (lcterm_clear c3_driver).private_data.fd = 3 ∧
    (lcterm_clear c3_driver).written = c3_driver.written ∧
    (lcterm_clear c3_driver).reported = c3_driver.reported :=
  clear_effect c3_driver (by decide)

/-! ## C10 -/

/-- C10: for a code `c` (a byte), `lcterm_chr d x y c` sets the cell at row-major index
`(y-1) * width + (x-1)` of the current grid to `c` when `1 ≤ x ≤ width` and
`1 ≤ y ≤ height`, and returns the context unchanged otherwise; in both cases all other
cells, the committed grid, the two mode fields, the dimensions and the writes and reports
issued are unchanged. -/
theorem chr_effect (d : Driver) (x y : Int) (c : Nat) (hc : c < 256) :
    ((1 ≤ x ∧ x ≤ d.private_data.width ∧ 1 ≤ y ∧ y ≤ d.private_data.height) →
      (lcterm_chr d x y c).private_data.framebuf
        = d.private_data.framebuf.set ((y - 1) * d.private_data.width + (x - 1)).toNat c) ∧
    (¬ (1 ≤ x ∧ x ≤ d.private_data.width ∧ 1 ≤ y ∧ y ≤ d.private_data.height) →
      lcterm_chr d x y c = d) ∧
    (∀ i : Nat, (i : Int) ≠ (y - 1) * d.private_data.width + (x - 1) →
      (lcterm_chr d x y c).private_data.framebuf[i]? = d.private_data.framebuf[i]?) ∧
    (lcterm_chr d x y c).private_data.last_framebuf = d.private_data.last_framebuf ∧
    (lcterm_chr d x y c).private_data.ccmode = d.private_data.ccmode ∧
    (lcterm_chr d x y c).private_data.last_ccmode = d.private_data.last_ccmode ∧
    (lcterm_chr d x y c).private_data.width = d.private_data.width ∧
    (lcterm_chr d x y c).private_data.height = d.private_data.height ∧
    (lcterm_chr d x y c).written = d.written ∧
    (lcterm_chr d x y c).reported = d.reported := by
  have hmod : c % 256 = c := Nat.mod_eq_of_lt hc
  by_cases hin : x - 1 ≥ 0 ∧ x - 1 < d.private_data.width ∧ y - 1 ≥ 0 ∧
      y - 1 < d.private_data.height
  · have hd : lcterm_chr d x y c = { d with private_data := { d.private_data with
        framebuf := d.private_data.framebuf.set
          ((y - 1) * d.private_data.width + (x - 1)).toNat c } } := by
      simp only [lcterm_chr, if_pos hin, hmod]
    rw [hd]
    refine ⟨fun _ => rfl, fun hout => absurd ?_ hout, fun i hi => ?_, rfl, rfl, rfl, rfl, rfl,
      rfl, rfl⟩
    · omega
    · have hne : ((y - 1) * d.private_data.width + (x - 1)).toNat ≠ i := by
        intro h
        apply hi
        rw [← h, Int.toNat_of_nonneg]
        have := Int.mul_nonneg hin.2.2.1 (Int.ofNat_nonneg d.private_data.width)
        omega
      simp [List.getElem?_set, hne]
  · have hd : lcterm_chr d x y c = d := by
      simp only [lcterm_chr, if_neg hin]
    rw [hd]
    refine ⟨fun h => absurd ?_ hin, fun _ => rfl, fun _ _ => rfl, rfl, rfl, rfl, rfl, rfl,
      rfl, rfl⟩
    omega

theorem chr_effect_witness :
    (lcterm_chr blank_16x2 16 2 65).private_data.framebuf
      = (List.replicate 32 0x20).set 31 65 ∧
    lcterm_chr blank_16x2 0 1 65 = blank_16x2 ∧
    lcterm_chr blank_16x2 17 2 65 = blank_16x2 :=
  ⟨(chr_effect blank_16x2 16 2 65 (by decide)).1 (by decide),
   (chr_effect blank_16x2 0 1 65 (by decide)).2.1 (by decide),
   (chr_effect blank_16x2 17 2 65 (by decide)).2.1 (by decide)⟩

/-! ## Frame lemmas: what a call can change -/

theorem gridOnly_refl (d : Driver) : GridOnly d d := ⟨d.private_data.framebuf, rfl, rfl⟩

theorem gridOnly_trans {a b c : Driver} (h1 : GridOnly a b) (h2 : GridOnly b c) :
    GridOnly a c := by
  obtain ⟨fb1, hl1, rfl⟩ := h1
  obtain ⟨fb2, hl2, rfl⟩ := h2
  exact ⟨fb2, by simpa [hl1] using hl2, rfl⟩

theorem gridOnly_foldl {α : Type} (f : Driver → α → Driver)
    (hf : ∀ d a, GridOnly d (f d a)) (l : List α) (d : Driver) :
    GridOnly d (l.foldl f d) := by
  induction l generalizing d with
  | nil => exact gridOnly_refl d
  | cons a l ih => exact gridOnly_trans (hf d a) (ih (f d a))

theorem gridOnly_written {d d' : Driver} (h : GridOnly d d') : d'.written = d.written := by
  obtain ⟨fb, _, rfl⟩ := h; rfl

theorem gridOnly_reported {d d' : Driver} (h : GridOnly d d') :
    d'.reported = d.reported := by
  obtain ⟨fb, _, rfl⟩ := h; rfl

theorem gridOnly_ccmode {d d' : Driver} (h : GridOnly d d') :
    d'.private_data.ccmode = d.private_data.ccmode := by
  obtain ⟨fb, _, rfl⟩ := h; rfl

theorem gridOnly_last_ccmode {d d' : Driver} (h : GridOnly d d') :
    d'.private_data.last_ccmode = d.private_data.last_ccmode := by
  obtain ⟨fb, _, rfl⟩ := h; rfl

theorem gridOnly_quiet {d d' : Driver} (h : GridOnly d d') : Quiet d d' := by
  obtain ⟨fb, hl, rfl⟩ := h
  exact ⟨rfl, ⟨[], by simp, by simp⟩, rfl, rfl, rfl, hl⟩

theorem quiet_refl (d : Driver) : Quiet d d :=
  ⟨rfl, ⟨[], by simp, by simp⟩, rfl, rfl, rfl, rfl⟩

theorem quiet_trans {a b c : Driver} (h1 : Quiet a b) (h2 : Quiet b c) : Quiet a c := by
  obtain ⟨n1, ⟨ws1, hw1, e1⟩, l1, w1, g1, f1⟩ := h1
  obtain ⟨n2, ⟨ws2, hw2, e2⟩, l2, w2, g2, f2⟩ := h2
  refine ⟨n2.trans n1, ⟨ws1 ++ ws2, ?_, ?_⟩, l2.trans l1, w2.trans w1, g2.trans g1,
    f2.trans f1⟩
  · intro w hw
    rcases List.mem_append.1 hw with h | h
    · exact hw1 w h
    · exact hw2 w h
  · rw [e2, e1, List.append_assoc]

theorem quiet_foldl {α : Type} (f : Driver → α → Driver)
    (hf : ∀ d a, Quiet d (f d a)) (l : List α) (d : Driver) :
    Quiet d (l.foldl f d) := by
  induction l generalizing d with
  | nil => exact quiet_refl d
  | cons a l ih => exact quiet_trans (hf d a) (ih (f d a))

theorem chr_gridOnly (d : Driver) (x y : Int) (c : Nat) : GridOnly d (lcterm_chr d x y c) := by
  unfold lcterm_chr
  dsimp only
  split
  · exact ⟨_, by simp, rfl⟩
  · exact gridOnly_refl d

theorem string_loop_length (w : Nat) (y : Int) (s : List Nat) (x : Int) (fb fb' : List Nat)
    (h : string_loop w y s x fb = some fb') : fb'.length = fb.length := by
  induction s generalizing x fb with
  | nil => simp [string_loop] at h; rw [← h]
  | cons c rest ih =>
    unfold string_loop at h
    split at h
    · dsimp only at h
      split at h
      · have := ih _ _ h
        simpa using this
      · simp at h
    · simp at h; rw [← h]

theorem string_gridOnly (d d' : Driver) (x y : Int) (s : List Nat)
    (h : lcterm_string d x y s = some d') : GridOnly d d' := by
  unfold lcterm_string at h
  dsimp only at h
  cases hl : string_loop d.private_data.width (y - 1) s (x - 1) d.private_data.framebuf with
  | none => rw [hl] at h; simp at h
  | some fb =>
    rw [hl] at h
    simp at h
    exact ⟨fb, string_loop_length _ _ _ _ _ _ hl, h.symm⟩

theorem set_char_eq (d : Driver) (n : Nat) (hn : n ≤ 7) (dat : List Nat) :
    lcterm_set_char d (n : Int) (some dat) = d.write (glyph_frame n dat) := by
  have h1 : ¬ ((n : Int) < 0 ∨ (n : Int) > 7) := by omega
  have h2 : (8 * (n : Int) % 256).toNat = 8 * n := by omega
  simp only [lcterm_set_char, if_neg h1, h2, glyph_frame]

theorem set_char_cases (d : Driver) (n : Int) (dat : Option (List Nat)) :
    lcterm_set_char d n dat = d ∨
      ∃ f : List Nat, f.head? = some 0x1F ∧ lcterm_set_char d n dat = d.write f := by
  unfold lcterm_set_char
  cases dat with
  | none => left; rfl
  | some dat =>
    dsimp only
    split
    · left; rfl
    · right
      exact ⟨[0x1F, (8 * n % 256).toNat] ++ (List.range 8).map (set_char_row dat) ++ [0x1E],
        by simp, rfl⟩

theorem write_quiet (d : Driver) (f : List Nat) (hf : f.head? = some 0x1F) :
    Quiet d (d.write f) :=
  ⟨rfl, ⟨[f], by simpa using hf, rfl⟩, rfl, rfl, rfl, rfl⟩

theorem set_char_quiet (d : Driver) (n : Int) (dat : Option (List Nat)) :
    Quiet d (lcterm_set_char d n dat) := by
  rcases set_char_cases d n dat with h | ⟨f, hf, h⟩
  · rw [h]; exact quiet_refl d
  · rw [h]; exact write_quiet d f hf

theorem set_char_private_data (d : Driver) (n : Int) (dat : Option (List Nat)) :
    (lcterm_set_char d n dat).private_data = d.private_data := by
  rcases set_char_cases d n dat with h | ⟨f, _, h⟩
  · rw [h]
  · rw [h]; rfl

theorem set_char_reported (d : Driver) (n : Int) (dat : Option (List Nat)) :
    (lcterm_set_char d n dat).reported = d.reported := by
  rcases set_char_cases d n dat with h | ⟨f, _, h⟩
  · rw [h]
  · rw [h]; rfl

/-! ## The three mode requests -/

theorem set_char_lit (d : Driver) (n : Int) (h0 : 0 ≤ n) (h7 : n ≤ 7) (dat : List Nat) :
    lcterm_set_char d n (some dat) = d.write (glyph_frame n.toNat dat) := by
  obtain ⟨m, rfl⟩ := Int.eq_ofNat_of_zero_le h0
  rw [set_char_eq d m (by omega) dat]
  simp

theorem init_vbar_cases (d : Driver) :
    (d.private_data.last_ccmode = CGmode.vbar ∧ lcterm_init_vbar d = d) ∨
    (d.private_data.last_ccmode ≠ CGmode.vbar ∧ d.private_data.ccmode ≠ CGmode.standard ∧
      lcterm_init_vbar d = mode_warning d "init_vbar") ∨
    (d.private_data.last_ccmode ≠ CGmode.vbar ∧ d.private_data.ccmode = CGmode.standard ∧
      lcterm_init_vbar d
        = { set_modes d CGmode.vbar with written := d.written ++ vbar_frames }) := by
  by_cases h1 : d.private_data.last_ccmode = CGmode.vbar
  · left; exact ⟨h1, by simp [lcterm_init_vbar, h1]⟩
  · by_cases h2 : d.private_data.ccmode = CGmode.standard
    · right; right
      refine ⟨h1, h2, ?_⟩
      simp only [lcterm_init_vbar, if_neg h1, h2, ne_eq, not_true_eq_false, if_false]
      rw [set_char_lit _ 1 (by decide) (by decide), set_char_lit _ 2 (by decide) (by decide),
        set_char_lit _ 3 (by decide) (by decide), set_char_lit _ 4 (by decide) (by decide),
        set_char_lit _ 5 (by decide) (by decide), set_char_lit _ 6 (by decide) (by decide),
        set_char_lit _ 7 (by decide) (by decide)]
      simp [Driver.write, set_modes, vbar_frames]
    · right; left
      exact ⟨h1, h2, by simp [lcterm_init_vbar, h1, h2]⟩

theorem init_hbar_cases (d : Driver) :
    (d.private_data.last_ccmode = CGmode.hbar ∧ lcterm_init_hbar d = d) ∨
    (d.private_data.last_ccmode ≠ CGmode.hbar ∧ d.private_data.ccmode ≠ CGmode.standard ∧
      lcterm_init_hbar d = mode_warning d "init_hbar") ∨
    (d.private_data.last_ccmode ≠ CGmode.hbar ∧ d.private_data.ccmode = CGmode.standard ∧
      lcterm_init_hbar d
        = { set_modes d CGmode.hbar with written := d.written ++ hbar_frames }) := by
  by_cases h1 : d.private_data.last_ccmode = CGmode.hbar
  · left; exact ⟨h1, by simp [lcterm_init_hbar, h1]⟩
  · by_cases h2 : d.private_data.ccmode = CGmode.standard
    · right; right
      refine ⟨h1, h2, ?_⟩
      simp only [lcterm_init_hbar, if_neg h1, h2, ne_eq, not_true_eq_false, if_false]
      rw [set_char_lit _ 1 (by decide) (by decide), set_char_lit _ 2 (by decide) (by decide),
        set_char_lit _ 3 (by decide) (by decide), set_char_lit _ 4 (by decide) (by decide),
        set_char_lit _ 5 (by decide) (by decide)]
      simp [Driver.write, set_modes, hbar_frames]
    · right; left
      exact ⟨h1, h2, by simp [lcterm_init_hbar, h1, h2]⟩

theorem init_num_cases (d : Driver) :
    (d.private_data.last_ccmode = CGmode.bignum ∧ lcterm_init_num d = d) ∨
    (d.private_data.last_ccmode ≠ CGmode.bignum ∧ d.private_data.ccmode ≠ CGmode.standard ∧
      lcterm_init_num d = mode_warning d "init_num") ∨
    (d.private_data.last_ccmode ≠ CGmode.bignum ∧ d.private_data.ccmode = CGmode.standard ∧
      lcterm_init_num d
        = { set_modes d CGmode.bignum with written := d.written ++ bignum_frames }) := by
  by_cases h1 : d.private_data.last_ccmode = CGmode.bignum
  · left; exact ⟨h1, by simp [lcterm_init_num, h1]⟩
  · by_cases h2 : d.private_data.ccmode = CGmode.standard
    · right; right
      refine ⟨h1, h2, ?_⟩
      have hr : List.range 8 = [0, 1, 2, 3, 4, 5, 6, 7] := by decide
      simp only [lcterm_init_num, if_neg h1, h2, ne_eq, not_true_eq_false, if_false, hr,
        List.foldl_cons, List.foldl_nil, bignum_frames, List.map_cons, List.map_nil]
      rw [set_char_eq _ 0 (by decide), set_char_eq _ 1 (by decide),
        set_char_eq _ 2 (by decide), set_char_eq _ 3 (by decide),
        set_char_eq _ 4 (by decide), set_char_eq _ 5 (by decide),
        set_char_eq _ 6 (by decide), set_char_eq _ 7 (by decide)]
      simp [Driver.write, set_modes]
    · right; left
      exact ⟨h1, h2, by simp [lcterm_init_num, h1, h2]⟩

/-! ## Frame lemmas for the drawing functions -/

theorem icon_block_filled (K : LcdConsts) (d : Driver) (x y : Int) :
    lcterm_icon K d x y K.ICON_BLOCK_FILLED = (0, lcterm_chr d x y 255) := by
  simp [lcterm_icon]

theorem bar_cell_gridOnly (K : LcdConsts) (d : Driver) (x y filled cellPixels cc_offset : Int)
    (pos : Nat) : GridOnly d (bar_cell K d x y filled cellPixels cc_offset pos) := by
  unfold bar_cell
  split
  · rw [icon_block_filled]; exact chr_gridOnly _ _ _ _
  · split
    · exact chr_gridOnly _ _ _ _
    · exact chr_gridOnly _ _ _ _

theorem lib_vbar_static_gridOnly (K : LcdConsts) (d : Driver)
    (x y len promille options cellheight cc_offset : Int) :
    GridOnly d (lib_vbar_static K d x y len promille options cellheight cc_offset) :=
  gridOnly_foldl _ (fun _ _ => bar_cell_gridOnly _ _ _ _ _ _ _ _) _ _

theorem lib_hbar_static_gridOnly (K : LcdConsts) (d : Driver)
    (x y len promille options cellwidth cc_offset : Int) :
    GridOnly d (lib_hbar_static K d x y len promille options cellwidth cc_offset) :=
  gridOnly_foldl _ (fun _ _ => bar_cell_gridOnly _ _ _ _ _ _ _ _) _ _

theorem num_column_gridOnly (d : Driver) (x y : Int) (num x2 : Nat) :
    GridOnly d (num_column d x y num x2) :=
  gridOnly_foldl _ (fun _ _ => chr_gridOnly _ _ _ _) _ _

theorem num_loop_gridOnly (x y : Int) (num fuel x2 : Nat) (d : Driver) :
    GridOnly d (num_loop x y num fuel x2 d) := by
  induction fuel generalizing x2 d with
  | zero => exact gridOnly_refl d
  | succ fuel ih =>
    unfold num_loop
    split
    · exact gridOnly_trans (num_column_gridOnly d x y num x2) (ih _ _)
    · exact gridOnly_refl d

theorem icon_cases (K : LcdConsts) (d : Driver) (x y icon : Int) :
    (lcterm_icon K d x y icon).2 = d ∨
    (lcterm_icon K d x y icon).2 = lcterm_chr d x y 255 ∨
    ∃ dat, (lcterm_icon K d x y icon).2 = lcterm_chr (lcterm_set_char d 0 (some dat)) x y 0 := by
  unfold lcterm_icon
  split
  · right; left; rfl
  · split
    · right; right; exact ⟨_, rfl⟩
    · split
      · right; right; exact ⟨_, rfl⟩
      · left; rfl

theorem icon_quiet (K : LcdConsts) (d : Driver) (x y icon : Int) :
    Quiet d (lcterm_icon K d x y icon).2 := by
  rcases icon_cases K d x y icon with h | h | ⟨dat, h⟩
  · rw [h]; exact quiet_refl d
  · rw [h]; exact gridOnly_quiet (chr_gridOnly _ _ _ _)
  · rw [h]; exact quiet_trans (set_char_quiet _ _ _) (gridOnly_quiet (chr_gridOnly _ _ _ _))

theorem icon_modes (K : LcdConsts) (d : Driver) (x y icon : Int) :
    (lcterm_icon K d x y icon).2.private_data.ccmode = d.private_data.ccmode ∧
    (lcterm_icon K d x y icon).2.private_data.last_ccmode = d.private_data.last_ccmode ∧
    (lcterm_icon K d x y icon).2.reported = d.reported := by
  rcases icon_cases K d x y icon with h | h | ⟨dat, h⟩
  · rw [h]; exact ⟨rfl, rfl, rfl⟩
  · rw [h]
    exact ⟨gridOnly_ccmode (chr_gridOnly _ _ _ _), gridOnly_last_ccmode (chr_gridOnly _ _ _ _),
      gridOnly_reported (chr_gridOnly _ _ _ _)⟩
  · rw [h]
    refine ⟨?_, ?_, ?_⟩
    · rw [gridOnly_ccmode (chr_gridOnly _ _ _ _), set_char_private_data]
    · rw [gridOnly_last_ccmode (chr_gridOnly _ _ _ _), set_char_private_data]
    · rw [gridOnly_reported (chr_gridOnly _ _ _ _), set_char_reported]

theorem mode_warning_quiet (d : Driver) (who : String) : Quiet d (mode_warning d who) :=
  ⟨rfl, ⟨[], by simp, by simp [mode_warning, Driver.report]⟩, rfl, rfl, rfl, rfl⟩

theorem frames_quiet (d : Driver) (m : CGmode) (ws : List (List Nat))
    (h : ∀ w ∈ ws, w.head? = some 0x1F) :
    Quiet d { set_modes d m with written := d.written ++ ws } :=
  ⟨rfl, ⟨ws, h, rfl⟩, rfl, rfl, rfl, rfl⟩

theorem vbar_frames_head : ∀ w ∈ vbar_frames, w.head? = some 0x1F := by
  simp [vbar_frames, glyph_frame]

theorem hbar_frames_head : ∀ w ∈ hbar_frames, w.head? = some 0x1F := by
  simp [hbar_frames, glyph_frame]

theorem bignum_frames_head : ∀ w ∈ bignum_frames, w.head? = some 0x1F := by
  simp [bignum_frames, glyph_frame]

theorem init_vbar_quiet (d : Driver) : Quiet d (lcterm_init_vbar d) := by
  rcases init_vbar_cases d with ⟨_, h⟩ | ⟨_, _, h⟩ | ⟨_, _, h⟩
  · rw [h]; exact quiet_refl d
  · rw [h]; exact mode_warning_quiet d _
  · rw [h]; exact frames_quiet d _ _ vbar_frames_head

theorem init_hbar_quiet (d : Driver) : Quiet d (lcterm_init_hbar d) := by
  rcases init_hbar_cases d with ⟨_, h⟩ | ⟨_, _, h⟩ | ⟨_, _, h⟩
  · rw [h]; exact quiet_refl d
  · rw [h]; exact mode_warning_quiet d _
  · rw [h]; exact frames_quiet d _ _ hbar_frames_head

theorem init_num_quiet (d : Driver) : Quiet d (lcterm_init_num d) := by
  rcases init_num_cases d with ⟨_, h⟩ | ⟨_, _, h⟩ | ⟨_, _, h⟩
  · rw [h]; exact quiet_refl d
  · rw [h]; exact mode_warning_quiet d _
  · rw [h]; exact frames_quiet d _ _ bignum_frames_head

theorem init_vbar_modeInv (d : Driver) (h : ModeInv d) : ModeInv (lcterm_init_vbar d) := by
  rcases init_vbar_cases d with ⟨_, e⟩ | ⟨_, _, e⟩ | ⟨_, _, e⟩
  · rw [e]; exact h
  · rw [e]; exact h
  · rw [e]; right; rfl

theorem init_hbar_modeInv (d : Driver) (h : ModeInv d) : ModeInv (lcterm_init_hbar d) := by
  rcases init_hbar_cases d with ⟨_, e⟩ | ⟨_, _, e⟩ | ⟨_, _, e⟩
  · rw [e]; exact h
  · rw [e]; exact h
  · rw [e]; right; rfl

theorem init_num_modeInv (d : Driver) (h : ModeInv d) : ModeInv (lcterm_init_num d) := by
  rcases init_num_cases d with ⟨_, e⟩ | ⟨_, _, e⟩ | ⟨_, _, e⟩
  · rw [e]; exact h
  · rw [e]; exact h
  · rw [e]; right; rfl

theorem gridOnly_modeInv {d d' : Driver} (g : GridOnly d d') (h : ModeInv d) : ModeInv d' := by
  unfold ModeInv
  rw [gridOnly_ccmode g, gridOnly_last_ccmode g]
  exact h

theorem num_cases (d : Driver) (x num : Int) :
    GridOnly d (lcterm_num d x num) ∨ GridOnly (lcterm_init_num d) (lcterm_num d x num) := by
  unfold lcterm_num
  split
  · left; exact gridOnly_refl d
  · split
    · right; exact num_loop_gridOnly _ _ _ _ _ _
    · left; exact chr_gridOnly _ _ _ _

/-! ## Initialisation and reachable states -/
theorem init_spec (K : LcdConsts) (name device size : String) (alloc_ok : Bool) (fd : Int)
    (d : Driver) (h : lcterm_init K name device size alloc_ok fd = some d) :
    d.name = name ∧
    d.private_data.ccmode = CGmode.standard ∧
    d.private_data.last_ccmode = CGmode.standard ∧
    d.written = [[0x1a, 0x16, 0x1b, 0x4b]] ∧
    d.private_data.framebuf
      = List.replicate (d.private_data.width * d.private_data.height) 0x20 ∧
    d.private_data.last_framebuf
      = List.replicate (d.private_data.width * d.private_data.height) 0x20 := by
  unfold lcterm_init at h
  split at h
  · simp at h
  · rcases hps : parse_size K size with ⟨w, h', bad⟩
    rw [hps] at h
    dsimp only at h
    split at h
    · simp at h
    · simp only [Option.some.injEq] at h
      subst h
      cases bad <;> simp [Driver.report, Driver.write, memset]

theorem fresh_16x2_init :
    lcterm_init lcd_h "lcterm" "/dev/lcd" "16x2" true 3 = some fresh_16x2 := by decide

theorem fresh_16x2_reachable : Reachable lcd_h fresh_16x2 :=
  Reachable.init "lcterm" "/dev/lcd" "16x2" 3 fresh_16x2 fresh_16x2_init

theorem after_vbar_reachable : Reachable lcd_h after_vbar :=
  Reachable.step fresh_16x2 after_vbar (Op.vbar 1 2 1 500 0) fresh_16x2_reachable rfl

theorem cached_vbar_reachable : Reachable lcd_h cached_vbar :=
  Reachable.step after_vbar cached_vbar Op.clear after_vbar_reachable rfl

theorem second_vbar_reachable : Reachable lcd_h second_vbar :=
  Reachable.step cached_vbar second_vbar (Op.vbar 1 2 1 500 0) cached_vbar_reachable rfl

theorem memset_length (buf : List Nat) (c n : Nat) : (memset buf c n).length = buf.length := by
  simp [memset]
  omega

theorem clear_quiet (d : Driver) : Quiet d (lcterm_clear d) :=
  ⟨rfl, ⟨[], by simp, by simp [lcterm_clear]⟩, rfl, rfl, rfl, by simp [lcterm_clear, memset_length]⟩

theorem vbar_quiet (K : LcdConsts) (d : Driver) (x y len promille options : Int) :
    Quiet d (lcterm_vbar K d x y len promille options) :=
  quiet_trans (init_vbar_quiet d) (gridOnly_quiet (lib_vbar_static_gridOnly _ _ _ _ _ _ _ _ _))

theorem hbar_quiet (K : LcdConsts) (d : Driver) (x y len promille options : Int) :
    Quiet d (lcterm_hbar K d x y len promille options) :=
  quiet_trans (init_hbar_quiet d) (gridOnly_quiet (lib_hbar_static_gridOnly _ _ _ _ _ _ _ _ _))

theorem num_quiet (d : Driver) (x num : Int) : Quiet d (lcterm_num d x num) := by
  rcases num_cases d x num with h | h
  · exact gridOnly_quiet h
  · exact quiet_trans (init_num_quiet d) (gridOnly_quiet h)

theorem step_quiet (K : LcdConsts) (d d' : Driver) (op : Op) (hop : op ≠ Op.flush)
    (h : step K d op = some d') : Quiet d d' := by
  cases op with
  | chr x y c => simp [step] at h; rw [← h]; exact gridOnly_quiet (chr_gridOnly _ _ _ _)
  | string x y s => exact gridOnly_quiet (string_gridOnly _ _ _ _ _ h)
  | clear => simp [step] at h; rw [← h]; exact clear_quiet d
  | vbar x y len promille options => simp [step] at h; rw [← h]; exact vbar_quiet _ _ _ _ _ _ _
  | hbar x y len promille options => simp [step] at h; rw [← h]; exact hbar_quiet _ _ _ _ _ _ _
  | num x num => simp [step] at h; rw [← h]; exact num_quiet _ _ _
  | icon x y icon => simp [step] at h; rw [← h]; exact icon_quiet _ _ _ _ _
  | flush => exact absurd rfl hop

theorem quiet_wf {d d' : Driver} (q : Quiet d d') (h : WF d) : WF d' := by
  obtain ⟨_, _, l, w, g, f⟩ := q
  unfold WF
  rw [f, l, w, g]
  exact h

theorem flush_wf (d : Driver) (h : WF d) : WF (flush_done d) := by
  unfold flush_done
  cases hc : memcmp_eq d.private_data.framebuf d.private_data.last_framebuf
      (d.private_data.width * d.private_data.height)
  · simp only [hc, Bool.false_eq_true, if_false]
    exact ⟨h.1, by simp [memcpy_of_length _ _ _ h.1 h.2, h.1]⟩
  · simpa [hc] using h

theorem step_wf (K : LcdConsts) (d d' : Driver) (op : Op) (hwf : WF d)
    (h : step K d op = some d') : WF d' := by
  by_cases hop : op = Op.flush
  · subst hop
    rw [flush_some d d' h]
    exact flush_wf d hwf
  · exact quiet_wf (step_quiet K d d' op hop h) hwf

theorem init_wf (K : LcdConsts) (name device size : String) (alloc_ok : Bool) (fd : Int)
    (d : Driver) (h : lcterm_init K name device size alloc_ok fd = some d) : WF d := by
  obtain ⟨_, _, _, _, h1, h2⟩ := init_spec K name device size alloc_ok fd d h
  unfold WF
  rw [h1, h2]
  simp

theorem reachable_wf (K : LcdConsts) (d : Driver) (h : Reachable K d) : WF d := by
  induction h with
  | init name device size fd d h => exact init_wf _ _ _ _ _ _ _ h
  | step d d' op _ hs ih => exact step_wf K d d' op ih hs

theorem flush_modes (d : Driver) :
    (flush_done d).private_data.ccmode = d.private_data.ccmode ∧
    (flush_done d).private_data.last_ccmode = d.private_data.last_ccmode ∧
    (flush_done d).reported = d.reported := by
  unfold flush_done
  dsimp only
  split
  · exact ⟨rfl, rfl, rfl⟩
  · exact ⟨rfl, rfl, rfl⟩

theorem step_modeInv (K : LcdConsts) (d d' : Driver) (op : Op) (hm : ModeInv d)
    (h : step K d op = some d') : ModeInv d' := by
  cases op with
  | chr x y c => simp [step] at h; rw [← h]; exact gridOnly_modeInv (chr_gridOnly _ _ _ _) hm
  | string x y s => exact gridOnly_modeInv (string_gridOnly _ _ _ _ _ h) hm
  | clear => simp [step] at h; rw [← h]; left; rfl
  | vbar x y len promille options =>
    simp [step] at h; rw [← h]
    exact gridOnly_modeInv (lib_vbar_static_gridOnly _ _ _ _ _ _ _ _ _) (init_vbar_modeInv d hm)
  | hbar x y len promille options =>
    simp [step] at h; rw [← h]
    exact gridOnly_modeInv (lib_hbar_static_gridOnly _ _ _ _ _ _ _ _ _) (init_hbar_modeInv d hm)
  | num x num =>
    simp [step] at h; rw [← h]
    rcases num_cases d x num with g | g
    · exact gridOnly_modeInv g hm
    · exact gridOnly_modeInv g (init_num_modeInv d hm)
  | icon x y icon =>
    simp [step] at h; rw [← h]
    obtain ⟨h1, h2, _⟩ := icon_modes K d x y icon
    unfold ModeInv
    rw [h1, h2]
    exact hm
  | flush =>
    rw [flush_some d d' h]
    obtain ⟨h1, h2, _⟩ := flush_modes d
    unfold ModeInv
    rw [h1, h2]
    exact hm

theorem reachable_modeInv (K : LcdConsts) (d : Driver) (h : Reachable K d) : ModeInv d := by
  induction h with
  | init name device size fd d h =>
    left
    exact (init_spec _ _ _ _ _ _ _ h).2.1
  | step d d' op _ hs ih => exact step_modeInv K d d' op ih hs

theorem string_loop_total (w h : Nat) (y : Int) (hy0 : 0 ≤ y) (hy : y < h) (s : List Nat) :
    ∀ (x : Int) (fb : List Nat), 0 ≤ x → fb.length = w * h →
      ∃ fb', string_loop w y s x fb = some fb' := by
  induction s with
  | nil => intro x fb _ _; exact ⟨fb, rfl⟩
  | cons c rest ih =>
    intro x fb hx hfb
    unfold string_loop
    split
    · rename_i hc
      dsimp only
      have h1 : 0 ≤ y * (w : Int) := Int.mul_nonneg hy0 (Int.ofNat_nonneg w)
      have h2 : (y + 1) * (w : Int) ≤ (h : Int) * (w : Int) :=
        Int.mul_le_mul_of_nonneg_right (by omega) (Int.ofNat_nonneg w)
      have h3 : ((w * h : Nat) : Int) = (h : Int) * (w : Int) := by
        rw [Nat.cast_mul, Int.mul_comm]
      have h4 : (y + 1) * (w : Int) = y * (w : Int) + w := by rw [Int.add_mul, Int.one_mul]
      have hin : 0 ≤ y * (w : Int) + x ∧ y * (w : Int) + x < (fb.length : Int) := by
        rw [hfb, h3]
        omega
      rw [if_pos hin]
      exact ih (x + 1) _ (by omega) (by simpa using hfb)
    · exact ⟨fb, rfl⟩

theorem string_total (d : Driver) (hwf : WF d) (x y : Int) (s : List Nat)
    (hin : (Op.string x y s).inRange d) : ∃ d', lcterm_string d x y s = some d' := by
  obtain ⟨hx1, _, hy1, hy2⟩ := hin
  obtain ⟨fb, hfb⟩ := string_loop_total d.private_data.width d.private_data.height (y - 1)
    (by omega) (by omega) s (x - 1) d.private_data.framebuf (by omega) hwf.1
  exact ⟨{ d with private_data := { d.private_data with framebuf := fb } },
    by simp [lcterm_string, hfb]⟩

/-- Every in-range call made in a reachable state returns. -/
theorem step_total (K : LcdConsts) (d : Driver) (hr : Reachable K d) (op : Op)
    (hin : op.inRange d) : ∃ d', step K d op = some d' := by
  cases op with
  | string x y s => exact string_total d (reachable_wf K d hr) x y s hin
  | chr x y c => exact ⟨_, rfl⟩
  | clear => exact ⟨_, rfl⟩
  | vbar x y len promille options => exact ⟨_, rfl⟩
  | hbar x y len promille options => exact ⟨_, rfl⟩
  | num x num => exact ⟨_, rfl⟩
  | icon x y icon => exact ⟨_, rfl⟩
  | flush => exact ⟨_, flush_fits d hin⟩


/-! ## C5 -/

theorem vbar_cached (K : LcdConsts) (d : Driver) (x y len promille options : Int)
    (h : d.private_data.last_ccmode = CGmode.vbar) :
    GridOnly d (lcterm_vbar K d x y len promille options) := by
  have e : lcterm_init_vbar d = d := by simp [lcterm_init_vbar, h]
  have g := lib_vbar_static_gridOnly K (lcterm_init_vbar d) x y len promille options
    K.LCD_DEFAULT_CELLHEIGHT 0
  rw [e] at g
  unfold lcterm_vbar
  rw [e]
  exact g

/-- C5: glyph caching.  A request for vertical bars, horizontal bars or big numbers made
while `last_ccmode` is already that mode returns the context unchanged, so it transmits
nothing.  From a freshly initialised context the calls vbar, clear, vbar transmit the
vertical-bar glyph definitions during the first draw, nothing during the clear and nothing
during the second draw. -/
theorem glyph_caching (K : LcdConsts) :
    (∀ d : Driver, d.private_data.last_ccmode = CGmode.vbar → lcterm_init_vbar d = d) ∧
    (∀ d : Driver, d.private_data.last_ccmode = CGmode.hbar → lcterm_init_hbar d = d) ∧
    (∀ d : Driver, d.private_data.last_ccmode = CGmode.bignum → lcterm_init_num d = d) ∧
    (∀ (name device size : String) (fd : Int) (d0 : Driver),
      lcterm_init K name device size true fd = some d0 →
      ∀ x y len promille options x' y' len' promille' options' : Int,
        (lcterm_vbar K d0 x y len promille options).written = d0.written ++ vbar_frames ∧
        (lcterm_clear (lcterm_vbar K d0 x y len promille options)).written
          = (lcterm_vbar K d0 x y len promille options).written ∧
        (lcterm_vbar K (lcterm_clear (lcterm_vbar K d0 x y len promille options))
            x' y' len' promille' options').written
          = (lcterm_clear (lcterm_vbar K d0 x y len promille options)).written) := by
  refine ⟨fun d h => by simp [lcterm_init_vbar, h], fun d h => by simp [lcterm_init_hbar, h],
    fun d h => by simp [lcterm_init_num, h], ?_⟩
  intro name device size fd d0 h0 x y len promille options x' y' len' promille' options'
  obtain ⟨_, hc, hl, _⟩ := init_spec _ _ _ _ _ _ _ h0
  have h1 : lcterm_init_vbar d0
      = { set_modes d0 CGmode.vbar with written := d0.written ++ vbar_frames } := by
    rcases init_vbar_cases d0 with ⟨a, _⟩ | ⟨_, a, _⟩ | ⟨_, _, e⟩
    · rw [hl] at a; exact absurd a (by decide)
    · exact absurd hc a
    · exact e
  have g1 := lib_vbar_static_gridOnly K (lcterm_init_vbar d0) x y len promille options
    K.LCD_DEFAULT_CELLHEIGHT 0
  have hw1 : (lcterm_vbar K d0 x y len promille options).written
      = d0.written ++ vbar_frames := by
    unfold lcterm_vbar
    rw [gridOnly_written g1, h1]
  have hl1 : (lcterm_vbar K d0 x y len promille options).private_data.last_ccmode
      = CGmode.vbar := by
    unfold lcterm_vbar
    rw [gridOnly_last_ccmode g1, h1]
    rfl
  refine ⟨hw1, rfl, ?_⟩
  exact gridOnly_written (vbar_cached K (lcterm_clear (lcterm_vbar K d0 x y len promille options))
    x' y' len' promille' options' hl1)

theorem glyph_caching_witness :
    lcterm_init_vbar c3_driver = c3_driver ∧
    after_vbar.written = fresh_16x2.written ++ vbar_frames ∧
    cached_vbar.written = after_vbar.written ∧
    second_vbar.written = cached_vbar.written :=
  ⟨(glyph_caching lcd_h).1 c3_driver (by decide),
   (glyph_caching lcd_h).2.2.2 "lcterm" "/dev/lcd" "16x2" 3 fresh_16x2 (by decide)
     1 2 1 500 0 1 2 1 500 0⟩

/-! ## C6 -/

theorem mode_warning_eq (d : Driver) (who : String) :
    mode_warning d who = { d with reported := d.reported ++ [warning_entry d who] } := rfl

/-- The rejection path of the mode requests.  In a reachable state whose `ccmode` is not
`standard`, `last_ccmode` equals `ccmode`, and a request for any of the three glyph modes
other than `ccmode` only appends one warning to the reports: nothing is written to the
device and both mode fields stay as they are.  In particular, when `ccmode` is `vbar`, a
horizontal-bar draw writes nothing to the device, logs exactly one warning and leaves
both mode fields at `vbar`. -/
theorem mode_conflict_rejected (K : LcdConsts) (d : Driver) (hr : Reachable K d)
    (hx : d.private_data.ccmode ≠ CGmode.standard) :
    d.private_data.last_ccmode = d.private_data.ccmode ∧
    (d.private_data.ccmode ≠ CGmode.vbar →
      lcterm_init_vbar d = { d with reported := d.reported ++ [warning_entry d "init_vbar"] }) ∧
    (d.private_data.ccmode ≠ CGmode.hbar →
      lcterm_init_hbar d = { d with reported := d.reported ++ [warning_entry d "init_hbar"] }) ∧
    (d.private_data.ccmode ≠ CGmode.bignum →
      lcterm_init_num d = { d with reported := d.reported ++ [warning_entry d "init_num"] }) ∧
    (d.private_data.ccmode = CGmode.vbar →
      ∀ x y len promille options : Int,
        (lcterm_hbar K d x y len promille options).written = d.written ∧
        (lcterm_hbar K d x y len promille options).reported
          = d.reported ++ [warning_entry d "init_hbar"] ∧
        (lcterm_hbar K d x y len promille options).private_data.ccmode = CGmode.vbar ∧
        (lcterm_hbar K d x y len promille options).private_data.last_ccmode = CGmode.vbar) := by
  have hl : d.private_data.last_ccmode = d.private_data.ccmode := by
    rcases reachable_modeInv K d hr with h | h
    · exact absurd h hx
    · exact h.symm
  have hv : d.private_data.ccmode ≠ CGmode.vbar →
      lcterm_init_vbar d = { d with reported := d.reported ++ [warning_entry d "init_vbar"] } := by
    intro hy
    rcases init_vbar_cases d with ⟨a, _⟩ | ⟨_, _, e⟩ | ⟨_, a, _⟩
    · rw [hl] at a; exact absurd a hy
    · rw [e, mode_warning_eq]
    · exact absurd a hx
  have hh : d.private_data.ccmode ≠ CGmode.hbar →
      lcterm_init_hbar d = { d with reported := d.reported ++ [warning_entry d "init_hbar"] } := by
    intro hy
    rcases init_hbar_cases d with ⟨a, _⟩ | ⟨_, _, e⟩ | ⟨_, a, _⟩
    · rw [hl] at a; exact absurd a hy
    · rw [e, mode_warning_eq]
    · exact absurd a hx
  have hn : d.private_data.ccmode ≠ CGmode.bignum →
      lcterm_init_num d = { d with reported := d.reported ++ [warning_entry d "init_num"] } := by
    intro hy
    rcases init_num_cases d with ⟨a, _⟩ | ⟨_, _, e⟩ | ⟨_, a, _⟩
    · rw [hl] at a; exact absurd a hy
    · rw [e, mode_warning_eq]
    · exact absurd a hx
  refine ⟨hl, hv, hh, hn, ?_⟩
  intro hvb x y len promille options
  have e := hh (by rw [hvb]; decide)
  have g := lib_hbar_static_gridOnly K (lcterm_init_hbar d) x y len promille options
    K.LCD_DEFAULT_CELLWIDTH 0
  unfold lcterm_hbar
  rw [gridOnly_written g, gridOnly_reported g, gridOnly_ccmode g, gridOnly_last_ccmode g, e]
  exact ⟨rfl, rfl, hvb, hl.trans hvb⟩

theorem mode_conflict_rejected_witness :
    after_vbar.private_data.last_ccmode = after_vbar.private_data.ccmode ∧
    (lcterm_hbar lcd_h after_vbar 1 1 5 1000 0).written = after_vbar.written ∧
    (lcterm_hbar lcd_h after_vbar 1 1 5 1000 0).reported
      = after_vbar.reported ++ [warning_entry after_vbar "init_hbar"] ∧
    (lcterm_hbar lcd_h after_vbar 1 1 5 1000 0).private_data.ccmode = CGmode.vbar ∧
    (lcterm_hbar lcd_h after_vbar 1 1 5 1000 0).private_data.last_ccmode = CGmode.vbar :=
  ⟨(mode_conflict_rejected lcd_h after_vbar after_vbar_reachable (by decide)).1,
   (mode_conflict_rejected lcd_h after_vbar after_vbar_reachable (by decide)).2.2.2.2
     (by decide) 1 1 5 1000 0⟩

/-- C6, the code at the failing input: in the run init(16x2), vbar, clear, vbar, hbar the
horizontal-bar draw comes immediately after a vertical-bar draw, with no clear in between
(the bar's cells, the partial glyph 4 over a full cell, are in column 3 of the current
frame).  The second
vertical-bar draw has left `ccmode` at `standard`, so the horizontal-bar draw is not
rejected: it writes the five horizontal-bar glyph definitions to the device and reports
no warning. -/
theorem mode_conflict_failing_run :
    redrawn_vbar.private_data.framebuf[2]? = some 4 ∧
    redrawn_vbar.private_data.framebuf[18]? = some 255 ∧
    redrawn_vbar.private_data.ccmode = CGmode.standard ∧
    redrawn_vbar.private_data.last_ccmode = CGmode.vbar ∧
    (lcterm_hbar lcd_h redrawn_vbar 1 1 4 500 0).written
      = redrawn_vbar.written ++ hbar_frames ∧
    (lcterm_hbar lcd_h redrawn_vbar 1 1 4 500 0).reported = fresh_16x2.reported ∧
    (lcterm_hbar lcd_h redrawn_vbar 1 1 4 500 0).private_data.ccmode = CGmode.hbar ∧
    (lcterm_hbar lcd_h redrawn_vbar 1 1 4 500 0).private_data.last_ccmode = CGmode.hbar := by
  decide

/-! ## C7 -/

/-- C7, the code at the failing inputs.  After the calls vbar, clear the requested mode
is `standard` and `last_ccmode` is `vbar`; a request for vertical bars then returns the
context unchanged, so `ccmode` stays `standard` instead of becoming `vbar`.  After the
calls num, icon (open heart), clear on a 16x4 display the last definition written for
slot 0 is the heart; a request for big numbers returns the context unchanged, so `ccmode`
stays `standard` and slot 0 keeps the heart instead of the big-number glyph. -/
theorem standard_to_mode_failing_run :
    cached_vbar.private_data.ccmode = CGmode.standard ∧
    cached_vbar.private_data.last_ccmode = CGmode.vbar ∧
    lcterm_init_vbar cached_vbar = cached_vbar ∧
    (lcterm_init_vbar cached_vbar).private_data.ccmode ≠ CGmode.vbar ∧
    heart_over_bignum.private_data.ccmode = CGmode.standard ∧
    heart_over_bignum.private_data.last_ccmode = CGmode.bignum ∧
    heart_over_bignum.written = bignum_frames ++ [glyph_frame 0 heart_open] ∧
    lcterm_init_num heart_over_bignum = heart_over_bignum ∧
    (lcterm_init_num heart_over_bignum).private_data.ccmode ≠ CGmode.bignum ∧
    bignum_frames.head? ≠ some (glyph_frame 0 heart_open) := by
  decide

/-- The granting path of the mode requests.  In a state whose `ccmode` is `standard`, a
request for vertical bars, horizontal bars or big numbers reports no warning and
afterwards `last_ccmode` is the requested mode; when `last_ccmode` was another mode
before, the request writes the glyph definitions of the requested mode to the device and
sets `ccmode` to it as well; when `last_ccmode` was the requested mode already, nothing
is written. -/
theorem standard_to_mode (d : Driver) (hs : d.private_data.ccmode = CGmode.standard) :
    ((lcterm_init_vbar d).reported = d.reported ∧
      (lcterm_init_vbar d).private_data.last_ccmode = CGmode.vbar ∧
      (d.private_data.last_ccmode ≠ CGmode.vbar →
        (lcterm_init_vbar d).private_data.ccmode = CGmode.vbar ∧
        (lcterm_init_vbar d).written = d.written ++ vbar_frames) ∧
      (d.private_data.last_ccmode = CGmode.vbar →
        (lcterm_init_vbar d).written = d.written)) ∧
    ((lcterm_init_hbar d).reported = d.reported ∧
      (lcterm_init_hbar d).private_data.last_ccmode = CGmode.hbar ∧
      (d.private_data.last_ccmode ≠ CGmode.hbar →
        (lcterm_init_hbar d).private_data.ccmode = CGmode.hbar ∧
        (lcterm_init_hbar d).written = d.written ++ hbar_frames) ∧
      (d.private_data.last_ccmode = CGmode.hbar →
        (lcterm_init_hbar d).written = d.written)) ∧
    ((lcterm_init_num d).reported = d.reported ∧
      (lcterm_init_num d).private_data.last_ccmode = CGmode.bignum ∧
      (d.private_data.last_ccmode ≠ CGmode.bignum →
        (lcterm_init_num d).private_data.ccmode = CGmode.bignum ∧
        (lcterm_init_num d).written = d.written ++ bignum_frames) ∧
      (d.private_data.last_ccmode = CGmode.bignum →
        (lcterm_init_num d).written = d.written)) := by
  refine ⟨?_, ?_, ?_⟩
  · rcases init_vbar_cases d with ⟨a, e⟩ | ⟨_, a, _⟩ | ⟨a, _, e⟩
    · rw [e]; exact ⟨rfl, a, fun h => absurd a h, fun _ => rfl⟩
    · exact absurd hs a
    · rw [e]; exact ⟨rfl, rfl, fun _ => ⟨rfl, rfl⟩, fun h => absurd h a⟩
  · rcases init_hbar_cases d with ⟨a, e⟩ | ⟨_, a, _⟩ | ⟨a, _, e⟩
    · rw [e]; exact ⟨rfl, a, fun h => absurd a h, fun _ => rfl⟩
    · exact absurd hs a
    · rw [e]; exact ⟨rfl, rfl, fun _ => ⟨rfl, rfl⟩, fun h => absurd h a⟩
  · rcases init_num_cases d with ⟨a, e⟩ | ⟨_, a, _⟩ | ⟨a, _, e⟩
    · rw [e]; exact ⟨rfl, a, fun h => absurd a h, fun _ => rfl⟩
    · exact absurd hs a
    · rw [e]; exact ⟨rfl, rfl, fun _ => ⟨rfl, rfl⟩, fun h => absurd h a⟩

theorem standard_to_mode_witness :
    (lcterm_init_vbar fresh_16x2).private_data.ccmode = CGmode.vbar ∧
    (lcterm_init_vbar fresh_16x2).written = fresh_16x2.written ++ vbar_frames ∧
    (lcterm_init_vbar cached_vbar).reported = cached_vbar.reported ∧
    (lcterm_init_vbar cached_vbar).written = cached_vbar.written ∧
    (lcterm_init_hbar cached_vbar).private_data.ccmode = CGmode.hbar ∧
    (lcterm_init_hbar cached_vbar).written = cached_vbar.written ++ hbar_frames :=
  ⟨((standard_to_mode fresh_16x2 (by decide)).1.2.2.1 (by decide)).1,
   ((standard_to_mode fresh_16x2 (by decide)).1.2.2.1 (by decide)).2,
   (standard_to_mode cached_vbar (by decide)).1.1,
   (standard_to_mode cached_vbar (by decide)).1.2.2.2 (by decide),
   ((standard_to_mode cached_vbar (by decide)).2.1.2.2.1 (by decide)).1,
   ((standard_to_mode cached_vbar (by decide)).2.1.2.2.1 (by decide)).2⟩

/-! ## C8 -/

/-- C8, the code at the failing input: in the run init(16x2), vbar, clear, vbar, hbar no
draw is rejected (the reports are those of `lcterm_init`), the second vertical bar has put
the partial glyph 4 into cell (1,2) of the current frame, and the horizontal-bar draw that
follows, before any clear, writes the five horizontal-bar glyph definitions to the device
and makes `hbar` the resident mode. -/
theorem exclusivity_failing_run :
    second_vbar.reported = fresh_16x2.reported ∧
    second_vbar.private_data.framebuf[16]? = some 4 ∧
    second_vbar.private_data.ccmode = CGmode.standard ∧
    second_vbar.private_data.last_ccmode = CGmode.vbar ∧
    (lcterm_hbar lcd_h second_vbar 1 1 5 1000 0).written
      = second_vbar.written ++ hbar_frames ∧
    (lcterm_hbar lcd_h second_vbar 1 1 5 1000 0).reported = second_vbar.reported ∧
    (lcterm_hbar lcd_h second_vbar 1 1 5 1000 0).private_data.last_ccmode = CGmode.hbar ∧
    (lcterm_hbar lcd_h second_vbar 1 1 5 1000 0).private_data.framebuf[16]? = some 4 := by
  decide

/-! ## The flush encoding is injective -/

theorem writeGlyphSafe_getLast (c : Nat) : (writeGlyphSafe c).getLast? = some c := by
  unfold writeGlyphSafe
  split <;> simp

theorem writeGlyphSafe_cancel (X Y : List Nat) (c1 c2 : Nat)
    (h : X ++ writeGlyphSafe c1 = Y ++ writeGlyphSafe c2) : X = Y ∧ c1 = c2 := by
  have hl := congrArg List.getLast? h
  rw [List.getLast?_append, List.getLast?_append, writeGlyphSafe_getLast,
    writeGlyphSafe_getLast] at hl
  simp at hl
  subst hl
  exact ⟨List.append_cancel_right h, rfl⟩

theorem cells_cancel (n : Nat) : ∀ (l1 l2 A B : List Nat), l1.length = n → l2.length = n →
    A ++ l1.flatMap writeGlyphSafe = B ++ l2.flatMap writeGlyphSafe → A = B ∧ l1 = l2 := by
  induction n with
  | zero =>
    intro l1 l2 A B h1 h2 h
    rw [List.length_eq_zero] at h1 h2
    subst h1 h2
    simpa using h
  | succ n ih =>
    intro l1 l2 A B h1 h2 h
    rcases List.eq_nil_or_concat l1 with e | ⟨t1, c1, e⟩
    · rw [e] at h1; simp at h1
    rcases List.eq_nil_or_concat l2 with e' | ⟨t2, c2, e'⟩
    · rw [e'] at h2; simp at h2
    subst e e'
    simp only [List.concat_eq_append, List.length_append, List.length_singleton,
      Nat.add_right_cancel_iff] at h1 h2
    simp only [List.concat_eq_append, List.flatMap_append, List.flatMap_cons, List.flatMap_nil,
      List.append_nil, ← List.append_assoc] at h
    obtain ⟨h', hc⟩ := writeGlyphSafe_cancel _ _ _ _ h
    obtain ⟨hA, ht⟩ := ih t1 t2 A B h1 h2 h'
    subst hc ht
    exact ⟨hA, rfl⟩

theorem rows_cancel (p q : PrivateData) (hw : p.width = q.width) (n : Nat) :
    ∀ A B : List Nat,
      A ++ (List.range n).flatMap (frame_row p) = B ++ (List.range n).flatMap (frame_row q) →
      A = B ∧ ∀ r, r < n → ∀ col, col < p.width → cell p r col = cell q r col := by
  induction n with
  | zero =>
    intro A B h
    exact ⟨by simpa using h, fun r hr => absurd hr (Nat.not_lt_zero r)⟩
  | succ n ih =>
    intro A B h
    rw [List.range_succ, List.flatMap_append, List.flatMap_append] at h
    simp only [List.flatMap_cons, List.flatMap_nil, List.append_nil, frame_row,
      ← List.append_assoc] at h
    have h1 := List.append_cancel_right h
    rw [← List.flatMap_map (cell p n) writeGlyphSafe, ← List.flatMap_map (cell q n) writeGlyphSafe,
      ← hw] at h1
    obtain ⟨h2, hcells⟩ := cells_cancel p.width _ _ _ _ (by simp) (by simp) h1
    obtain ⟨hA, hrows⟩ := ih A B h2
    refine ⟨hA, fun r hr col hcol => ?_⟩
    rcases Nat.lt_succ_iff_lt_or_eq.1 hr with hlt | heq
    · exact hrows r hlt col hcol
    · subst heq
      exact List.map_inj_left.1 hcells col (List.mem_range.2 hcol)

theorem frame_bytes_inj (p q : PrivateData) (hw : p.width = q.width) (hh : p.height = q.height)
    (hp : p.framebuf.length = p.width * p.height) (hq : q.framebuf.length = p.width * p.height)
    (h : frame_bytes p = frame_bytes q) : p.framebuf = q.framebuf := by
  have h' : [0x1E] ++ (List.range p.height).flatMap (frame_row p)
      = [0x1E] ++ (List.range p.height).flatMap (frame_row q) := by
    have := h
    unfold frame_bytes at this
    rw [← hh] at this
    exact this
  obtain ⟨_, hcell⟩ := rows_cancel p q hw p.height [0x1E] [0x1E] h'
  apply List.ext_getElem?
  intro k
  rcases Nat.lt_or_ge k (p.width * p.height) with hk | hk
  · have hwpos : 0 < p.width := by
      rcases Nat.eq_zero_or_pos p.width with h0 | h0
      · rw [h0] at hk; simp at hk
      · exact h0
    have hkp : k < p.framebuf.length := by rw [hp]; exact hk
    have hkq : k < q.framebuf.length := by rw [hq]; exact hk
    have hc := hcell (k / p.width) (Nat.div_lt_of_lt_mul hk) (k % p.width) (Nat.mod_lt _ hwpos)
    have e1 : cell p (k / p.width) (k % p.width) = p.framebuf[k] := by
      unfold cell
      rw [Nat.mul_comm, Nat.div_add_mod, List.getD_eq_getElem _ _ hkp]
    have e2 : cell q (k / p.width) (k % p.width) = q.framebuf[k] := by
      unfold cell
      rw [← hw, Nat.mul_comm, Nat.div_add_mod, List.getD_eq_getElem _ _ hkq]
    rw [e1, e2] at hc
    rw [List.getElem?_eq_getElem hkp, List.getElem?_eq_getElem hkq, hc]
  · rw [List.getElem?_eq_none (by rw [hp]; exact hk),
      List.getElem?_eq_none (by rw [hq]; exact hk)]

/-! ## C4 -/

theorem encode_grid_eq (p : PrivateData) :
    encode_grid p.width p.height p.framebuf = flush_buf p := rfl

theorem encode_grid_inj (w h : Nat) (g1 g2 : List Nat) (h1 : g1.length = w * h)
    (h2 : g2.length = w * h) (e : encode_grid w h g1 = encode_grid w h g2) : g1 = g2 := by
  have e' : frame_bytes ⟨CGmode.standard, CGmode.standard, g1, [], w, h, 0⟩
      = frame_bytes ⟨CGmode.standard, CGmode.standard, g2, [], w, h, 0⟩ := by
    rw [← flush_buf_eq, ← flush_buf_eq]
    exact e
  exact frame_bytes_inj ⟨CGmode.standard, CGmode.standard, g1, [], w, h, 0⟩
    ⟨CGmode.standard, CGmode.standard, g2, [], w, h, 0⟩ rfl rfl h1 h2 e'

theorem last_flush_append_glyph (l ws : List (List Nat))
    (h : ∀ w ∈ ws, w.head? = some 0x1F) : last_flush (l ++ ws) = last_flush l := by
  unfold last_flush
  rw [List.filter_append]
  have : ws.filter is_flush_write = [] := by
    rw [List.filter_eq_nil_iff]
    intro w hw
    simp [is_flush_write, h w hw]
  rw [this, List.append_nil]

theorem last_flush_append_flush (l : List (List Nat)) (w h : Nat) (g : List Nat) :
    last_flush (l ++ [encode_grid w h g]) = some (encode_grid w h g) := by
  unfold last_flush
  rw [List.filter_append]
  have : [encode_grid w h g].filter is_flush_write = [encode_grid w h g] := by
    simp [is_flush_write, encode_grid]
  rw [this, List.getLast?_concat]

theorem snapshot_quiet {d d' : Driver} (s : Snapshot d) (q : Quiet d d') : Snapshot d' := by
  obtain ⟨_, ⟨ws, hws, e⟩, l, w, g, _⟩ := q
  unfold Snapshot
  rw [e, last_flush_append_glyph _ _ hws, l, w, g]
  exact s

theorem snapshot_flush {d : Driver} (s : Snapshot d) (hwf : WF d) :
    Snapshot (flush_done d) := by
  unfold flush_done
  cases hc : memcmp_eq d.private_data.framebuf d.private_data.last_framebuf
      (d.private_data.width * d.private_data.height)
  · simp only [hc, Bool.false_eq_true, if_false]
    unfold Snapshot
    simp only [Driver.write, memcpy_of_length _ _ _ hwf.1 hwf.2, ← encode_grid_eq,
      last_flush_append_flush]
    refine ⟨fun h => by simp at h, fun t ht g hg => ?_⟩
    simp only [Option.some.injEq] at ht
    subst ht
    exact ⟨fun e => encode_grid_inj _ _ _ _ hg hwf.1 e, fun e => by rw [e]⟩
  · simpa [hc] using s

theorem init_snapshot (K : LcdConsts) (name device size : String) (alloc_ok : Bool) (fd : Int)
    (d : Driver) (h : lcterm_init K name device size alloc_ok fd = some d) : Snapshot d := by
  obtain ⟨_, _, _, hw, _, hl⟩ := init_spec K name device size alloc_ok fd d h
  have hn : last_flush d.written = none := by
    rw [hw]
    decide
  exact ⟨fun _ => hl, fun t ht => by rw [hn] at ht; simp at ht⟩

theorem reachable_snapshot (K : LcdConsts) (d : Driver) (h : Reachable K d) : Snapshot d := by
  induction h with
  | init name device size fd d h => exact init_snapshot _ _ _ _ _ _ _ h
  | step d d' op hr hs ih =>
    by_cases hop : op = Op.flush
    · subst hop
      rw [flush_some d d' hs]
      exact snapshot_flush ih (reachable_wf K d hr)
    · exact snapshot_quiet ih (step_quiet K d d' op hop hs)

/-- C4: snapshot invariant.  In every state reachable from `lcterm_init` by calls of chr,
string, clear, vbar, hbar, num, icon and flush that return (a flush returns when its
stream fits the buffer it reserves): if no flush has transmitted yet, the committed grid
is all spaces; otherwise the committed grid is exactly the grid (of the display's size)
whose encoding is the most recent flush transmission.  Moreover the committed grid equals
the current grid right after a flush, and a flush whose stream fits does return. -/
theorem snapshot_invariant (K : LcdConsts) (d : Driver) (hr : Reachable K d) :
    (last_flush d.written = none →
      d.private_data.last_framebuf
        = List.replicate (d.private_data.width * d.private_data.height) 0x20) ∧
    (∀ t, last_flush d.written = some t →
      ∀ g : List Nat, g.length = d.private_data.width * d.private_data.height →
        (encode_grid d.private_data.width d.private_data.height g = t ↔
          g = d.private_data.last_framebuf)) ∧
    (∀ d', lcterm_flush d = some d' →
      d'.private_data.last_framebuf = d'.private_data.framebuf) ∧
    ((flush_buf d.private_data).length ≤ flush_alloca d.private_data →
      ∃ d', lcterm_flush d = some d') := by
  obtain ⟨h1, h2⟩ := reachable_snapshot K d hr
  refine ⟨h1, h2, fun d' hd => ?_, fun hfit => ⟨_, flush_fits d hfit⟩⟩
  rw [flush_some d d' hd]
  exact flush_grids_eq d (reachable_wf K d hr)

theorem flushed_once_reachable : Reachable lcd_h flushed_once :=
  Reachable.step _ flushed_once Op.flush
    (Reachable.step fresh_16x2 _ (Op.chr 1 1 3) fresh_16x2_reachable rfl) (by decide)

theorem snapshot_invariant_witness :
    last_flush fresh_16x2.written = none ∧
    fresh_16x2.private_data.last_framebuf = List.replicate (16 * 2) 0x20 ∧
    last_flush flushed_once.written
      = some (0x1E :: 0x1B :: 3 :: (List.replicate 15 0x20 ++ [0x0A, 0x0D]
          ++ List.replicate 16 0x20 ++ [0x0A, 0x0D])) ∧
    (∀ t, last_flush flushed_once.written = some t →
      ∀ g : List Nat, g.length = 16 * 2 →
        (encode_grid 16 2 g = t ↔ g = flushed_once.private_data.last_framebuf)) ∧
    flushed_once.private_data.last_framebuf = 3 :: List.replicate 31 0x20 :=
  ⟨by decide, (snapshot_invariant lcd_h fresh_16x2 fresh_16x2_reachable).1 (by decide),
   by decide, (snapshot_invariant lcd_h flushed_once flushed_once_reachable).2.1, by decide⟩

/-! ## Cells of the current grid -/

theorem index_inj (w a b a' b' : Nat) (hb : b < w) (hb' : b' < w)
    (h : a * w + b = a' * w + b') : a = a' ∧ b = b' := by
  have h1 : (a * w + b) / w = a := by
    rw [Nat.add_comm, Nat.add_mul_div_right _ _ (by omega), Nat.div_eq_of_lt hb, Nat.zero_add]
  have h2 : (a' * w + b') / w = a' := by
    rw [Nat.add_comm, Nat.add_mul_div_right _ _ (by omega), Nat.div_eq_of_lt hb', Nat.zero_add]
  have ha : a = a' := by rw [← h1, ← h2, h]
  subst ha
  exact ⟨rfl, by omega⟩

theorem index_lt (w h r c : Nat) (hr : r < h) (hc : c < w) : r * w + c < w * h := by
  have : (r + 1) * w ≤ h * w := Nat.mul_le_mul_right w hr
  rw [Nat.add_mul, Nat.one_mul] at this
  rw [Nat.mul_comm w h]
  omega

/-- The cell `(r, c)` (0-based) after `lcterm_chr`. -/
theorem chr_cell (d : Driver) (hfb : d.private_data.framebuf.length
      = d.private_data.width * d.private_data.height) (x y : Int) (v r c : Nat)
    (hr : r < d.private_data.height) (hc : c < d.private_data.width) :
    cell (lcterm_chr d x y v).private_data r c
      = if x = c + 1 ∧ y = r + 1 then v % 256 else cell d.private_data r c := by
  have hidx := index_lt _ _ r c hr hc
  unfold lcterm_chr
  dsimp only
  by_cases hin : x - 1 ≥ 0 ∧ x - 1 < d.private_data.width ∧ y - 1 ≥ 0 ∧
      y - 1 < d.private_data.height
  · rw [if_pos hin]
    obtain ⟨xn, hxn⟩ := Int.eq_ofNat_of_zero_le hin.1
    obtain ⟨yn, hyn⟩ := Int.eq_ofNat_of_zero_le hin.2.2.1
    have hi : ((y - 1) * (d.private_data.width : Int) + (x - 1)).toNat
        = yn * d.private_data.width + xn := by
      rw [hxn, hyn]
      have : ((yn : Int) * (d.private_data.width : Int) + (xn : Int))
          = ((yn * d.private_data.width + xn : Nat) : Int) := by push_cast; rfl
      rw [this, Int.toNat_ofNat]
    have hxw : xn < d.private_data.width := by omega
    unfold cell
    simp only [hi, List.getD_eq_getElem?_getD, List.getElem?_set]
    by_cases hpos : x = c + 1 ∧ y = r + 1
    · have hxc : xn = c := by omega
      have hyr : yn = r := by omega
      subst hxc hyr
      rw [if_pos hpos, if_pos rfl, if_pos (by omega)]
      rfl
    · rw [if_neg hpos]
      have hne : ¬ (yn * d.private_data.width + xn = r * d.private_data.width + c) := by
        intro e
        obtain ⟨e1, e2⟩ := index_inj _ _ _ _ _ hxw hc e
        exact hpos ⟨by omega, by omega⟩
      rw [if_neg hne]
  · rw [if_neg hin]
    have hpos : ¬ (x = c + 1 ∧ y = r + 1) := by
      intro ⟨e1, e2⟩
      exact hin ⟨by omega, by omega, by omega, by omega⟩
    rw [if_neg hpos]


theorem string_loop_cells (w h yn : Nat) (hy : yn < h) (s : List Nat)
    (hs : ∀ ch ∈ s, 0 < ch ∧ ch < 256) :
    ∀ (xn : Nat) (fb : List Nat), fb.length = w * h →
      ∃ fb', string_loop w (yn : Int) s (xn : Int) fb = some fb' ∧
        ∀ r c, r < h → c < w →
          fb'.getD (r * w + c) 0
            = if r = yn ∧ xn ≤ c ∧ c < xn + s.length then s.getD (c - xn) 0
              else fb.getD (r * w + c) 0 := by
  induction s with
  | nil =>
    intro xn fb _
    refine ⟨fb, rfl, fun r c _ _ => ?_⟩
    rw [if_neg (by simp)]
  | cons ch rest ih =>
    intro xn fb hfb
    have hch := hs ch (List.mem_cons_self _ _)
    have hmod : ch % 256 = ch := Nat.mod_eq_of_lt hch.2
    unfold string_loop
    by_cases hxw : xn < w
    · have hcond : ch % 256 ≠ 0 ∧ (xn : Int) < (w : Int) := ⟨by omega, by omega⟩
      rw [if_pos hcond]
      dsimp only
      have hidx := index_lt w h yn xn hy hxw
      have hcast : ((yn : Int) * (w : Int) + (xn : Int)) = ((yn * w + xn : Nat) : Int) := by
        push_cast; rfl
      have hin : 0 ≤ (yn : Int) * (w : Int) + (xn : Int) ∧
          (yn : Int) * (w : Int) + (xn : Int) < (fb.length : Int) := by
        rw [hcast, hfb]
        exact ⟨Int.ofNat_nonneg _, by exact_mod_cast hidx⟩
      rw [if_pos hin, hcast, Int.toNat_ofNat, hmod]
      have hx1 : ((xn : Int) + 1) = ((xn + 1 : Nat) : Int) := by push_cast; rfl
      rw [hx1]
      obtain ⟨fb', hfb', hcells⟩ := ih (fun c hc => hs c (List.mem_cons_of_mem _ hc)) (xn + 1)
        (fb.set (yn * w + xn) ch) (by simpa using hfb)
      refine ⟨fb', hfb', fun r c hr hc => ?_⟩
      rw [hcells r c hr hc]
      by_cases h1 : r = yn ∧ xn + 1 ≤ c ∧ c < xn + 1 + rest.length
      · rw [if_pos h1, if_pos ⟨h1.1, by omega, by simp; omega⟩]
        have : c - xn = (c - (xn + 1)) + 1 := by omega
        rw [this, List.getD_cons_succ]
      · rw [if_neg h1]
        by_cases h2 : r = yn ∧ c = xn
        · obtain ⟨rfl, rfl⟩ := h2
          rw [if_pos ⟨rfl, le_refl _, by simp⟩]
          simp [List.getD_eq_getElem?_getD, List.getElem?_set, hfb, hidx]
        · have hne : ¬ (yn * w + xn = r * w + c) := by
            intro e
            obtain ⟨e1, e2⟩ := index_inj _ _ _ _ _ hxw hc e
            exact h2 ⟨e1.symm, e2.symm⟩
          rw [if_neg (by simp only [List.length_cons]; omega)]
          simp [List.getD_eq_getElem?_getD, List.getElem?_set, hne]
    · have hcond : ¬ (ch % 256 ≠ 0 ∧ (xn : Int) < (w : Int)) := by omega
      rw [if_neg hcond]
      refine ⟨fb, rfl, fun r c _ hc => ?_⟩
      rw [if_neg (by omega)]

/-! ## C11 -/

theorem string_loop_past_edge (w : Nat) (y : Int) (s : List Nat) (x : Int) (fb : List Nat)
    (hx : ¬ x < w) : string_loop w y s x fb = some fb := by
  cases s with
  | nil => rfl
  | cons c rest =>
    unfold string_loop
    rw [if_neg (fun h => hx h.2)]

/-- C11: for a string `s` of `n` characters (non-zero bytes) and a start `(x, y)` with
`1 ≤ x` and `1 ≤ y ≤ height`, `lcterm_string` returns, changes nothing but the current
grid, and in the current grid exactly the cells of row `y` in the columns
`x, x+1, ..., x + min(n, width - x + 1) - 1` change: they get the characters of `s` in
order.  Nothing is written past the right edge or into another row, and for `x > width`
nothing is written at all. -/
theorem string_effect (d : Driver) (hwf : WF d) (x y : Int) (s : List Nat)
    (hs : ∀ ch ∈ s, 0 < ch ∧ ch < 256) (hx : 1 ≤ x)
    (hy : 1 ≤ y ∧ y ≤ d.private_data.height) :
    ∃ d', lcterm_string d x y s = some d' ∧ GridOnly d d' ∧
      (∀ r c, r < d.private_data.height → c < d.private_data.width →
        cell d'.private_data r c
          = if (r : Int) = y - 1 ∧ x - 1 ≤ (c : Int) ∧
                (c : Int) < x - 1 + min (s.length : Int) (d.private_data.width - x + 1)
            then s.getD ((c : Int) - (x - 1)).toNat 0
            else cell d.private_data r c) ∧
      ((d.private_data.width : Int) < x → d' = d) := by
  obtain ⟨xn, hxn⟩ := Int.eq_ofNat_of_zero_le (show 0 ≤ x - 1 by omega)
  obtain ⟨yn, hyn⟩ := Int.eq_ofNat_of_zero_le (show 0 ≤ y - 1 by omega)
  obtain ⟨fb', hfb', hcells⟩ := string_loop_cells d.private_data.width d.private_data.height
    yn (by omega) s hs xn d.private_data.framebuf hwf.1
  have hd : lcterm_string d x y s
      = some { d with private_data := { d.private_data with framebuf := fb' } } := by
    simp only [lcterm_string, hxn, hyn, hfb', Option.map_some']
  refine ⟨_, hd, string_gridOnly _ _ _ _ _ hd, fun r c hr hc => ?_, fun hgt => ?_⟩
  · have h1 := hcells r c hr hc
    unfold cell
    dsimp only
    rw [h1]
    by_cases hcond : r = yn ∧ xn ≤ c ∧ c < xn + s.length
    · rw [if_pos hcond, if_pos (by omega)]
      congr 1
      omega
    · rw [if_neg hcond, if_neg (by omega)]
  · have hpast := string_loop_past_edge d.private_data.width (yn : Int) s (xn : Int)
      d.private_data.framebuf (by omega)
    rw [hpast] at hfb'
    simp only [Option.some.injEq] at hfb'
    rw [← hfb']

theorem string_effect_witness :
    ∃ d', lcterm_string blank_16x2 15 2 [72, 105, 33] = some d' ∧ GridOnly blank_16x2 d' ∧
      (∀ r c, r < 2 → c < 16 →
        cell d'.private_data r c
          = if (r : Int) = 2 - 1 ∧ (15 : Int) - 1 ≤ (c : Int) ∧
                (c : Int) < 15 - 1 + min (([72, 105, 33] : List Nat).length : Int)
                  ((16 : Nat) - 15 + 1)
            then ([72, 105, 33] : List Nat).getD ((c : Int) - (15 - 1)).toNat 0
            else cell blank_16x2.private_data r c) ∧
      (((16 : Nat) : Int) < 15 → d' = blank_16x2) :=
  string_effect blank_16x2 (by decide) 15 2 [72, 105, 33] (by decide) (by decide)
    (by decide)

/-! ## C12 -/

/-- C12, the code at failing inputs: on a blank 16x2 display `lcterm_string(1, 3, "A")`
stores at index 32, outside the 32-byte frame buffer (the model returns `none`), and
`lcterm_string(0, 2, "A")` stores at index 15, changing cell (16, 1) of the grid. -/
theorem string_out_of_range :
    lcterm_string blank_16x2 1 3 [65] = none ∧
    lcterm_string blank_16x2 1 0 [65] = none ∧
    (lcterm_string blank_16x2 0 2 [65]).map (fun d => d.private_data.framebuf)
      = some ((List.replicate 32 0x20).set 15 65) := by
  decide

/-! ## C13 -/

theorem set_char_row_eq (dat : List Nat) (row : Nat) :
    set_char_row dat row = row_byte dat row := by
  have hr : List.range 5 = [0, 1, 2, 3, 4] := by decide
  simp only [set_char_row, row_byte, hr, List.foldl_cons, List.foldl_nil, List.map_cons,
    List.map_nil, List.sum_cons, List.sum_nil]
  split_ifs <;> decide

/-- C13: glyph-programming frame.  For a slot `n` in 0..7 and a 40-entry pixel array `dat`,
`lcterm_set_char` issues exactly one write of 11 bytes: `0x1F`, `8 * n`, the eight row
bytes `0x80 | sum of (dat[5*row+c] != 0) * 2^(4-c)`, and `0x1E`.  For `n` outside 0..7 or a
null `dat` it returns the context unchanged.  In every case the grids, the mode fields and
the dimensions are unchanged. -/
theorem set_char_frame (d : Driver) (n : Int) :
    (∀ dat : List Nat, dat.length = 40 → 0 ≤ n → n ≤ 7 →
      lcterm_set_char d n (some dat)
        = d.write ([0x1F, 8 * n.toNat] ++ (List.range 8).map (row_byte dat) ++ [0x1E]) ∧
      ([0x1F, 8 * n.toNat] ++ (List.range 8).map (row_byte dat) ++ [0x1E]).length = 11) ∧
    (∀ dat : List Nat, n < 0 ∨ 7 < n → lcterm_set_char d n (some dat) = d) ∧
    lcterm_set_char d n none = d ∧
    (∀ dat : Option (List Nat), (lcterm_set_char d n dat).private_data = d.private_data) := by
  refine ⟨fun dat _ h0 h7 => ⟨?_, by simp⟩, fun dat h => ?_, rfl,
    fun dat => set_char_private_data d n dat⟩
  · rw [set_char_lit d n h0 h7 dat, glyph_frame]
    congr 2
    congr 1
    exact List.map_congr_left (fun r _ => set_char_row_eq dat r)
  · have h' : n < 0 ∨ n > 7 := h
    simp only [lcterm_set_char, if_pos h']

theorem set_char_frame_witness :
    lcterm_set_char blank_16x2 1 (some vbar_1)
      = blank_16x2.write [0x1F, 8, 0x80, 0x80, 0x80, 0x80, 0x80, 0x80, 0x80, 0x9F, 0x1E] ∧
    lcterm_set_char blank_16x2 8 (some vbar_1) = blank_16x2 :=
  ⟨((set_char_frame blank_16x2 1).1 vbar_1 (by decide) (by decide) (by decide)).1.trans
     (by decide),
   (set_char_frame blank_16x2 8).2.1 vbar_1 (by decide)⟩

/-! ## Sequences of character writes -/

theorem gridOnly_dims {d d' : Driver} (g : GridOnly d d') :
    d'.private_data.width = d.private_data.width ∧
    d'.private_data.height = d.private_data.height ∧
    d'.private_data.framebuf.length = d.private_data.framebuf.length := by
  obtain ⟨fb, hl, rfl⟩ := g
  exact ⟨rfl, rfl, hl⟩

/-- The cell `(r, c)` after the writes `lcterm_chr (px pos) (py pos) (g pos)` for
`pos = 0, ..., n-1`, when `k` is the only position that can address the cell. -/
theorem foldl_chr_cell (d : Driver) (hfb : d.private_data.framebuf.length
      = d.private_data.width * d.private_data.height) (px py : Nat → Int) (g : Nat → Nat)
    (r c : Nat) (hr : r < d.private_data.height) (hc : c < d.private_data.width) (k : Nat)
    (hk : ∀ pos, px pos = c + 1 ∧ py pos = r + 1 → pos = k) (n : Nat) :
    cell ((List.range n).foldl (fun d pos => lcterm_chr d (px pos) (py pos) (g pos))
        d).private_data r c
      = if k < n ∧ px k = c + 1 ∧ py k = r + 1 then g k % 256 else cell d.private_data r c := by
  induction n with
  | zero => simp
  | succ n ih =>
    have gacc := gridOnly_foldl (fun d pos => lcterm_chr d (px pos) (py pos) (g pos))
      (fun d pos => chr_gridOnly d _ _ _) (List.range n) d
    obtain ⟨hw', hh', hl'⟩ := gridOnly_dims gacc
    rw [List.range_succ, List.foldl_append, List.foldl_cons, List.foldl_nil,
      chr_cell _ (by rw [hl', hw', hh', hfb]) _ _ _ r c (by rw [hh']; exact hr)
        (by rw [hw']; exact hc), ih]
    by_cases hn : px n = c + 1 ∧ py n = r + 1
    · have hkn := hk n hn
      subst hkn
      rw [if_pos hn, if_pos ⟨Nat.lt_succ_self _, hn⟩]
    · rw [if_neg hn]
      by_cases hk' : k < n ∧ px k = c + 1 ∧ py k = r + 1
      · rw [if_pos hk', if_pos ⟨Nat.lt_succ_of_lt hk'.1, hk'.2⟩]
      · rw [if_neg hk', if_neg]
        intro ⟨h1, h2⟩
        rcases Nat.lt_succ_iff_lt_or_eq.1 h1 with h3 | h3
        · exact hk' ⟨h3, h2⟩
        · subst h3; exact hn h2

theorem init_vbar_grid (d : Driver) :
    (lcterm_init_vbar d).private_data.framebuf = d.private_data.framebuf ∧
    (lcterm_init_vbar d).private_data.width = d.private_data.width ∧
    (lcterm_init_vbar d).private_data.height = d.private_data.height := by
  rcases init_vbar_cases d with ⟨_, e⟩ | ⟨_, _, e⟩ | ⟨_, _, e⟩ <;> rw [e] <;> exact ⟨rfl, rfl, rfl⟩

theorem init_hbar_grid (d : Driver) :
    (lcterm_init_hbar d).private_data.framebuf = d.private_data.framebuf ∧
    (lcterm_init_hbar d).private_data.width = d.private_data.width ∧
    (lcterm_init_hbar d).private_data.height = d.private_data.height := by
  rcases init_hbar_cases d with ⟨_, e⟩ | ⟨_, _, e⟩ | ⟨_, _, e⟩ <;> rw [e] <;> exact ⟨rfl, rfl, rfl⟩

theorem init_num_grid (d : Driver) :
    (lcterm_init_num d).private_data.framebuf = d.private_data.framebuf ∧
    (lcterm_init_num d).private_data.width = d.private_data.width ∧
    (lcterm_init_num d).private_data.height = d.private_data.height := by
  rcases init_num_cases d with ⟨_, e⟩ | ⟨_, _, e⟩ | ⟨_, _, e⟩ <;> rw [e] <;> exact ⟨rfl, rfl, rfl⟩

/-! ## C14 -/

theorem num_column_cell (d : Driver) (hfb : d.private_data.framebuf.length
      = d.private_data.width * d.private_data.height) (x y : Int) (num x2 r c : Nat)
    (hr : r < d.private_data.height) (hc : c < d.private_data.width) :
    cell (num_column d x y num x2).private_data r c
      = if x + x2 = c + 1 ∧ y ≤ r + 1 ∧ (r : Int) + 1 ≤ y + 3
        then bignum_entry num ((r : Int) + 1 - y).toNat x2 % 256
        else cell d.private_data r c := by
  unfold num_column
  have key := foldl_chr_cell d hfb (fun _ => x + x2) (fun y2 => y + y2)
    (fun y2 => bignum_entry num y2 x2) r c hr hc ((r : Int) + 1 - y).toNat
    (fun pos h => by dsimp only at h; omega) 4
  rw [key]
  by_cases h : x + x2 = c + 1 ∧ y ≤ r + 1 ∧ (r : Int) + 1 ≤ y + 3
  · rw [if_pos h, if_pos (by omega)]
  · rw [if_neg h, if_neg (by omega)]

theorem bignum_entry_lt : ∀ num < 11, ∀ dy < 4, ∀ dx < 3, bignum_entry num dy dx < 256 := by
  decide

theorem bignum_entry_digit :
    ∀ num < 10, ∀ dy < 4, ∀ dx < 3, bignum_entry num dy dx ≤ 7 ∨ bignum_entry num dy dx = 32 := by
  decide

theorem num_loop_digit (x y : Int) (num : Nat) (hn : num ≠ 10) (d : Driver) :
    num_loop x y num 3 0 d
      = num_column (num_column (num_column d x y num 0) x y num 1) x y num 2 := by
  simp [num_loop, hn]

theorem num_column_wf (d : Driver) (x y : Int) (num x2 : Nat) :
    (num_column d x y num x2).private_data.width = d.private_data.width ∧
    (num_column d x y num x2).private_data.height = d.private_data.height ∧
    (num_column d x y num x2).private_data.framebuf.length
      = d.private_data.framebuf.length :=
  gridOnly_dims (num_column_gridOnly d x y num x2)

theorem num_digit_cell (d : Driver) (hfb : d.private_data.framebuf.length
      = d.private_data.width * d.private_data.height) (x y : Int) (num : Nat) (hn : num < 10)
    (r c : Nat) (hr : r < d.private_data.height) (hc : c < d.private_data.width) :
    cell (num_loop x y num 3 0 d).private_data r c
      = if x ≤ c + 1 ∧ (c : Int) + 1 ≤ x + 2 ∧ y ≤ r + 1 ∧ (r : Int) + 1 ≤ y + 3
        then bignum_entry num ((r : Int) + 1 - y).toNat ((c : Int) + 1 - x).toNat
        else cell d.private_data r c := by
  rw [num_loop_digit x y num (by omega) d]
  obtain ⟨w0, h0, l0⟩ := num_column_wf d x y num 0
  obtain ⟨w1, h1, l1⟩ := num_column_wf (num_column d x y num 0) x y num 1
  rw [num_column_cell _ (by rw [l1, l0, w1, w0, h1, h0, hfb]) x y num 2 r c
      (by rw [h1, h0]; exact hr) (by rw [w1, w0]; exact hc),
    num_column_cell _ (by rw [l0, w0, h0, hfb]) x y num 1 r c
      (by rw [h0]; exact hr) (by rw [w0]; exact hc),
    num_column_cell d hfb x y num 0 r c hr hc]
  by_cases hrow : y ≤ r + 1 ∧ (r : Int) + 1 ≤ y + 3
  · have hdy : ((r : Int) + 1 - y).toNat < 4 := by omega
    by_cases h2 : x + (2 : Nat) = c + 1
    · rw [if_pos ⟨h2, hrow⟩, if_pos (by omega)]
      have : ((c : Int) + 1 - x).toNat = 2 := by omega
      rw [this, Nat.mod_eq_of_lt (bignum_entry_lt num (by omega) _ hdy 2 (by decide))]
    · rw [if_neg (fun h => h2 h.1)]
      by_cases h1' : x + (1 : Nat) = c + 1
      · rw [if_pos ⟨h1', hrow⟩, if_pos (by omega)]
        have : ((c : Int) + 1 - x).toNat = 1 := by omega
        rw [this, Nat.mod_eq_of_lt (bignum_entry_lt num (by omega) _ hdy 1 (by decide))]
      · rw [if_neg (fun h => h1' h.1)]
        by_cases h0' : x + (0 : Nat) = c + 1
        · rw [if_pos ⟨h0', hrow⟩, if_pos (by omega)]
          have : ((c : Int) + 1 - x).toNat = 0 := by omega
          rw [this, Nat.mod_eq_of_lt (bignum_entry_lt num (by omega) _ hdy 0 (by decide))]
        · rw [if_neg (fun h => h0' h.1), if_neg (by omega)]
  · rw [if_neg (fun h => hrow h.2), if_neg (fun h => hrow h.2), if_neg (fun h => hrow h.2),
      if_neg (fun h => hrow ⟨h.2.2.1, h.2.2.2⟩)]

/-- C14: big digits.  On a display of at least 4 rows, for a digit `num` in 0..9 and any
column `x`, `lcterm_num` gives every cell `(x+dx, y0+dy)` of the grid with `dx` in 0..2,
`dy` in 0..3 and `y0 = (height-2)/2` the value `bignum_map[num][dy][dx]`, and leaves every
other cell as it was; every table value written is a glyph slot 0..7 or the blank 32; and
the rows `y0 .. y0+3` lie within `1 .. height`. -/
theorem num_big_digit (d : Driver) (hwf : WF d) (hh : 4 ≤ d.private_data.height)
    (x num : Int) (h0 : 0 ≤ num) (h9 : num ≤ 9) :
    (∀ r c, r < d.private_data.height → c < d.private_data.width →
      cell (lcterm_num d x num).private_data r c
        = if x ≤ c + 1 ∧ (c : Int) + 1 ≤ x + 2 ∧
              Int.tdiv ((d.private_data.height : Int) - 2) 2 ≤ r + 1 ∧
              (r : Int) + 1 ≤ Int.tdiv ((d.private_data.height : Int) - 2) 2 + 3
          then bignum_entry num.toNat
            ((r : Int) + 1 - Int.tdiv ((d.private_data.height : Int) - 2) 2).toNat
            ((c : Int) + 1 - x).toNat
          else cell d.private_data r c) ∧
    (∀ dy dx, dy ≤ 3 → dx ≤ 2 →
      bignum_entry num.toNat dy dx ≤ 7 ∨ bignum_entry num.toNat dy dx = 32) ∧
    1 ≤ Int.tdiv ((d.private_data.height : Int) - 2) 2 ∧
    Int.tdiv ((d.private_data.height : Int) - 2) 2 + 3 ≤ d.private_data.height := by
  have hdiv : Int.tdiv ((d.private_data.height : Int) - 2) 2
      = ((d.private_data.height : Int) - 2) / 2 :=
    Int.tdiv_eq_ediv (by omega) (by decide)
  refine ⟨fun r c hr hc => ?_, fun dy dx hdy hdx => ?_, by omega, by omega⟩
  · obtain ⟨gf, gw, gh⟩ := init_num_grid d
    have hnum : ¬ (num < 0 ∨ num > 10) := by omega
    have hge : d.private_data.height ≥ 4 := hh
    simp only [lcterm_num, if_neg hnum, if_pos hge]
    rw [num_digit_cell (lcterm_init_num d) (by rw [gf, gw, gh]; exact hwf.1) x _ num.toNat
      (by omega) r c (by rw [gh]; exact hr) (by rw [gw]; exact hc)]
    have hcell : cell (lcterm_init_num d).private_data r c = cell d.private_data r c := by
      unfold cell
      rw [gf, gw]
    rw [hcell]
  · exact bignum_entry_digit num.toNat (by omega) dy (by omega) dx (by omega)

theorem num_big_digit_witness :
    (∀ r c, r < 4 → c < 16 →
      cell (lcterm_num blank_16x4 2 7).private_data r c
        = if (2 : Int) ≤ c + 1 ∧ (c : Int) + 1 ≤ 2 + 2 ∧
              Int.tdiv (((4 : Nat) : Int) - 2) 2 ≤ r + 1 ∧
              (r : Int) + 1 ≤ Int.tdiv (((4 : Nat) : Int) - 2) 2 + 3
          then bignum_entry (7 : Int).toNat
            ((r : Int) + 1 - Int.tdiv (((4 : Nat) : Int) - 2) 2).toNat
            ((c : Int) + 1 - 2).toNat
          else cell blank_16x4.private_data r c) ∧
    cell (lcterm_num blank_16x4 2 7).private_data 0 1 = 2 ∧
    cell (lcterm_num blank_16x4 2 7).private_data 3 2 = 0 ∧
    cell (lcterm_num blank_16x4 2 7).private_data 0 0 = 32 :=
  ⟨(num_big_digit blank_16x4 (by decide) (by decide) 2 7 (by decide) (by decide)).1,
   by decide, by decide, by decide⟩

/-! ## C15 -/

/-- C15: big-number fallback.  On a display of fewer than 4 rows, for `num` in 0..10,
`lcterm_num` is the single character write of the ASCII digit `'0' + num` (or `':'` for 10)
at column `x` and row `1 + (height-1)/2`: no glyph mode is requested, nothing is written to
the device or reported, and, for a column `x` of the display, exactly that one cell of the
grid gets the character while every other cell keeps its value.  The row lies on the
display. -/
theorem num_fallback (d : Driver) (hh : d.private_data.height < 4) (x num : Int)
    (h0 : 0 ≤ num) (h10 : num ≤ 10) :
    lcterm_num d x num
      = lcterm_chr d x (1 + Int.tdiv ((d.private_data.height : Int) - 1) 2)
          (if num = 10 then 58 else 48 + num.toNat) ∧
    GridOnly d (lcterm_num d x num) ∧
    (WF d → 1 ≤ d.private_data.height →
      (1 ≤ 1 + Int.tdiv ((d.private_data.height : Int) - 1) 2 ∧
        1 + Int.tdiv ((d.private_data.height : Int) - 1) 2 ≤ d.private_data.height) ∧
      ∀ r c, r < d.private_data.height → c < d.private_data.width →
        cell (lcterm_num d x num).private_data r c
          = if x = c + 1 ∧ 1 + Int.tdiv ((d.private_data.height : Int) - 1) 2 = r + 1
            then (if num = 10 then 58 else 48 + num.toNat)
            else cell d.private_data r c) := by
  have hnum : ¬ (num < 0 ∨ num > 10) := by omega
  have hlt : ¬ d.private_data.height ≥ 4 := by omega
  have hch : (if num = 10 then 58 else (num + 48).toNat)
      = (if num = 10 then 58 else 48 + num.toNat) := by
    split
    · rfl
    · omega
  have e : lcterm_num d x num
      = lcterm_chr d x (1 + Int.tdiv ((d.private_data.height : Int) - 1) 2)
          (if num = 10 then 58 else 48 + num.toNat) := by
    simp only [lcterm_num, if_neg hnum, if_neg hlt, hch]
  refine ⟨e, by rw [e]; exact chr_gridOnly _ _ _ _, fun hwf h1 => ⟨?_, fun r c hr hc => ?_⟩⟩
  · rw [Int.tdiv_eq_ediv (by omega) (by decide)]
    omega
  · rw [e, chr_cell d hwf.1 _ _ _ r c hr hc]
    have hmod : (if num = 10 then 58 else 48 + num.toNat) % 256
        = (if num = 10 then 58 else 48 + num.toNat) := by
      apply Nat.mod_eq_of_lt
      split <;> omega
    rw [hmod]

theorem num_fallback_witness :
    lcterm_num blank_16x2 3 7 = lcterm_chr blank_16x2 3 1 55 ∧
    (lcterm_num blank_16x2 3 7).private_data.framebuf = (List.replicate 32 0x20).set 2 55 ∧
    GridOnly blank_16x2 (lcterm_num blank_16x2 3 7) :=
  ⟨(num_fallback blank_16x2 (by decide) 3 7 (by decide) (by decide)).1.trans (by decide),
   by decide,
   (num_fallback blank_16x2 (by decide) 3 7 (by decide) (by decide)).2.1⟩

/-! ## C16 -/

/-- C16: icon dispatch.  `lcterm_icon` returns 0 exactly for `ICON_BLOCK_FILLED`,
`ICON_HEART_FILLED` and `ICON_HEART_OPEN`; for any other identifier it returns a negative
value and the context unchanged.  For `ICON_BLOCK_FILLED` it is the character write of
code 255 at `(x, y)`, which changes nothing but the current grid. -/
theorem icon_dispatch (K : LcdConsts) (d : Driver) (x y icon : Int) :
    ((lcterm_icon K d x y icon).1 = 0 ↔
      (icon = K.ICON_BLOCK_FILLED ∨ icon = K.ICON_HEART_FILLED ∨ icon = K.ICON_HEART_OPEN)) ∧
    (¬ (icon = K.ICON_BLOCK_FILLED ∨ icon = K.ICON_HEART_FILLED ∨ icon = K.ICON_HEART_OPEN) →
      (lcterm_icon K d x y icon).1 < 0 ∧ (lcterm_icon K d x y icon).2 = d) ∧
    lcterm_icon K d x y K.ICON_BLOCK_FILLED = (0, lcterm_chr d x y 255) ∧
    GridOnly d (lcterm_icon K d x y K.ICON_BLOCK_FILLED).2 := by
  refine ⟨?_, ?_, icon_block_filled K d x y, ?_⟩
  · unfold lcterm_icon
    split_ifs with h1 h2 h3
    · simp [h1]
    · simp [h2]
    · simp [h3]
    · simp [h1, h2, h3]
  · intro h
    have h1 : ¬ icon = K.ICON_BLOCK_FILLED := fun e => h (Or.inl e)
    have h2 : ¬ icon = K.ICON_HEART_FILLED := fun e => h (Or.inr (Or.inl e))
    have h3 : ¬ icon = K.ICON_HEART_OPEN := fun e => h (Or.inr (Or.inr e))
    simp [lcterm_icon, h1, h2, h3]
  · rw [icon_block_filled]
    exact chr_gridOnly _ _ _ _

theorem icon_dispatch_witness :
    (lcterm_icon lcd_h blank_16x2 1 1 0x130).1 < 0 ∧
    (lcterm_icon lcd_h blank_16x2 1 1 0x130).2 = blank_16x2 :=
  (icon_dispatch lcd_h blank_16x2 1 1 0x130).2.1 (by decide)

/-! ## C17 -/

/-- C17, counterexample: after `lcterm_icon` for `ICON_HEART_FILLED` on a freshly
initialised context both mode fields are still `standard`, not the icon mode. -/
theorem icon_heart_counterexample :
    (lcterm_icon lcd_h fresh_16x2 1 1 lcd_h.ICON_HEART_FILLED).1 = 0 ∧
    ¬ ((lcterm_icon lcd_h fresh_16x2 1 1 lcd_h.ICON_HEART_FILLED).2.private_data.ccmode
          = CGmode.icons ∧
       (lcterm_icon lcd_h fresh_16x2 1 1 lcd_h.ICON_HEART_FILLED).2.private_data.last_ccmode
          = CGmode.icons) := by
  decide

/-- C17, amended: for `ICON_HEART_FILLED` and `ICON_HEART_OPEN` (identifiers different
from each other and from `ICON_BLOCK_FILLED`), `lcterm_icon` first writes the
glyph-programming frame of the heart bitmap for slot 0 to the device and then stores glyph
code 0 at `(x, y)`; it returns 0 and leaves both mode fields as they were. -/
theorem icon_heart (K : LcdConsts) (d : Driver) (x y : Int)
    (hfb : K.ICON_HEART_FILLED ≠ K.ICON_BLOCK_FILLED)
    (hob : K.ICON_HEART_OPEN ≠ K.ICON_BLOCK_FILLED)
    (hof : K.ICON_HEART_OPEN ≠ K.ICON_HEART_FILLED) :
    lcterm_icon K d x y K.ICON_HEART_FILLED
      = (0, lcterm_chr (d.write (glyph_frame 0 heart_filled)) x y 0) ∧
    lcterm_icon K d x y K.ICON_HEART_OPEN
      = (0, lcterm_chr (d.write (glyph_frame 0 heart_open)) x y 0) ∧
    (lcterm_icon K d x y K.ICON_HEART_FILLED).2.private_data.ccmode = d.private_data.ccmode ∧
    (lcterm_icon K d x y K.ICON_HEART_FILLED).2.private_data.last_ccmode
      = d.private_data.last_ccmode ∧
    (lcterm_icon K d x y K.ICON_HEART_OPEN).2.private_data.ccmode = d.private_data.ccmode ∧
    (lcterm_icon K d x y K.ICON_HEART_OPEN).2.private_data.last_ccmode
      = d.private_data.last_ccmode := by
  have e1 : lcterm_icon K d x y K.ICON_HEART_FILLED
      = (0, lcterm_chr (d.write (glyph_frame 0 heart_filled)) x y 0) := by
    have hs := set_char_lit d 0 (by decide) (by decide) heart_filled
    rw [Int.toNat_zero] at hs
    simp [lcterm_icon, hfb, hs]
  have e2 : lcterm_icon K d x y K.ICON_HEART_OPEN
      = (0, lcterm_chr (d.write (glyph_frame 0 heart_open)) x y 0) := by
    have hs := set_char_lit d 0 (by decide) (by decide) heart_open
    rw [Int.toNat_zero] at hs
    simp [lcterm_icon, hob, hof, hs]
  exact ⟨e1, e2, (icon_modes K d x y _).1, (icon_modes K d x y _).2.1,
    (icon_modes K d x y _).1, (icon_modes K d x y _).2.1⟩

theorem icon_heart_witness :
    (lcterm_icon lcd_h fresh_16x2 1 1 lcd_h.ICON_HEART_FILLED).2.written
      = fresh_16x2.written
        ++ [[0x1F, 0, 0x9F, 0x95, 0x8A, 0x8E, 0x8E, 0x95, 0x9B, 0x9F, 0x1E]] ∧
    (lcterm_icon lcd_h fresh_16x2 1 1 lcd_h.ICON_HEART_FILLED).2.private_data.framebuf
      = (List.replicate 32 0x20).set 0 0 ∧
    (lcterm_icon lcd_h fresh_16x2 1 1 lcd_h.ICON_HEART_FILLED).2.private_data.ccmode
      = CGmode.standard :=
  ⟨(congrArg (fun r => r.2.written)
      (icon_heart lcd_h fresh_16x2 1 1 (by decide) (by decide) (by decide)).1).trans
      (by decide),
   by decide,
   (icon_heart lcd_h fresh_16x2 1 1 (by decide) (by decide) (by decide)).2.2.1⟩

/-! ## C18 -/

theorem chr_sameGrid (d1 d2 : Driver) (h : SameGrid d1 d2) (x y : Int) (c : Nat) :
    SameGrid (lcterm_chr d1 x y c) (lcterm_chr d2 x y c) := by
  obtain ⟨hf, hw, hh⟩ := h
  unfold lcterm_chr
  dsimp only
  rw [hf, hw, hh]
  split
  · exact ⟨rfl, rfl, rfl⟩
  · exact ⟨hf, hw, hh⟩

theorem foldl_sameGrid {α : Type} (f : Driver → α → Driver)
    (hf : ∀ d1 d2 a, SameGrid d1 d2 → SameGrid (f d1 a) (f d2 a)) (l : List α) :
    ∀ d1 d2, SameGrid d1 d2 → SameGrid (l.foldl f d1) (l.foldl f d2) := by
  induction l with
  | nil => intro d1 d2 h; exact h
  | cons a l ih => intro d1 d2 h; exact ih _ _ (hf d1 d2 a h)

theorem bar_cell_eq (K : LcdConsts) (d : Driver) (x y filled cellPixels cc_offset : Int)
    (pos : Nat) :
    bar_cell K d x y filled cellPixels cc_offset pos
      = lcterm_chr d x y (bar_glyph filled cellPixels cc_offset pos) := by
  unfold bar_cell bar_glyph
  split
  · rw [icon_block_filled]
  · split <;> rfl

theorem bar_cell_sameGrid (K : LcdConsts) (d1 d2 : Driver) (h : SameGrid d1 d2)
    (x y filled cellPixels cc_offset : Int) (pos : Nat) :
    SameGrid (bar_cell K d1 x y filled cellPixels cc_offset pos)
      (bar_cell K d2 x y filled cellPixels cc_offset pos) := by
  rw [bar_cell_eq, bar_cell_eq]
  exact chr_sameGrid d1 d2 h _ _ _

theorem lib_vbar_static_sameGrid (K : LcdConsts) (d1 d2 : Driver) (h : SameGrid d1 d2)
    (x y len promille options cellheight cc_offset : Int) :
    SameGrid (lib_vbar_static K d1 x y len promille options cellheight cc_offset)
      (lib_vbar_static K d2 x y len promille options cellheight cc_offset) := by
  unfold lib_vbar_static
  exact foldl_sameGrid
    (fun d (pos : Nat) => bar_cell K d x (y - pos) (filledUnits len promille cellheight)
      cellheight cc_offset pos)
    (fun a b pos hab => bar_cell_sameGrid K a b hab _ _ _ _ _ pos) _ d1 d2 h

theorem lib_hbar_static_sameGrid (K : LcdConsts) (d1 d2 : Driver) (h : SameGrid d1 d2)
    (x y len promille options cellwidth cc_offset : Int) :
    SameGrid (lib_hbar_static K d1 x y len promille options cellwidth cc_offset)
      (lib_hbar_static K d2 x y len promille options cellwidth cc_offset) := by
  unfold lib_hbar_static
  exact foldl_sameGrid
    (fun d (pos : Nat) => bar_cell K d (x + pos) y (filledUnits len promille cellwidth)
      cellwidth cc_offset pos)
    (fun a b pos hab => bar_cell_sameGrid K a b hab _ _ _ _ _ pos) _ d1 d2 h

theorem num_column_sameGrid (d1 d2 : Driver) (h : SameGrid d1 d2) (x y : Int) (num x2 : Nat) :
    SameGrid (num_column d1 x y num x2) (num_column d2 x y num x2) := by
  unfold num_column
  exact foldl_sameGrid
    (fun d (y2 : Nat) => lcterm_chr d (x + x2) (y + y2) (bignum_entry num y2 x2))
    (fun a b y2 hab => chr_sameGrid a b hab _ _ _) _ d1 d2 h

theorem num_loop_sameGrid (x y : Int) (num fuel : Nat) :
    ∀ (x2 : Nat) (d1 d2 : Driver), SameGrid d1 d2 →
      SameGrid (num_loop x y num fuel x2 d1) (num_loop x y num fuel x2 d2) := by
  induction fuel with
  | zero => intro x2 d1 d2 h; exact h
  | succ fuel ih =>
    intro x2 d1 d2 h
    unfold num_loop
    split
    · exact ih _ _ _ (num_column_sameGrid d1 d2 h x y num x2)
    · exact h

theorem sameGrid_of_requests (d1 d2 : Driver) (h : SameGrid d1 d2) :
    SameGrid (lcterm_init_vbar d1) (lcterm_init_vbar d2) ∧
    SameGrid (lcterm_init_hbar d1) (lcterm_init_hbar d2) ∧
    SameGrid (lcterm_init_num d1) (lcterm_init_num d2) := by
  obtain ⟨hf, hw, hh⟩ := h
  obtain ⟨a1, a2, a3⟩ := init_vbar_grid d1
  obtain ⟨b1, b2, b3⟩ := init_vbar_grid d2
  obtain ⟨c1, c2, c3⟩ := init_hbar_grid d1
  obtain ⟨e1, e2, e3⟩ := init_hbar_grid d2
  obtain ⟨f1, f2, f3⟩ := init_num_grid d1
  obtain ⟨g1, g2, g3⟩ := init_num_grid d2
  exact ⟨⟨by rw [a1, b1, hf], by rw [a2, b2, hw], by rw [a3, b3, hh]⟩,
    ⟨by rw [c1, e1, hf], by rw [c2, e2, hw], by rw [c3, e3, hh]⟩,
    ⟨by rw [f1, g1, hf], by rw [f2, g2, hw], by rw [f3, g3, hh]⟩⟩

theorem num_sameGrid (d1 d2 : Driver) (h : SameGrid d1 d2) (x num : Int) :
    SameGrid (lcterm_num d1 x num) (lcterm_num d2 x num) := by
  unfold lcterm_num
  rw [h.2.2]
  split
  · exact h
  · split
    · exact num_loop_sameGrid _ _ _ _ _ _ _ (sameGrid_of_requests d1 d2 h).2.2
    · exact chr_sameGrid d1 d2 h _ _ _

/-- C18: degraded drawing on mode conflict.  The current grid after `lcterm_num`,
`lcterm_vbar` or `lcterm_hbar` depends only on the dimensions and the current grid before
the call: two contexts that agree on these (and differ in their mode fields or anything
else) end with identical current grids, whether the mode request is granted or rejected.
The bar renderer is always invoked, with the arguments of the call, the default cell size
and offset 0; its cells are those it draws when no mode request is made at all. -/
theorem draw_independent_of_modes (K : LcdConsts) (d1 d2 : Driver) (h : SameGrid d1 d2) :
    (∀ x num : Int, SameGrid (lcterm_num d1 x num) (lcterm_num d2 x num)) ∧
    (∀ x y len promille options : Int,
      SameGrid (lcterm_vbar K d1 x y len promille options)
        (lcterm_vbar K d2 x y len promille options) ∧
      SameGrid (lcterm_vbar K d1 x y len promille options)
        (lib_vbar_static K d1 x y len promille options K.LCD_DEFAULT_CELLHEIGHT 0) ∧
      lcterm_vbar K d1 x y len promille options
        = lib_vbar_static K (lcterm_init_vbar d1) x y len promille options
            K.LCD_DEFAULT_CELLHEIGHT 0) ∧
    (∀ x y len promille options : Int,
      SameGrid (lcterm_hbar K d1 x y len promille options)
        (lcterm_hbar K d2 x y len promille options) ∧
      SameGrid (lcterm_hbar K d1 x y len promille options)
        (lib_hbar_static K d1 x y len promille options K.LCD_DEFAULT_CELLWIDTH 0) ∧
      lcterm_hbar K d1 x y len promille options
        = lib_hbar_static K (lcterm_init_hbar d1) x y len promille options
            K.LCD_DEFAULT_CELLWIDTH 0) := by
  have hself : SameGrid d1 d1 := ⟨rfl, rfl, rfl⟩
  have hv1 : SameGrid (lcterm_init_vbar d1) d1 := init_vbar_grid d1
  have hh1 : SameGrid (lcterm_init_hbar d1) d1 := init_hbar_grid d1
  refine ⟨fun x num => num_sameGrid d1 d2 h x num, fun x y len promille options => ?_,
    fun x y len promille options => ?_⟩
  · exact ⟨lib_vbar_static_sameGrid K _ _ (sameGrid_of_requests d1 d2 h).1 _ _ _ _ _ _ _,
      lib_vbar_static_sameGrid K _ _ hv1 _ _ _ _ _ _ _, rfl⟩
  · exact ⟨lib_hbar_static_sameGrid K _ _ (sameGrid_of_requests d1 d2 h).2.1 _ _ _ _ _ _ _,
      lib_hbar_static_sameGrid K _ _ hh1 _ _ _ _ _ _ _, rfl⟩

theorem draw_independent_of_modes_witness :
    SameGrid (lcterm_hbar lcd_h after_vbar 1 1 5 1000 0)
      (lcterm_hbar lcd_h (lcterm_chr (lcterm_clear after_vbar) 1 2 4) 1 1 5 1000 0) :=
  ((draw_independent_of_modes lcd_h after_vbar (lcterm_chr (lcterm_clear after_vbar) 1 2 4)
    (by decide)).2.2 1 1 5 1000 0).1

/-! ## C19 -/

/-- C19: bar monotonicity.  For `len ≥ 0` and `cellPixels > 0` the number of filled units
is non-decreasing in `promille`, is 0 for `promille = 0`, and is `len * cellPixels` for
every `promille ≥ 1000`. -/
theorem filledUnits_monotone (len cellPixels : Int) (hl : 0 ≤ len) (hc : 0 < cellPixels) :
    (∀ p q : Int, p ≤ q → filledUnits len p cellPixels ≤ filledUnits len q cellPixels) ∧
    filledUnits len 0 cellPixels = 0 ∧
    (∀ p : Int, 1000 ≤ p → filledUnits len p cellPixels = len * cellPixels) := by
  have hT : 0 ≤ len * cellPixels := Int.mul_nonneg hl (Int.le_of_lt hc)
  unfold filledUnits
  dsimp only
  generalize len * cellPixels = T at hT ⊢
  refine ⟨fun p q hpq => ?_, ?_, fun p hp => ?_⟩
  · have h1 : p * T ≤ q * T := Int.mul_le_mul_of_nonneg_right hpq hT
    have h2 : (2 * p * T + 1000) / 2000 ≤ (2 * q * T + 1000) / 2000 := by
      apply Int.ediv_le_ediv (by decide)
      rw [Int.mul_assoc 2 p T, Int.mul_assoc 2 q T]
      omega
    omega
  · have : (2 * 0 * T + 1000) / 2000 = 0 := by
      rw [Int.mul_zero, Int.zero_mul]
      decide
    rw [this]
    omega
  · have h1 : 1000 * T ≤ p * T := Int.mul_le_mul_of_nonneg_right hp hT
    have h2 : T ≤ (2 * p * T + 1000) / 2000 := by
      apply Int.le_ediv_of_mul_le (by decide)
      rw [Int.mul_assoc 2 p T]
      omega
    omega

theorem filledUnits_monotone_witness :
    (∀ p q : Int, p ≤ q → filledUnits 2 p 8 ≤ filledUnits 2 q 8) ∧
    filledUnits 2 0 8 = 0 ∧
    (∀ p : Int, 1000 ≤ p → filledUnits 2 p 8 = 2 * 8) :=
  filledUnits_monotone 2 8 (by decide) (by decide)

/-! ## C20 -/

theorem bar_glyph_distribution (filled cellPixels : Int) (hc : 0 < cellPixels) (pos : Nat) :
    bar_glyph filled cellPixels 0 pos
      = if (pos : Int) < filled / cellPixels then 255
        else if (pos : Int) = filled / cellPixels ∧ filled % cellPixels ≠ 0 then
          (filled % cellPixels % 256).toNat
        else 0x20 := by
  have hdm := Int.ediv_add_emod filled cellPixels
  have hm0 := Int.emod_nonneg filled (Int.ne_of_gt hc)
  have hm1 := Int.emod_lt_of_pos filled hc
  unfold bar_glyph
  by_cases h1 : (pos : Int) < filled / cellPixels
  · have hle : ((pos : Int) + 1) * cellPixels ≤ filled := by
      have : ((pos : Int) + 1) * cellPixels ≤ (filled / cellPixels) * cellPixels :=
        Int.mul_le_mul_of_nonneg_right (by omega) (Int.le_of_lt hc)
      rw [Int.mul_comm (filled / cellPixels)] at this
      omega
    rw [if_pos hle, if_pos h1]
  · have hge : filled / cellPixels ≤ (pos : Int) := by omega
    have hmul : (filled / cellPixels) * cellPixels ≤ (pos : Int) * cellPixels :=
      Int.mul_le_mul_of_nonneg_right hge (Int.le_of_lt hc)
    rw [Int.mul_comm (filled / cellPixels)] at hmul
    have hnl : ¬ ((pos : Int) + 1) * cellPixels ≤ filled := by
      rw [Int.add_mul, Int.one_mul]
      omega
    rw [if_neg hnl, if_neg h1]
    by_cases h2 : (pos : Int) = filled / cellPixels ∧ filled % cellPixels ≠ 0
    · have hlt : (pos : Int) * cellPixels < filled := by
        rw [h2.1, Int.mul_comm]
        omega
      rw [if_pos hlt, if_pos h2]
      congr 2
      rw [h2.1, Int.mul_comm]
      omega
    · have hnlt : ¬ (pos : Int) * cellPixels < filled := by
        intro hlt
        apply h2
        have hpe : (pos : Int) = filled / cellPixels := by
          by_contra hne
          have hgt : filled / cellPixels + 1 ≤ (pos : Int) := by omega
          have := Int.mul_le_mul_of_nonneg_right hgt (Int.le_of_lt hc)
          rw [Int.add_mul, Int.one_mul, Int.mul_comm (filled / cellPixels)] at this
          omega
        refine ⟨hpe, fun h0 => ?_⟩
        rw [hpe, Int.mul_comm] at hlt
        omega
      rw [if_neg hnlt, if_neg h2]

theorem bar_glyph_lt (filled cellPixels cc_offset : Int) (pos : Nat) :
    bar_glyph filled cellPixels cc_offset pos < 256 := by
  unfold bar_glyph
  split
  · decide
  · split
    · omega
    · decide

theorem lib_vbar_static_cell (K : LcdConsts) (d : Driver) (hfb : d.private_data.framebuf.length
      = d.private_data.width * d.private_data.height)
    (x y len promille options cellheight cc_offset : Int) (r c : Nat)
    (hr : r < d.private_data.height) (hc : c < d.private_data.width) :
    cell (lib_vbar_static K d x y len promille options cellheight cc_offset).private_data r c
      = if x = c + 1 ∧ (r : Int) + 1 ≤ y ∧ y - (r + 1) < len
        then bar_glyph (filledUnits len promille cellheight) cellheight cc_offset
          (y - (r + 1)).toNat
        else cell d.private_data r c := by
  have hf : (fun (d : Driver) (pos : Nat) => bar_cell K d x (y - pos)
        (filledUnits len promille cellheight) cellheight cc_offset pos)
      = (fun (d : Driver) (pos : Nat) => lcterm_chr d x (y - pos)
        (bar_glyph (filledUnits len promille cellheight) cellheight cc_offset pos)) := by
    funext d pos
    exact bar_cell_eq K d _ _ _ _ _ pos
  unfold lib_vbar_static
  rw [hf]
  have key := foldl_chr_cell d hfb (fun _ => x) (fun pos => y - pos)
    (bar_glyph (filledUnits len promille cellheight) cellheight cc_offset) r c hr hc
    (y - (r + 1)).toNat (fun pos h => by dsimp only at h; omega) len.toNat
  rw [key]
  by_cases h : x = c + 1 ∧ (r : Int) + 1 ≤ y ∧ y - (r + 1) < len
  · rw [if_pos h, if_pos (by omega), Nat.mod_eq_of_lt (bar_glyph_lt _ _ _ _)]
  · rw [if_neg h, if_neg (by omega)]

theorem lib_hbar_static_cell (K : LcdConsts) (d : Driver) (hfb : d.private_data.framebuf.length
      = d.private_data.width * d.private_data.height)
    (x y len promille options cellwidth cc_offset : Int) (r c : Nat)
    (hr : r < d.private_data.height) (hc : c < d.private_data.width) :
    cell (lib_hbar_static K d x y len promille options cellwidth cc_offset).private_data r c
      = if y = r + 1 ∧ x ≤ (c : Int) + 1 ∧ (c : Int) + 1 - x < len
        then bar_glyph (filledUnits len promille cellwidth) cellwidth cc_offset
          ((c : Int) + 1 - x).toNat
        else cell d.private_data r c := by
  have hf : (fun (d : Driver) (pos : Nat) => bar_cell K d (x + pos) y
        (filledUnits len promille cellwidth) cellwidth cc_offset pos)
      = (fun (d : Driver) (pos : Nat) => lcterm_chr d (x + pos) y
        (bar_glyph (filledUnits len promille cellwidth) cellwidth cc_offset pos)) := by
    funext d pos
    exact bar_cell_eq K d _ _ _ _ _ pos
  unfold lib_hbar_static
  rw [hf]
  have key := foldl_chr_cell d hfb (fun pos => x + pos) (fun _ => y)
    (bar_glyph (filledUnits len promille cellwidth) cellwidth cc_offset) r c hr hc
    ((c : Int) + 1 - x).toNat (fun pos h => by dsimp only at h; omega) len.toNat
  rw [key]
  by_cases h : y = r + 1 ∧ x ≤ (c : Int) + 1 ∧ (c : Int) + 1 - x < len
  · rw [if_pos h, if_pos (by omega), Nat.mod_eq_of_lt (bar_glyph_lt _ _ _ _)]
  · rw [if_neg h, if_neg (by omega)]

/-- C20: bar cell distribution.  With `F = filledUnits len promille cellPixels` and
`cellPixels > 0`, cell number `pos` of a bar (counted from its origin end) gets the
fully-filled glyph when `pos < F / cellPixels`, the partial glyph `F mod cellPixels` when
`pos = F / cellPixels` and that remainder is not 0, and a space otherwise.  On the grid, a
vertical bar puts the glyph of cell `pos` at `(x, y - pos)` and a horizontal bar at
`(x + pos, y)` for `pos < len`, and no other cell changes. -/
theorem bar_distribution (K : LcdConsts) (d : Driver) (hwf : WF d)
    (x y len promille options cellPixels : Int) (hcp : 0 < cellPixels) :
    (∀ pos : Nat,
      bar_glyph (filledUnits len promille cellPixels) cellPixels 0 pos
        = if (pos : Int) < filledUnits len promille cellPixels / cellPixels then 255
          else if (pos : Int) = filledUnits len promille cellPixels / cellPixels ∧
              filledUnits len promille cellPixels % cellPixels ≠ 0 then
            (filledUnits len promille cellPixels % cellPixels % 256).toNat
          else 0x20) ∧
    (∀ r c, r < d.private_data.height → c < d.private_data.width →
      cell (lib_vbar_static K d x y len promille options cellPixels 0).private_data r c
        = if x = c + 1 ∧ (r : Int) + 1 ≤ y ∧ y - (r + 1) < len
          then bar_glyph (filledUnits len promille cellPixels) cellPixels 0
            (y - (r + 1)).toNat
          else cell d.private_data r c) ∧
    (∀ r c, r < d.private_data.height → c < d.private_data.width →
      cell (lib_hbar_static K d x y len promille options cellPixels 0).private_data r c
        = if y = r + 1 ∧ x ≤ (c : Int) + 1 ∧ (c : Int) + 1 - x < len
          then bar_glyph (filledUnits len promille cellPixels) cellPixels 0
            ((c : Int) + 1 - x).toNat
          else cell d.private_data r c) :=
  ⟨fun pos => bar_glyph_distribution _ _ hcp pos,
   fun r c hr hc => lib_vbar_static_cell K d hwf.1 _ _ _ _ _ _ _ r c hr hc,
   fun r c hr hc => lib_hbar_static_cell K d hwf.1 _ _ _ _ _ _ _ r c hr hc⟩

theorem bar_distribution_witness :
    (cell (lcterm_vbar lcd_h blank_16x2 1 2 1 500 0).private_data 1 0 = 4 ∧
     cell (lcterm_vbar lcd_h blank_16x2 1 2 1 500 0).private_data 0 0 = 0x20) ∧
    (∀ c, c < 5 → cell (lcterm_hbar lcd_h blank_16x2 1 1 5 1000 0).private_data 0 c = 255) ∧
    (∀ pos : Nat,
      bar_glyph (filledUnits 1 500 8) 8 0 pos
        = if (pos : Int) < filledUnits 1 500 8 / 8 then 255
          else if (pos : Int) = filledUnits 1 500 8 / 8 ∧ filledUnits 1 500 8 % 8 ≠ 0 then
            (filledUnits 1 500 8 % 8 % 256).toNat
          else 0x20) :=
  ⟨by decide, by decide,
   (bar_distribution lcd_h blank_16x2 (by decide) 1 2 1 500 0 8 (by decide)).1⟩


/-! ## C25 -/

/-- C25: mode-field invariant.  In every state reachable from `lcterm_init` by any
sequence of calls of clear, vbar, hbar, num, icon, chr, string and flush (each call
returning), `ccmode` is `standard` or equals `last_ccmode`. -/
theorem mode_field_invariant (K : LcdConsts) (d : Driver) (hr : Reachable K d) :
    d.private_data.ccmode = CGmode.standard ∨
      d.private_data.ccmode = d.private_data.last_ccmode :=
  reachable_modeInv K d hr

theorem off_grid_string_reachable : Reachable lcd_h off_grid_string :=
  Reachable.step after_vbar off_grid_string (Op.string 0 2 [65]) after_vbar_reachable
    (by decide)

theorem mode_field_invariant_witness :
    (second_vbar.private_data.ccmode = CGmode.standard ∨
      second_vbar.private_data.ccmode = second_vbar.private_data.last_ccmode) ∧
    lcterm_string after_vbar 0 2 [65] = some off_grid_string ∧
    (off_grid_string.private_data.ccmode = CGmode.standard ∨
      off_grid_string.private_data.ccmode = off_grid_string.private_data.last_ccmode) :=
  ⟨mode_field_invariant lcd_h second_vbar second_vbar_reachable, by decide,
    mode_field_invariant lcd_h off_grid_string off_grid_string_reachable⟩

/-! ## C26 -/

theorem set_char_row_range (dat : List Nat) (row : Nat) :
    0x80 ≤ set_char_row dat row ∧ set_char_row dat row ≤ 0x9F := by
  have hr : List.range 5 = [0, 1, 2, 3, 4] := by decide
  simp only [set_char_row, hr, List.foldl_cons, List.foldl_nil]
  split_ifs <;> decide

/-- C26: glyph frames cannot be mistaken for control codes.  For a slot `n` in 0..7 and
any pixel data, the frame written by `lcterm_set_char` is `0x1F`, an address byte `a`,
eight row bytes and `0x1E`, where `a` is a multiple of 8 in 0..56 and every row byte lies
in `0x80..0x9F`; hence none of the nine payload bytes is `0x1B`, `0x1E` or `0x1F`. -/
theorem glyph_frame_payload (d : Driver) (n : Int) (dat : List Nat) (h0 : 0 ≤ n)
    (h7 : n ≤ 7) :
    ∃ (a : Nat) (rows : List Nat),
      lcterm_set_char d n (some dat) = d.write ([0x1F, a] ++ rows ++ [0x1E]) ∧
      a % 8 = 0 ∧ a ≤ 56 ∧ rows.length = 8 ∧
      (∀ b ∈ rows, 0x80 ≤ b ∧ b ≤ 0x9F) ∧
      (∀ b ∈ a :: rows, b ≠ 0x1B ∧ b ≠ 0x1E ∧ b ≠ 0x1F) := by
  have hrows : ∀ b ∈ (List.range 8).map (set_char_row dat), 0x80 ≤ b ∧ b ≤ 0x9F := by
    intro b hb
    obtain ⟨r, _, rfl⟩ := List.mem_map.1 hb
    exact set_char_row_range dat r
  refine ⟨8 * n.toNat, (List.range 8).map (set_char_row dat), ?_, by omega, by omega,
    by simp, hrows, ?_⟩
  · rw [set_char_lit d n h0 h7 dat, glyph_frame]
  · intro b hb
    rcases List.mem_cons.1 hb with rfl | hb'
    · omega
    · have := hrows b hb'
      omega

theorem glyph_frame_payload_witness :
    ∃ (a : Nat) (rows : List Nat),
      lcterm_set_char blank_16x2 7 (some heart_open)
        = blank_16x2.write ([0x1F, a] ++ rows ++ [0x1E]) ∧
      a % 8 = 0 ∧ a ≤ 56 ∧ rows.length = 8 ∧
      (∀ b ∈ rows, 0x80 ≤ b ∧ b ≤ 0x9F) ∧
      (∀ b ∈ a :: rows, b ≠ 0x1B ∧ b ≠ 0x1E ∧ b ≠ 0x1F) :=
  glyph_frame_payload blank_16x2 7 heart_open (by decide) (by decide)

/-! ## C27 -/

theorem num_loop_colon (x y : Int) (d : Driver) :
    num_loop x y 10 3 0 d = num_column d x y 10 0 := by
  simp [num_loop]

/-- C27: big colon.  On a display of at least 4 rows, `lcterm_num` with `num = 10` changes
only cells of column `x`: the cells of that column in the rows `y0 .. y0+3`,
`y0 = (height-2)/2`, get the values 32, 7, 7, 32 from top to bottom, and every other cell,
in particular those of the columns `x+1` and `x+2`, keeps its value. -/
theorem num_big_colon (d : Driver) (hwf : WF d) (hh : 4 ≤ d.private_data.height) (x : Int) :
    ∀ r c, r < d.private_data.height → c < d.private_data.width →
      cell (lcterm_num d x 10).private_data r c
        = if x = c + 1 ∧ Int.tdiv ((d.private_data.height : Int) - 2) 2 ≤ r + 1 ∧
              (r : Int) + 1 ≤ Int.tdiv ((d.private_data.height : Int) - 2) 2 + 3
          then ([32, 7, 7, 32] : List Nat).getD
            ((r : Int) + 1 - Int.tdiv ((d.private_data.height : Int) - 2) 2).toNat 0
          else cell d.private_data r c := by
  intro r c hr hc
  obtain ⟨gf, gw, gh⟩ := init_num_grid d
  have hnum : ¬ ((10 : Int) < 0 ∨ (10 : Int) > 10) := by omega
  have hge : d.private_data.height ≥ 4 := hh
  have h10 : (10 : Int).toNat = 10 := rfl
  simp only [lcterm_num, if_neg hnum, if_pos hge, h10]
  rw [num_loop_colon, num_column_cell (lcterm_init_num d) (by rw [gf, gw, gh]; exact hwf.1)
    x _ 10 0 r c (by rw [gh]; exact hr) (by rw [gw]; exact hc)]
  have hcell : cell (lcterm_init_num d).private_data r c = cell d.private_data r c := by
    unfold cell
    rw [gf, gw]
  rw [hcell]
  generalize Int.tdiv ((d.private_data.height : Int) - 2) 2 = y0
  by_cases h : x = c + 1 ∧ y0 ≤ r + 1 ∧ (r : Int) + 1 ≤ y0 + 3
  · rw [if_pos h, if_pos (by omega)]
    obtain ⟨k, hk⟩ : ∃ k : Nat, ((r : Int) + 1 - y0).toNat = k ∧ k < 4 := ⟨_, rfl, by omega⟩
    rw [hk.1]
    have hk4 := hk.2
    interval_cases k <;> rfl
  · rw [if_neg h, if_neg (by omega)]

theorem num_big_colon_witness :
    WF blank_16x4 ∧ 4 ≤ blank_16x4.private_data.height ∧
    cell (lcterm_num blank_16x4 3 10).private_data 0 2 = 32 ∧
    cell (lcterm_num blank_16x4 3 10).private_data 1 2 = 7 ∧
    cell (lcterm_num blank_16x4 3 10).private_data 2 2 = 7 ∧
    cell (lcterm_num blank_16x4 3 10).private_data 3 2 = 32 ∧
    cell (lcterm_num blank_16x4 3 10).private_data 1 3
      = cell blank_16x4.private_data 1 3 ∧
    cell (lcterm_num blank_16x4 3 10).private_data 2 4
      = cell blank_16x4.private_data 2 4 :=
  ⟨by decide, by decide,
    (num_big_colon blank_16x4 (by decide) (by decide) 3 0 2 (by decide) (by decide)).trans
      (by decide),
    (num_big_colon blank_16x4 (by decide) (by decide) 3 1 2 (by decide) (by decide)).trans
      (by decide),
    (num_big_colon blank_16x4 (by decide) (by decide) 3 2 2 (by decide) (by decide)).trans
      (by decide),
    (num_big_colon blank_16x4 (by decide) (by decide) 3 3 2 (by decide) (by decide)).trans
      (by decide),
    (num_big_colon blank_16x4 (by decide) (by decide) 3 1 3 (by decide) (by decide)).trans
      (by decide),
    (num_big_colon blank_16x4 (by decide) (by decide) 3 2 4 (by decide) (by decide)).trans
      (by decide)⟩

/-! ## C23 -/

theorem getD_replicate_lt (n c i : Nat) (hc : c < 8) : (List.replicate n c).getD i 0 < 8 := by
  rw [List.getD_eq_getElem?_getD, List.getElem?_replicate]
  split_ifs
  · exact hc
  · exact Nat.zero_lt_succ _

theorem flush_cells_glyphs_length (n c : Nat) (hc : c < 8) :
    ∀ i sp, (flush_cells (List.replicate n c) i sp).length = 2 * i := by
  intro i
  induction i with
  | zero => intro sp; rfl
  | succ i ih =>
    intro sp
    have e : flush_cells (List.replicate n c) (i + 1) sp
        = (if (List.replicate n c).getD sp 0 < 8 then [0x1B, (List.replicate n c).getD sp 0]
            else [(List.replicate n c).getD sp 0])
          ++ flush_cells (List.replicate n c) i (sp + 1) := rfl
    rw [e, if_pos (getD_replicate_lt n c sp hc), List.length_append, ih]
    simp only [List.length_cons, List.length_nil]
    omega

theorem flush_lines_glyphs_length (n c w : Nat) (hc : c < 8) :
    ∀ h sp, (flush_lines (List.replicate n c) w h sp).length = h * (2 * w + 2) := by
  intro h
  induction h with
  | zero => intro sp; simp [flush_lines]
  | succ h ih =>
    intro sp
    have e : flush_lines (List.replicate n c) w (h + 1) sp
        = flush_cells (List.replicate n c) w sp ++ [0x0a, 0x0d]
          ++ flush_lines (List.replicate n c) w h (sp + w) := rfl
    rw [e, List.length_append, List.length_append, ih, flush_cells_glyphs_length n c hc,
      Nat.add_mul]
    simp only [List.length_cons, List.length_nil]
    omega

/-- On every display of three or more rows, a grid whose cells all hold one glyph code
below 8 makes `lcterm_flush` compose `2*width*height + 2*height + 1` bytes, more than the
`width*height*2 + 5` bytes it reserves. -/
theorem flush_glyphs_overrun (w h c : Nat) (p : PrivateData) (hc : c < 8) (h3 : 3 ≤ h)
    (hw : p.width = w) (hh : p.height = h) (hfb : p.framebuf = List.replicate (w * h) c) :
    (flush_buf p).length = 2 * (w * h) + 2 * h + 1 ∧ flush_alloca p < (flush_buf p).length := by
  have hlen : (flush_buf p).length = 2 * (w * h) + 2 * h + 1 := by
    unfold flush_buf
    rw [List.length_cons, hfb, hw, hh, flush_lines_glyphs_length _ c w hc, Nat.mul_add,
      Nat.mul_comm h (2 * w), Nat.mul_assoc, Nat.mul_comm h 2]
  refine ⟨hlen, ?_⟩
  rw [hlen, flush_alloca, hw, hh]
  omega


/-- C23, the code at failing inputs: on a 20x4 display whose 80 cells all hold a glyph
code below 8, `lcterm_flush` composes 169 bytes into a buffer of 165 bytes; on a 1x3
display with three such cells it composes 13 bytes into a buffer of 11.  In both
contexts the stores run past the buffer, so `lcterm_flush` has no defined result. -/
theorem flush_buffer_overrun :
    (flush_buf glyphs_20x4.private_data).length = 169 ∧
    flush_alloca glyphs_20x4.private_data = 165 ∧
    lcterm_flush glyphs_20x4 = none ∧
    (flush_buf glyphs_1x3.private_data).length = 13 ∧
    flush_alloca glyphs_1x3.private_data = 11 ∧
    lcterm_flush glyphs_1x3 = none := by
  have a1 : (flush_buf glyphs_20x4.private_data).length = 169 := by rfl
  have a2 : flush_alloca glyphs_20x4.private_data = 165 := by rfl
  have b1 : (flush_buf glyphs_1x3.private_data).length = 13 := by rfl
  have b2 : flush_alloca glyphs_1x3.private_data = 11 := by rfl
  refine ⟨a1, a2, flush_overrun _ (by rfl) ?_, b1, b2, flush_overrun _ (by rfl) ?_⟩
  · rw [a1, a2]
    decide
  · rw [b1, b2]
    decide

/-! ## C21 -/

/-- C21, counterexample: when the write of `lcterm_flush` fails, nothing is reported and
the committed grid is updated all the same, so the device has received nothing, and a
flush that follows (its write succeeding) transmits nothing: the display is not brought
back in sync with the current grid. -/
theorem transport_failure_counterexample :
    ∃ d1, lcterm_flush_io false c1_driver [] = some (d1, []) ∧
      d1.reported = c1_driver.reported ∧
      d1.private_data.framebuf = [3, 65, 255, 0] ∧
      lcterm_flush_io true d1 [] = some (d1, []) ∧
      (lcterm_set_char_io false c1_driver 1 (some vbar_1) []).1.reported
        = c1_driver.reported :=
  ⟨flush_done c1_driver, by decide, by decide, by decide, by decide, by decide⟩

theorem flush_io_fst (ok : Bool) (d : Driver) (received : List (List Nat)) :
    (lcterm_flush_io ok d received).map Prod.fst = lcterm_flush d := by
  unfold lcterm_flush_io lcterm_flush
  dsimp only
  split
  · rfl
  · split <;> rfl

theorem flush_io_some (ok : Bool) (d : Driver) (received : List (List Nat))
    (r : Driver × List (List Nat)) (h : lcterm_flush_io ok d received = some r) :
    r.1 = flush_done d := by
  have e := flush_io_fst ok d received
  rw [h] at e
  exact flush_some d r.1 e.symm

theorem set_char_io_fst (ok : Bool) (d : Driver) (n : Int) (dat : Option (List Nat))
    (received : List (List Nat)) :
    (lcterm_set_char_io ok d n dat received).1 = lcterm_set_char d n dat := by
  unfold lcterm_set_char_io lcterm_set_char
  cases dat with
  | none => rfl
  | some dat =>
    dsimp only
    split <;> rfl

/-- C21, amended: the outcome of the transport write has no influence on the driver.
Whether the write of `lcterm_flush` or `lcterm_set_char` succeeds or fails, the context
afterwards is the same (the write is issued once and not retried, the committed grid is
set to the current grid) and nothing is reported.  A flush that directly follows
transmits nothing; a later flush whose write succeeds delivers the whole current frame to
the device as soon as the current grid differs from the committed grid (and the frame
fits the buffer). -/
theorem transport_outcome_ignored (ok : Bool) (d : Driver) (received : List (List Nat)) :
    (lcterm_flush_io ok d received).map Prod.fst = lcterm_flush d ∧
    (∀ r, lcterm_flush_io ok d received = some r → r.1.reported = d.reported) ∧
    (∀ n dat, (lcterm_set_char_io ok d n dat received).1 = lcterm_set_char d n dat ∧
      (lcterm_set_char_io ok d n dat received).1.reported = d.reported) ∧
    (WF d → ∀ r, lcterm_flush_io ok d received = some r →
      ∀ (ok2 : Bool) (received2 : List (List Nat)),
        lcterm_flush_io ok2 r.1 received2 = some (r.1, received2)) ∧
    (d.private_data.framebuf.take (d.private_data.width * d.private_data.height)
        ≠ d.private_data.last_framebuf.take (d.private_data.width * d.private_data.height) →
      (frame_bytes d.private_data).length ≤ flush_alloca d.private_data →
      ∃ d1, lcterm_flush_io true d received
        = some (d1, received ++ [frame_bytes d.private_data])) := by
  refine ⟨flush_io_fst ok d received, fun r hr => ?_,
    fun n dat => ⟨set_char_io_fst ok d n dat received, ?_⟩,
    fun hwf r hr ok2 received2 => ?_, fun hne hfit => ?_⟩
  · rw [flush_io_some ok d received r hr]
    exact (flush_modes d).2.2
  · rw [set_char_io_fst]
    exact set_char_reported d n dat
  · rw [flush_io_some ok d received r hr]
    have hg := flush_grids_eq d hwf
    have hcmp : memcmp_eq (flush_done d).private_data.framebuf
        (flush_done d).private_data.last_framebuf
        ((flush_done d).private_data.width * (flush_done d).private_data.height)
          = true := by
      rw [hg]
      simp [memcmp_eq]
    simp only [lcterm_flush_io, hcmp, if_true]
  · have hcmp : memcmp_eq d.private_data.framebuf d.private_data.last_framebuf
        (d.private_data.width * d.private_data.height) = false := by
      rw [Bool.eq_false_iff]
      intro h
      apply hne
      simpa [memcmp_eq] using h
    rw [← flush_buf_eq] at hfit ⊢
    have hn : ¬ flush_alloca d.private_data < (flush_buf d.private_data).length :=
      Nat.not_lt.2 hfit
    refine ⟨flush_done d, ?_⟩
    simp only [lcterm_flush_io, flush_done, hcmp, Bool.false_eq_true, if_false, hn, sys_write,
      if_true]

theorem transport_outcome_ignored_witness :
    (lcterm_flush_io false c1_driver []).map Prod.fst = lcterm_flush c1_driver ∧
    lcterm_flush_io false c1_driver [] = some (flush_done c1_driver, []) ∧
    lcterm_flush_io true (flush_done c1_driver) [] = some (flush_done c1_driver, []) ∧
    ∃ d1, lcterm_flush_io true c1_driver []
      = some (d1, [] ++ [frame_bytes c1_driver.private_data]) :=
  ⟨(transport_outcome_ignored false c1_driver []).1, by decide,
   (transport_outcome_ignored false c1_driver []).2.2.2.1 (by decide)
     (flush_done c1_driver, []) (by decide) true [],
   (transport_outcome_ignored true c1_driver []).2.2.2.2 (by decide) (by decide)⟩

/-! ## C28 -/

theorem report_to_store (s : ReportState) (level : Int) (text : String)
    (hd : s.report_dest = ReportDest.RPT_DEST_STORE) :
    report s level text =
      store_report_message s level (String.mk (text.toList.take 1023)) := by
  have hcond : level ≤ s.report_level ∨ s.report_dest = ReportDest.RPT_DEST_STORE :=
    Or.inr hd
  unfold report
  rw [if_pos hcond, hd]

theorem report_store_step (s : ReportState) (level : Int) (text : String)
    (hd : s.report_dest = ReportDest.RPT_DEST_STORE)
    (hm : s.stored_msgs.length = MAX_STORED_MSGS)
    (hl : s.stored_levels.length = MAX_STORED_MSGS) :
    (s.num_stored_msgs < MAX_STORED_MSGS →
      ∃ s1, report s level text = some s1 ∧ s1.num_stored_msgs = s.num_stored_msgs + 1 ∧
        s1.report_dest = ReportDest.RPT_DEST_STORE ∧
        s1.stored_msgs.length = MAX_STORED_MSGS ∧
        s1.stored_levels.length = MAX_STORED_MSGS) ∧
    (MAX_STORED_MSGS ≤ s.num_stored_msgs → report s level text = none) := by
  rw [report_to_store s level text hd]
  constructor
  · intro hlt
    have hin : s.num_stored_msgs < s.stored_msgs.length ∧
        s.num_stored_msgs < s.stored_levels.length := by
      rw [hm, hl]; exact ⟨hlt, hlt⟩
    unfold store_report_message
    rw [if_pos hin]
    refine ⟨_, rfl, rfl, hd, ?_, ?_⟩
    · simpa using hm
    · simpa using hl
  · intro hge
    have hout : ¬ (s.num_stored_msgs < s.stored_msgs.length ∧
        s.num_stored_msgs < s.stored_levels.length) := by
      rw [hm, hl]; omega
    unfold store_report_message
    rw [if_neg hout]

theorem report_store_run (calls : List (Int × String)) :
    ∀ s : ReportState, s.report_dest = ReportDest.RPT_DEST_STORE →
      s.stored_msgs.length = MAX_STORED_MSGS → s.stored_levels.length = MAX_STORED_MSGS →
      (s.num_stored_msgs + calls.length ≤ MAX_STORED_MSGS →
        ∃ s1, report_all s calls = some s1 ∧
          s1.num_stored_msgs = s.num_stored_msgs + calls.length) ∧
      (s.num_stored_msgs ≤ MAX_STORED_MSGS →
        MAX_STORED_MSGS < s.num_stored_msgs + calls.length → report_all s calls = none) := by
  induction calls with
  | nil =>
    intro s _ _ _
    exact ⟨fun _ => ⟨s, rfl, rfl⟩, fun h1 h2 => by simp at h2; omega⟩
  | cons c rest ih =>
    intro s hd hm hl
    obtain ⟨level, text⟩ := c
    obtain ⟨hstep, hfail⟩ := report_store_step s level text hd hm hl
    constructor
    · intro hle
      simp only [List.length_cons] at hle
      obtain ⟨s1, e1, n1, d1, m1, l1⟩ := hstep (by omega)
      obtain ⟨s2, e2, n2⟩ := (ih s1 d1 m1 l1).1 (by omega)
      refine ⟨s2, ?_, ?_⟩
      · simp only [report_all, e1, e2]
      · rw [n2, n1, List.length_cons]; omega
    · intro hle hgt
      simp only [List.length_cons] at hgt
      rcases Nat.lt_or_ge s.num_stored_msgs MAX_STORED_MSGS with hlt | hge
      · obtain ⟨s1, e1, n1, d1, m1, l1⟩ := hstep hlt
        have := (ih s1 d1 m1 l1).2 (by omega) (by omega)
        simp only [report_all, e1, this]
      · simp only [report_all, hfail hge]

theorem report_start_lengths (rpt_info : Int) :
    (report_start rpt_info).stored_msgs.length = MAX_STORED_MSGS ∧
    (report_start rpt_info).stored_levels.length = MAX_STORED_MSGS :=
  ⟨List.length_replicate _ _, List.length_replicate _ _⟩

/-- C28, the code at the failing input: from program start (destination
`RPT_DEST_STORE`, whatever the value of `RPT_INFO`), 200 calls of `report` fill the store
(`num_stored_msgs = 200`), and every sequence of more than 200 calls, of any levels and
messages, makes `store_report_message` write at index 200, outside the arrays of
`MAX_STORED_MSGS = 200` entries. -/
theorem report_store_overflow (rpt_info : Int) :
    MAX_STORED_MSGS = 200 ∧
    (∃ s1, report_all (report_start rpt_info) (List.replicate 200 (1, "message")) = some s1 ∧
      s1.num_stored_msgs = 200) ∧
    report_all (report_start rpt_info) (List.replicate 201 (1, "message")) = none ∧
    (∀ calls : List (Int × String), 200 < calls.length →
      report_all (report_start rpt_info) calls = none) := by
  have hs := fun calls => report_store_run calls (report_start rpt_info) rfl
    (report_start_lengths rpt_info).1 (report_start_lengths rpt_info).2
  have h0 : (report_start rpt_info).num_stored_msgs = 0 := rfl
  have hM : MAX_STORED_MSGS = 200 := rfl
  refine ⟨rfl, ?_, ?_, fun calls hlen => ?_⟩
  · obtain ⟨s1, e, n⟩ := (hs (List.replicate 200 (1, "message"))).1
      (by rw [h0, hM, List.length_replicate])
    exact ⟨s1, e, by rw [n, h0, List.length_replicate]⟩
  · exact (hs (List.replicate 201 (1, "message"))).2
      (by rw [h0]; exact Nat.zero_le _) (by rw [h0, hM, List.length_replicate]; omega)
  · exact (hs calls).2 (by rw [h0]; exact Nat.zero_le _) (by rw [h0, hM]; omega)

/-! ## C24 -/

theorem wire_decode_home (l : List Nat) (s : Display) :
    wire_decode (0x1E :: l) s = wire_decode l s.home := by
  cases l with
  | nil => simp [wire_decode]
  | cons c rest => simp [wire_decode]

theorem wire_decode_escape (c : Nat) (l : List Nat) (s : Display) :
    wire_decode (0x1B :: c :: l) s = wire_decode l (s.put c) := by
  simp [wire_decode]

theorem wire_decode_end_row (l : List Nat) (s : Display) :
    wire_decode (0x0A :: 0x0D :: l) s = wire_decode l s.end_row := by
  simp [wire_decode]

theorem wire_decode_cell (b : Nat) (l : List Nat) (s : Display)
    (h1 : b ≠ 0x1E) (h2 : b ≠ 0x1B) (h3 : b = 0x0A → l.head? ≠ some 0x0D) :
    wire_decode (b :: l) s = wire_decode l (s.put b) := by
  cases l with
  | nil => simp [wire_decode, h1, h2]
  | cons c rest =>
    have h4 : ¬ (b = 0x0A ∧ c = 0x0D) := by
      rintro ⟨hb, hc⟩
      exact h3 hb (by simp [hc])
    simp only [wire_decode, if_neg h1, if_neg h2, if_neg h4]

/-- C24, counterexample: three 2x1 grids that the wire rules do not give back.  The cell
`0x1B` is transmitted raw and taken as the escape marker, so `A` is shown in the first
cell and the second is never written; the cell `0x1E` homes the cursor and is not shown;
the cells `0x0A`, `0x0D` are taken as the end of a row and neither is shown. -/
theorem wire_decode_counterexample :
    (lcterm_flush escape_cell_2x1 = some (flush_done escape_cell_2x1) ∧
      (flush_done escape_cell_2x1).written = [[0x1E, 0x1B, 65, 0x0A, 0x0D]] ∧
      (wire_decode [0x1E, 0x1B, 65, 0x0A, 0x0D]
          (display_of escape_cell_2x1.private_data)).cells = [65, 32] ∧
      escape_cell_2x1.private_data.framebuf = [0x1B, 65]) ∧
    (lcterm_flush home_cell_2x1 = some (flush_done home_cell_2x1) ∧
      (flush_done home_cell_2x1).written = [[0x1E, 0x1E, 65, 0x0A, 0x0D]] ∧
      (wire_decode [0x1E, 0x1E, 65, 0x0A, 0x0D]
          (display_of home_cell_2x1.private_data)).cells = [65, 32] ∧
      home_cell_2x1.private_data.framebuf = [0x1E, 65]) ∧
    (lcterm_flush newline_pair_2x1 = some (flush_done newline_pair_2x1) ∧
      (flush_done newline_pair_2x1).written = [[0x1E, 0x0A, 0x0D, 0x0A, 0x0D]] ∧
      (wire_decode [0x1E, 0x0A, 0x0D, 0x0A, 0x0D]
          (display_of newline_pair_2x1.private_data)).cells = [32, 32] ∧
      newline_pair_2x1.private_data.framebuf = [0x0A, 0x0D]) := by
  refine ⟨⟨by decide, by decide, by decide, rfl⟩, ⟨by decide, by decide, by decide, rfl⟩,
    ⟨by decide, by decide, by decide, rfl⟩⟩

theorem synced_put (w : Nat) (fb : List Nat) (s : Display) (r j : Nat)
    (hs : Synced w fb s r j) (hj : j < w) (hi : r * w + j < fb.length) :
    Synced w fb (s.put (fb.getD (r * w + j) 0)) r (j + 1) := by
  obtain ⟨hw, hr, hc, hl, hag⟩ := hs
  have hcw : s.col < s.width := by rw [hc, hw]; exact hj
  refine ⟨hw, hr, by simp [Display.put, hc], ?_, ?_⟩
  · simp only [Display.put, if_pos hcw, List.length_set]
    exact hl
  · intro i hlt
    simp only [Display.put, if_pos hcw, hr, hw, hc, if_pos hj]
    rcases Nat.lt_or_ge i (r * w + j) with h | h
    · have hne : r * w + j ≠ i := by omega
      rw [List.getD_eq_getElem?_getD, List.getElem?_set_ne hne,
        ← List.getD_eq_getElem?_getD]
      exact hag i h
    · have e : i = r * w + j := by omega
      subst e
      have hi2 : r * w + j < s.cells.length := by rw [hl]; exact hi
      rw [List.getD_eq_getElem?_getD, List.getElem?_set_self hi2]
      rfl

theorem synced_end_row (w : Nat) (fb : List Nat) (s : Display) (r : Nat)
    (hs : Synced w fb s r w) : Synced w fb s.end_row (r + 1) 0 := by
  obtain ⟨hw, hr, _, hl, hag⟩ := hs
  refine ⟨hw, by simp [Display.end_row, hr], rfl, hl, ?_⟩
  intro i hlt
  exact hag i (by rw [Nat.add_mul, Nat.one_mul] at hlt; omega)

theorem synced_home (fb : List Nat) (s : Display) (hl : s.cells.length = fb.length) :
    Synced s.width fb s.home 0 0 :=
  ⟨rfl, rfl, rfl, hl, fun i h => by omega⟩

theorem synced_cells (w : Nat) (fb : List Nat) (s : Display) (r : Nat)
    (hs : Synced w fb s r 0) (h : r * w = fb.length) : s.cells = fb := by
  obtain ⟨_, _, _, hl, hag⟩ := hs
  apply List.ext_getElem hl
  intro i h1 h2
  have := hag i (by omega)
  rw [List.getD_eq_getElem _ _ h1, List.getD_eq_getElem _ _ h2] at this
  exact this

theorem flush_cells_head (fb : List Nat) (n sp : Nat) (l : List Nat) :
    (flush_cells fb (n + 1) sp ++ l).head?
      = some (if fb.getD sp 0 < 8 then 0x1B else fb.getD sp 0) := by
  have e : flush_cells fb (n + 1) sp
      = (if fb.getD sp 0 < 8 then [0x1B, fb.getD sp 0] else [fb.getD sp 0])
        ++ flush_cells fb n (sp + 1) := rfl
  rw [e]
  split_ifs <;> rfl

theorem flush_cells_decode (w : Nat) (fb : List Nat) (r : Nat)
    (hrow : r * w + w ≤ fb.length) (hc : ∀ b ∈ fb, b ≠ 0x1B ∧ b ≠ 0x1E)
    (hadj : ∀ j, j + 1 < w → fb.getD (r * w + j) 0 = 0x0A →
      fb.getD (r * w + (j + 1)) 0 ≠ 0x0D) :
    ∀ (n j : Nat) (s : Display), j + n = w → Synced w fb s r j →
      ∃ s1, Synced w fb s1 r w ∧
        ∀ l, l.head? ≠ some 0x0D →
          wire_decode (flush_cells fb n (r * w + j) ++ l) s = wire_decode l s1 := by
  intro n
  induction n with
  | zero =>
    intro j s hj hs
    have e : j = w := by omega
    subst e
    exact ⟨s, hs, fun l _ => rfl⟩
  | succ n ih =>
    intro j s hj hs
    have hi : r * w + j < fb.length := by omega
    have hmem : fb.getD (r * w + j) 0 ∈ fb := by
      rw [List.getD_eq_getElem _ _ hi]
      exact List.getElem_mem _
    obtain ⟨h1B, h1E⟩ := hc _ hmem
    obtain ⟨s1, hs1, hdec⟩ := ih (j + 1) (s.put (fb.getD (r * w + j) 0)) (by omega)
      (synced_put w fb s r j hs (by omega) hi)
    refine ⟨s1, hs1, fun l hl => ?_⟩
    have e : flush_cells fb (n + 1) (r * w + j)
        = (if fb.getD (r * w + j) 0 < 8 then [0x1B, fb.getD (r * w + j) 0]
            else [fb.getD (r * w + j) 0]) ++ flush_cells fb n (r * w + (j + 1)) := rfl
    rw [e, ← hdec l hl]
    by_cases hlt : fb.getD (r * w + j) 0 < 8
    · simp only [if_pos hlt, List.cons_append, List.nil_append, List.append_assoc]
      rw [wire_decode_escape]
    · simp only [if_neg hlt, List.cons_append, List.nil_append, List.append_assoc]
      apply wire_decode_cell _ _ _ h1E h1B
      intro h0A
      cases n with
      | zero => exact hl
      | succ m =>
        rw [flush_cells_head]
        have hnext := hadj j (by omega) h0A
        split_ifs
        · simp
        · simpa using hnext

theorem flush_lines_decode (w h : Nat) (fb : List Nat) (hfb : fb.length = w * h)
    (hc : ∀ b ∈ fb, b ≠ 0x1B ∧ b ≠ 0x1E)
    (hadj : ∀ r j, r < h → j + 1 < w → fb.getD (r * w + j) 0 = 0x0A →
      fb.getD (r * w + (j + 1)) 0 ≠ 0x0D) :
    ∀ (m r : Nat) (s : Display), r + m = h → Synced w fb s r 0 →
      ∃ s1, Synced w fb s1 h 0 ∧
        ∀ l, wire_decode (flush_lines fb w m (r * w) ++ l) s = wire_decode l s1 := by
  intro m
  induction m with
  | zero =>
    intro r s hr hs
    have e : r = h := by omega
    subst e
    exact ⟨s, hs, fun l => rfl⟩
  | succ m ih =>
    intro r s hr hs
    have hrow : r * w + w ≤ fb.length := by
      have : (r + 1) * w ≤ h * w := Nat.mul_le_mul_right w (by omega)
      rw [Nat.add_mul, Nat.one_mul] at this
      rw [hfb, Nat.mul_comm w h]
      exact this
    obtain ⟨s1, hs1, hdec1⟩ := flush_cells_decode w fb r hrow hc
      (fun j hj => hadj r j (by omega) hj) w 0 s (by omega) hs
    obtain ⟨s2, hs2, hdec2⟩ := ih (r + 1) s1.end_row (by omega) (synced_end_row w fb s1 r hs1)
    refine ⟨s2, hs2, fun l => ?_⟩
    unfold flush_lines
    have e : (r + 1) * w = r * w + w := by rw [Nat.add_mul, Nat.one_mul]
    have hdec1 : ∀ l, l.head? ≠ some 0x0D →
        wire_decode (flush_cells fb w (r * w) ++ l) s = wire_decode l s1 := hdec1
    rw [List.append_assoc, List.append_assoc, hdec1 _ (by simp)]
    simp only [List.cons_append, List.nil_append]
    rw [wire_decode_end_row, ← e, hdec2]

theorem flush_buf_decode (p : PrivateData) (s : Display)
    (hfb : p.framebuf.length = p.width * p.height)
    (hc : ∀ b ∈ p.framebuf, b ≠ 0x1B ∧ b ≠ 0x1E)
    (hadj : ∀ r c, r < p.height → c + 1 < p.width → cell p r c = 0x0A →
      cell p r (c + 1) ≠ 0x0D)
    (hw : s.width = p.width) (hl : s.cells.length = p.width * p.height) :
    (wire_decode (flush_buf p) s).cells = p.framebuf := by
  have h0 : Synced p.width p.framebuf s.home 0 0 := by
    rw [← hw]
    exact synced_home p.framebuf s (by rw [hl, hfb])
  obtain ⟨s1, hs1, hdec⟩ := flush_lines_decode p.width p.height p.framebuf hfb hc hadj
    p.height 0 s.home (by omega) h0
  unfold flush_buf
  rw [wire_decode_home]
  have := hdec []
  rw [Nat.zero_mul, List.append_nil] at this
  rw [this]
  exact synced_cells p.width p.framebuf s1 p.height hs1 (by rw [hfb, Nat.mul_comm])

/-- C24 (amended): let the current grid differ from the committed grid, let its stream fit
the buffer `lcterm_flush` reserves, let no cell hold `0x1B` or `0x1E`, and let no cell
holding `0x0A` be directly followed in its row by a cell holding `0x0D`.  Then
`lcterm_flush` returns and has issued one write, and a display of the same size that
interprets its bytes under the wire rules (`0x1E` homes the cursor, `0x1B` makes the next
byte a literal cell, `0x0A 0x0D` ends a row, every other byte is one cell) shows exactly
the current grid afterwards, cell for cell, whatever it showed before and wherever its
cursor was. -/
theorem wire_round_trip (d : Driver) (s : Display) (hwf : WF d)
    (hne : d.private_data.framebuf ≠ d.private_data.last_framebuf)
    (hfit : (flush_buf d.private_data).length ≤ flush_alloca d.private_data)
    (hc : ∀ b ∈ d.private_data.framebuf, b ≠ 0x1B ∧ b ≠ 0x1E)
    (hadj : ∀ r c, r < d.private_data.height → c + 1 < d.private_data.width →
      cell d.private_data r c = 0x0A → cell d.private_data r (c + 1) ≠ 0x0D)
    (hw : s.width = d.private_data.width)
    (hl : s.cells.length = d.private_data.width * d.private_data.height) :
    ∃ d' t, lcterm_flush d = some d' ∧ d'.written = d.written ++ [t] ∧
      (wire_decode t s).cells = d.private_data.framebuf := by
  refine ⟨flush_done d, flush_buf d.private_data, flush_fits d hfit, ?_,
    flush_buf_decode d.private_data s hwf.1 hc hadj hw hl⟩
  rw [flush_done_written d hwf hne, flush_buf_eq]

theorem wire_round_trip_witness :
    WF control_cells_2x2 ∧
    control_cells_2x2.private_data.framebuf = [0x0D, 0x0A, 0x0A, 65] ∧
    ∃ d' t, lcterm_flush control_cells_2x2 = some d' ∧
      d'.written = control_cells_2x2.written ++ [t] ∧
      (wire_decode t (display_of control_cells_2x2.private_data)).cells
        = [0x0D, 0x0A, 0x0A, 65] :=
  ⟨by decide, rfl,
    wire_round_trip control_cells_2x2 (display_of control_cells_2x2.private_data)
      (by decide) (by decide) (by decide) (by decide)
      (fun r c hr hc => by
        have hc0 : c = 0 := by
          have : c + 1 < 2 := hc
          omega
        have hr2 : r < 2 := hr
        subst hc0
        interval_cases r <;> decide)
      rfl rfl⟩

/-! ## C22 -/

theorem isDigit_bounds (c : Char) (h : c.isDigit = true) : 48 ≤ c.toNat ∧ c.toNat ≤ 57 := by
  simp only [Char.isDigit, Bool.and_eq_true, decide_eq_true_eq] at h
  obtain ⟨h1, h2⟩ := h
  have h1 : (48 : UInt32).toNat ≤ c.val.toNat := h1
  have h2 : c.val.toNat ≤ (57 : UInt32).toNat := h2
  exact ⟨h1, h2⟩

theorem scan_digits_numeral (ds rest : List Char) (hds : ∀ c ∈ ds, c.isDigit = true)
    (hrest : ∀ c r, rest = c :: r → c.isDigit = false) :
    ∀ acc, scan_digits (ds ++ rest) acc
      = (ds.foldl (fun acc c => 10 * acc + (c.toNat - 48)) acc, rest) := by
  induction ds with
  | nil =>
    intro acc
    cases rest with
    | nil => rfl
    | cons c r => simp [scan_digits, hrest c r rfl]
  | cons c ds ih =>
    intro acc
    have hc : c.isDigit = true := hds c (List.mem_cons_self _ _)
    have := ih (fun c hc => hds c (List.mem_cons_of_mem _ hc)) (10 * acc + (c.toNat - 48))
    simp only [List.cons_append, scan_digits, hc, if_true, List.foldl_cons]
    exact this

theorem int_of_long_fits (v : Int) (h0 : 0 ≤ v) (h1 : v < 2147483648) :
    int_of_long (strtol_value v) = v := by
  unfold int_of_long strtol_value
  split_ifs <;> omega

theorem scan_d_numeral (ds rest : List Char) (hds : IsNumeral ds)
    (hrest : ∀ c r, rest = c :: r → c.isDigit = false) (hfit : decimal ds < 2147483648) :
    scan_d (ds ++ rest) = some ((decimal ds : Int), rest) := by
  obtain ⟨hne, hall⟩ := hds
  cases ds with
  | nil => exact absurd rfl hne
  | cons c ds1 =>
    have hc : c.isDigit = true := hall c (List.mem_cons_self _ _)
    obtain ⟨b1, b2⟩ := isDigit_bounds c hc
    have hsp : isspace c = false := by
      simp only [isspace, Bool.or_eq_false_iff, decide_eq_false_iff_not, Bool.and_eq_false_iff]
      omega
    have hm : c ≠ '-' := by
      intro e; rw [e] at hc; exact absurd hc (by decide)
    have hp : c ≠ '+' := by
      intro e; rw [e] at hc; exact absurd hc (by decide)
    have hdrop : (c :: ds1 ++ rest).dropWhile isspace = c :: (ds1 ++ rest) := by
      simp [List.dropWhile, hsp]
    have hscan := scan_digits_numeral (c :: ds1) rest hall hrest 0
    unfold scan_d
    rw [hdrop]
    split
    · rename_i heq
      simp only [List.cons.injEq] at heq
      exact absurd heq.1 hm
    · rename_i heq
      simp only [List.cons.injEq] at heq
      exact absurd heq.1 hp
    · simp only [hc, if_true]
      rw [← List.cons_append, hscan]
      have hv : int_of_long (strtol_value ((decimal (c :: ds1) : Nat) : Int))
          = ((decimal (c :: ds1) : Nat) : Int) :=
        int_of_long_fits _ (Int.ofNat_nonneg _) (by omega)
      simp only [Bool.false_eq_true, if_false]
      exact congrArg (fun v => some (v, rest)) hv

theorem sscanf_dxd_numerals (ds1 ds2 : List Char) (h1 : IsNumeral ds1) (h2 : IsNumeral ds2)
    (f1 : decimal ds1 < 2147483648) (f2 : decimal ds2 < 2147483648) :
    sscanf_dxd (ds1 ++ 'x' :: ds2) = (2, (decimal ds1 : Int), (decimal ds2 : Int)) := by
  have e1 := scan_d_numeral ds1 ('x' :: ds2) h1
    (fun c r e => by
      simp only [List.cons.injEq] at e
      rw [← e.1]
      decide) f1
  have e2 := scan_d_numeral ds2 [] h2 (fun c r e => by simp at e) f2
  rw [List.append_nil] at e2
  unfold sscanf_dxd
  rw [e1]
  dsimp only
  split
  · rename_i r2 heq
    simp only [List.cons.injEq, true_and] at heq
    rw [← heq, e2]
  · rename_i hno
    exact absurd rfl (hno ds2)

theorem sscanf_default : sscanf_dxd "16x2".toList = (2, 16, 2) := by decide

theorem parse_size_cases (K : LcdConsts) (s : String) :
    (parse_size K s = (16, 2, true) ∧
      ¬ ∃ w h, sscanf_dxd s.toList = (2, w, h) ∧
        1 ≤ w ∧ w ≤ K.LCD_MAX_WIDTH ∧ 1 ≤ h ∧ h ≤ K.LCD_MAX_HEIGHT) ∨
    ∃ w h, sscanf_dxd s.toList = (2, w, h) ∧
      1 ≤ w ∧ w ≤ K.LCD_MAX_WIDTH ∧ 1 ≤ h ∧ h ≤ K.LCD_MAX_HEIGHT ∧
      parse_size K s = (w, h, false) := by
  rcases hs : sscanf_dxd s.toList with ⟨n, w, h⟩
  unfold parse_size
  rw [hs, sscanf_default]
  dsimp only
  by_cases hc : n ≠ 2 ∨ w ≤ 0 ∨ w > K.LCD_MAX_WIDTH ∨ h ≤ 0 ∨ h > K.LCD_MAX_HEIGHT
  · left
    rw [if_pos hc]
    refine ⟨rfl, ?_⟩
    rintro ⟨w1, h1, e, a1, a2, a3, a4⟩
    simp only [Prod.mk.injEq] at e
    obtain ⟨en, ew, eh⟩ := e
    subst en ew eh
    omega
  · right
    rw [if_neg hc]
    refine ⟨w, h, ?_, ?_, ?_, ?_, ?_, rfl⟩
    · have : n = 2 := by
        by_contra hn
        exact hc (Or.inl hn)
      rw [this]
    all_goals omega

theorem init_size (K : LcdConsts) (name device size : String) (alloc_ok : Bool) (fd : Int)
    (d : Driver) (h : lcterm_init K name device size alloc_ok fd = some d) :
    d.private_data.width = (parse_size K size).1.toNat ∧
    d.private_data.height = (parse_size K size).2.1.toNat ∧
    d.reported = init_messages name device size (parse_size K size).1 (parse_size K size).2.1
      (parse_size K size).2.2 := by
  unfold lcterm_init at h
  split at h
  · simp at h
  · rcases hps : parse_size K size with ⟨w, h1, bad⟩
    rw [hps] at h
    dsimp only at h
    split at h
    · simp at h
    · simp only [Option.some.injEq] at h
      subst h
      cases bad <;> simp [Driver.report, Driver.write, init_messages]

end LCTerm
